import Mathlib

/-!
# Polycap: photon transport through a polycapillary optic

A shallow embedding of `src/polycap.c` (the wall intersection solver `segment`,
the reflectivity model `reflect`, the transport step `capil`, the exit check
`count`, the photon generator `start`, the set-up routines `ini_polycap`,
`def_cap_profile` and `reset_leak`, and the driver loop of `main`) together
with the properties established about them.

Conventions of the embedding.

* A C `double` is a real number and a C `double complex` a complex number:
  every operation is the exact one (`sqrt` is `Real.sqrt`, `atan` is
  `Real.arctan`, `acos` is `Real.arccos`, `exp` is `Real.exp`, `M_PI` is
  `Real.pi`, `csqrt z` is the principal root `z ^ (1/2)`, `cabs` is
  `Complex.abs`).  Rounding, infinities and NaN are not modelled.
* Division is the total division of a field (`x / 0 = 0`).  The places where
  the C code can divide by zero are named at the definitions (`segCk1`,
  `segRnRaw`, `norm`): in the range tests of `segment` an IEEE infinity or NaN
  fails exactly as the value `0` does.  Of the concrete rays evaluated below,
  `exParallel` and `exOnWall` divide by `b0 = 0` in the linear branch.
* A loop whose number of iterations is not bounded by its input (the two
  loops of `start`) takes a fuel and returns `none` when the fuel runs out.
  Memory that the source reads before writing it is a parameter (`junk`) or,
  for locals, zero.
* A C array is a total function from the index type `Int`; `int` and `int64_t`
  values are integers.
* A function that writes through its pointer arguments takes and returns the
  record of the objects it can reach.
* Names are those of the source.  The photon state `calc` of the source is
  written `cs`, because `calc` is a keyword; a local `x` of `segment` is
  `segX`, a local of `reflect` is `reflX`.
-/

namespace Polycap

noncomputable section

/-! ## Constants (`#define`s of the source) -/

/-- The number of bins in the grid for the spot. -/
def NSPOT : Int := 1000

/-- The cap on stored image samples. -/
def IMSIZE : Int := 500001

/-- Planck constant times light speed, in keV cm. -/
def HC : ℝ := 1.23984193e-7

/-- Avogadro constant. -/
def N_AVOG : ℝ := 6.022098e+23

/-- Classical electron radius in cm. -/
def R0 : ℝ := 2.8179403227e-13

/-- Tolerance used by `start`. -/
def DELTA : ℝ := 1.0e-10

/-- Tolerance used by `segment`. -/
def EPSILON : ℝ := 1.0e-30

/-! ## Vectors -/

/-- A C array `double[3]`; `x`, `y`, `z` are the entries 0, 1, 2. -/
@[ext]
structure Vec3 where
  x : ℝ
  y : ℝ
  z : ℝ

/-- Source `scalar`: the loop `sum = sum + vect0[i]*vect1[i]` from `sum = 0`. -/
def scalar (vect0 vect1 : Vec3) : ℝ :=
  0 + vect0.x * vect1.x + vect0.y * vect1.y + vect0.z * vect1.z

/-- Source `norm` at `ndim = 3`: divide every entry by the root of the sum of
squares (a zero vector is divided by zero). -/
def norm (vect : Vec3) : Vec3 :=
  let sum := Real.sqrt (0 + vect.x * vect.x + vect.y * vect.y + vect.z * vect.z)
  ⟨vect.x / sum, vect.y / sum, vect.z / sum⟩

/-! ## The wall intersection solver `segment` -/

/-- The objects `segment` reaches through its pointer arguments: the two axis
points, the photon position `rh1` (in and out), the direction `v`, the normal
`rn` (out) and the cosine `calf` (out). -/
structure SegArgs where
  s0 : Vec3
  s1 : Vec3
  rh1 : Vec3
  v : Vec3
  rn : Vec3
  calf : ℝ

/-- Local `drs` of `segment`. -/
def segDrs (m : SegArgs) : Vec3 :=
  ⟨m.rh1.x - m.s0.x, m.rh1.y - m.s0.y, m.rh1.z - m.s0.z⟩

/-- Local `ds` of `segment`. -/
def segDs (m : SegArgs) : Vec3 :=
  ⟨m.s1.x - m.s0.x, m.s1.y - m.s0.y, m.s1.z - m.s0.z⟩

/-- Local `vds` of `segment`. -/
def segVds (m : SegArgs) : ℝ := scalar m.v (segDs m)

/-- Local `a` of `segment`. -/
def segA (m : SegArgs) : ℝ := -1 * scalar (segDrs m) (segDs m) / segVds m

/-- Local `b` of `segment`. -/
def segB (m : SegArgs) : ℝ := scalar (segDs m) (segDs m) / segVds m

/-- Local `aa` of `segment`. -/
def segAa (m : SegArgs) : Vec3 :=
  ⟨m.rh1.x + segA m * m.v.x - m.s0.x, m.rh1.y + segA m * m.v.y - m.s0.y,
    m.rh1.z + segA m * m.v.z - m.s0.z⟩

/-- Local `bb` of `segment`. -/
def segBb (m : SegArgs) : Vec3 :=
  ⟨segB m * m.v.x - m.s1.x + m.s0.x, segB m * m.v.y - m.s1.y + m.s0.y,
    segB m * m.v.z - m.s1.z + m.s0.z⟩

/-- Local `a0` of `segment`: leading coefficient of the quadratic. -/
def segA0 (rad0 rad1 : ℝ) (m : SegArgs) : ℝ :=
  scalar (segBb m) (segBb m) - (rad1 - rad0) * (rad1 - rad0)

/-- Local `b0` of `segment`. -/
def segB0 (rad0 rad1 : ℝ) (m : SegArgs) : ℝ :=
  2 * (scalar (segAa m) (segBb m) - rad0 * (rad1 - rad0))

/-- Local `c0` of `segment`. -/
def segC0 (rad0 : ℝ) (m : SegArgs) : ℝ :=
  scalar (segAa m) (segAa m) - rad0 * rad0

/-- Local `disc` of `segment` before the root is taken. -/
def segDisc (rad0 rad1 : ℝ) (m : SegArgs) : ℝ :=
  segB0 rad0 rad1 m * segB0 rad0 rad1 m - 4 * segA0 rad0 rad1 m * segC0 rad0 m

/-- Local `ck1` of `segment`.  In the linear branch `b0` may be zero: the C
quotient is then infinite or NaN, the value here is `0`, and neither lies in
`(EPSILON, 1]`. -/
def segCk1 (rad0 rad1 : ℝ) (m : SegArgs) : ℝ :=
  if |segA0 rad0 rad1 m| ≤ EPSILON then -segC0 rad0 m / segB0 rad0 rad1 m
  else (-segB0 rad0 rad1 m + Real.sqrt (segDisc rad0 rad1 m)) / (2 * segA0 rad0 rad1 m)

/-- Local `ck2` of `segment`. -/
def segCk2 (rad0 rad1 : ℝ) (m : SegArgs) : ℝ :=
  if |segA0 rad0 rad1 m| ≤ EPSILON then -1000
  else (-segB0 rad0 rad1 m - Real.sqrt (segDisc rad0 rad1 m)) / (2 * segA0 rad0 rad1 m)

/-- Local `ck` of `segment` after the two range tests (source lines 448, 494,
495): `-1000`, overwritten by `ck1` when that is in range, then overwritten by
`ck2` when that is in range. -/
def segCk (rad0 rad1 : ℝ) (m : SegArgs) : ℝ :=
  let ck : ℝ := -1000
  let ck := if segCk1 rad0 rad1 m > EPSILON ∧ segCk1 rad0 rad1 m ≤ 1 then segCk1 rad0 rad1 m else ck
  let ck := if segCk2 rad0 rad1 m > EPSILON ∧ segCk2 rad0 rad1 m ≤ 1 then segCk2 rad0 rad1 m else ck
  ck

/-- Local `cc` of `segment` for the segment parameter `ck`. -/
def segCc (m : SegArgs) (ck : ℝ) : ℝ := segA m + ck * segB m

/-- The new position written to `rh1` (source lines 508-510). -/
def segPoint (m : SegArgs) (ck : ℝ) : Vec3 :=
  ⟨m.rh1.x + segCc m ck * m.v.x, m.rh1.y + segCc m ck * m.v.y, m.rh1.z + segCc m ck * m.v.z⟩

/-- Local `s` of `segment`: the axis point at parameter `ck`. -/
def segS (m : SegArgs) (ck : ℝ) : Vec3 :=
  ⟨m.s0.x + ck * (segDs m).x, m.s0.y + ck * (segDs m).y, m.s0.z + ck * (segDs m).z⟩

/-- Local `u` of `segment`: hit point relative to the axis point. -/
def segU (m : SegArgs) (ck : ℝ) : Vec3 :=
  ⟨(segPoint m ck).x - (segS m ck).x, (segPoint m ck).y - (segS m ck).y,
    (segPoint m ck).z - (segS m ck).z⟩

/-- The normal before normalisation (source lines 521-531).  `au` is zero when
the hit point is on the axis; the C code then produces NaN entries. -/
def segRnRaw (rad0 rad1 : ℝ) (m : SegArgs) (ck : ℝ) : Vec3 :=
  let u := segU m ck
  let ds := segDs m
  let au := Real.sqrt (scalar u u)
  let ads := Real.sqrt (scalar ds ds)
  let tga := (rad0 - rad1) / ads
  let gam := Real.arctan tga
  let cga := Real.cos gam
  let sga := Real.sin gam
  ⟨cga * u.x / au + sga * ds.x / ads, cga * u.y / au + sga * ds.y / ads,
    cga * u.z / au + sga * ds.z / ads⟩

/-- The normal written to `rn` (source line 532). -/
def segRn (rad0 rad1 : ℝ) (m : SegArgs) (ck : ℝ) : Vec3 := norm (segRnRaw rad0 rad1 m ck)

/-- The grazing cosine written to `*calf` (source line 534). -/
def segCalf (rad0 rad1 : ℝ) (m : SegArgs) (ck : ℝ) : ℝ := scalar (segRn rad0 rad1 m ck) m.v

/-- The memory after source lines 508-534 for the selected parameter `ck`. -/
def segHit (rad0 rad1 : ℝ) (m : SegArgs) (ck : ℝ) : SegArgs :=
  { m with rh1 := segPoint m ck, rn := segRn rad0 rad1 m ck, calf := segCalf rad0 rad1 m ck }

/-- Source `segment`: the return code `iesc_local` and the memory on return. -/
def segment (rad0 rad1 : ℝ) (m : SegArgs) : Int × SegArgs :=
  if |segVds m| < EPSILON then (-2, m)
  else if ¬ (|segA0 rad0 rad1 m| ≤ EPSILON) ∧ segDisc rad0 rad1 m < 0 then (-2, m)
  else if segCk rad0 rad1 m = -1000 then (-2, m)
  else if segCc m (segCk rad0 rad1 m) < 1e-10 then (-2, m)
  else if (segHit rad0 rad1 m (segCk rad0 rad1 m)).calf < 0.0 then
    (-2, segHit rad0 rad1 m (segCk rad0 rad1 m))
  else (0, segHit rad0 rad1 m (segCk rad0 rad1 m))

/-! ### The divisions of `segment` -/

/-- The divisions of source lines 516-531 of `segment`, executed once the
candidate point has passed the test on `cc`: `tga` divides by `ads`, and each
of the three entries of `rn` divides by `au` and by `ads`. -/
def segNormalDivisors (rad0 rad1 : ℝ) (m : SegArgs) : List (String × ℝ) :=
  let u := segU m (segCk rad0 rad1 m)
  let ds := segDs m
  let au := Real.sqrt (scalar u u)
  let ads := Real.sqrt (scalar ds ds)
  [("ads", ads), ("au", au), ("ads", ads), ("au", au), ("ads", ads), ("au", au), ("ads", ads)]

/-- The divisions that the body of `segment` executes on the input `m`, in
program order, each with the name of its divisor and the divisor's value.  The
divisions inside the callee `norm` are not listed. -/
def segDivisors (rad0 rad1 : ℝ) (m : SegArgs) : List (String × ℝ) :=
  if |segVds m| < EPSILON then []
  else
    let d : List (String × ℝ) := [("vds", segVds m), ("vds", segVds m)]
    if |segA0 rad0 rad1 m| ≤ EPSILON then
      let d := d ++ [("b0", segB0 rad0 rad1 m)]
      if segCk rad0 rad1 m = -1000 then d
      else if segCc m (segCk rad0 rad1 m) < 1e-10 then d
      else d ++ segNormalDivisors rad0 rad1 m
    else if segDisc rad0 rad1 m < 0 then d
    else
      let d := d ++ [("2*a0", 2 * segA0 rad0 rad1 m), ("2*a0", 2 * segA0 rad0 rad1 m)]
      if segCk rad0 rad1 m = -1000 then d
      else if segCc m (segCk rad0 rad1 m) < 1e-10 then d
      else d ++ segNormalDivisors rad0 rad1 m

/-! ## Data model -/

/-- The fields of `struct inp_file` read by the transport engine. -/
structure inp_file where
  sig_rough : ℝ
  d_source : ℝ
  d_screen : ℝ
  src_x : ℝ
  src_y : ℝ
  src_sigx : ℝ
  src_sigy : ℝ
  src_shiftx : ℝ
  src_shifty : ℝ
  density : ℝ
  e_start : ℝ
  e_final : ℝ
  delta_e : ℝ
  ndet : Int
  n_chan : ℝ

/-- One sample of the capillary profile (`struct cap_prof_arrays`). -/
structure cap_prof_arrays where
  zarr : ℝ
  profil : ℝ
  sx : ℝ
  sy : ℝ
  d_arr : ℝ

/-- The capillary profile (`struct cap_profile`). -/
structure cap_profile where
  nmax : Int
  rtot1 : ℝ
  rtot2 : ℝ
  cl : ℝ
  binsize : ℝ
  arr : Int → cap_prof_arrays

/-- One energy bin of the absorption table (`struct amu_cnt`). -/
structure amu_cnt where
  amu : ℝ
  cnt : ℝ
  scatf : ℝ

/-- The absorption table (`struct mumc`). -/
structure mumc where
  n_energy : Int
  arr : Int → amu_cnt

/-- The leak accumulators (`struct leakstruct`). -/
structure leakstruct where
  spot : Int → Int → ℝ
  lspot : Int → Int → ℝ
  leak : Int → ℝ

/-- One diagnostic sample (`struct image_struct`). -/
structure image_struct where
  xsou : ℝ
  ysou : ℝ
  xsou1 : ℝ
  ysou1 : ℝ
  wsou : ℝ
  xm : ℝ
  ym : ℝ
  xm1 : ℝ
  ym1 : ℝ
  warr : ℝ

/-- The per-worker photon state (`struct calcstruct`).  The generator `rn` is
the stream of uniform draws still to come. -/
structure calcstruct where
  sx : Int → ℝ
  sy : Int → ℝ
  rn : ℕ → ℝ
  cnt : Int → ℝ
  absorb : Int → ℝ
  i_refl : Int
  istart : Int
  ienter : Int
  rh : Vec3
  v : Vec3
  traj_length : ℝ
  phase : ℝ
  amplitude : ℝ
  w : Int → ℝ
  iesc : Int
  ix : Int

/-- The C loop `for(i = lo; ...; i++) body` run for `n` iterations from index
`lo`. -/
def forLoop {σ : Type} (body : Int → σ → σ) : ℕ → Int → σ → σ
  | 0, _, s => s
  | n + 1, i, s => forLoop body n (i + 1) (body i s)

/-- The C loop `for(i = lo; i <= hi; i++) body`. -/
def forUpTo {σ : Type} (lo hi : Int) (body : Int → σ → σ) (s : σ) : σ :=
  forLoop body (hi + 1 - lo).toNat lo s

/-! ## The reflectivity and leak model `reflect` -/

/-- C99 `csqrt`: the principal square root. -/
def csqrt (z : ℂ) : ℂ := z ^ (2⁻¹ : ℂ)

/-- Local `desc` of `reflect` (source lines 558-559). -/
def reflDesc (cap : inp_file) (profile : cap_profile) (cs : calcstruct) : ℝ :=
  let desc := (profile.cl + cap.d_source - cs.rh.z) / cs.v.z
  if desc < 0 then profile.cl else desc

/-- Local `e` of `reflect` in bin `i`. -/
def reflE (cap : inp_file) (i : Int) : ℝ := cap.e_start + i * cap.delta_e

/-- Local `r_rough` of `reflect` in bin `i`. -/
def reflRough (alf : ℝ) (cap : inp_file) (i : Int) : ℝ :=
  let cons1 := (1.01358e0 * reflE cap i) * alf * cap.sig_rough
  Real.exp (-1 * cons1 * cons1)

/-- Local `alfa` of `reflect` in bin `i`. -/
def reflAlfa (cap : inp_file) (absmu : mumc) (i : Int) : ℂ :=
  (((HC / reflE cap i) * (HC / reflE cap i) * ((N_AVOG * R0 * cap.density) / (2 * Real.pi))
    * (absmu.arr i).scatf : ℝ) : ℂ)

/-- Local `beta` of `reflect` in bin `i`. -/
def reflBeta (cap : inp_file) (absmu : mumc) (i : Int) : ℂ :=
  ((HC / (4 * Real.pi) * ((absmu.arr i).amu / reflE cap i) : ℝ) : ℂ)

/-- The Fresnel ratio first assigned to `rtot` (source line 569). -/
def reflFresnel (alf : ℝ) (cap : inp_file) (absmu : mumc) (i : Int) : ℂ :=
  ((alf : ℂ) - csqrt ((alf : ℂ) ^ (2 : ℂ)
      - 2 * (reflAlfa cap absmu i - reflBeta cap absmu i * Complex.I)))
    / ((alf : ℂ) + csqrt ((alf : ℂ) ^ (2 : ℂ)
      - 2 * (reflAlfa cap absmu i - reflBeta cap absmu i * Complex.I)))

/-- The reflectivity `rtot` after source line 570, a complex number again. -/
def reflRtot (alf : ℝ) (cap : inp_file) (absmu : mumc) (i : Int) : ℂ :=
  ((((Complex.abs (reflFresnel alf cap absmu i) : ℝ) : ℂ) ^ (2 : ℂ)).re : ℂ)

/-- Local `wleak` of `reflect` in bin `i`: the complex product converted to
`double`. -/
def reflWleak (alf : ℝ) (cap : inp_file) (absmu : mumc) (profile : cap_profile)
    (cs : calcstruct) (i : Int) : ℝ :=
  ((1 - reflRtot alf cap absmu i) * ((cs.w i : ℝ) : ℂ)
    * ((Real.exp (-1 * reflDesc cap profile cs * (absmu.arr i).amu) : ℝ) : ℂ)).re

/-- The update of `lspot` in bin 0 (source lines 575-584). -/
def reflSpot (cap : inp_file) (profile : cap_profile) (cs : calcstruct) (wleak : ℝ)
    (lspot : Int → Int → ℝ) : Int → Int → ℝ :=
  let c := (cap.d_screen - cs.rh.z) / cs.v.z
  let xp := cs.rh.x + c * cs.v.x
  let yp := cs.rh.y + c * cs.v.y
  let ind_x : Int := Int.floor (xp / profile.binsize) + NSPOT / 2
  let ind_y : Int := Int.floor (yp / profile.binsize) + NSPOT / 2
  if ind_x < NSPOT ∧ ind_x ≥ 0 then
    if ind_y < NSPOT ∧ ind_y ≥ 0 then
      Function.update lspot ind_x (Function.update (lspot ind_x) ind_y (lspot ind_x ind_y + wleak))
    else lspot
  else lspot

/-- One iteration of the energy loop of `reflect` (source lines 561-586). -/
def reflectBin (alf : ℝ) (cap : inp_file) (absmu : mumc) (profile : cap_profile) (i : Int)
    (s : leakstruct × calcstruct) : leakstruct × calcstruct :=
  let leaks := s.1
  let cs := s.2
  let wleak := reflWleak alf cap absmu profile cs i
  let leaks : leakstruct :=
    { leaks with leak := Function.update leaks.leak i (leaks.leak i + wleak) }
  let leaks : leakstruct := if i = 0 then { leaks with lspot := reflSpot cap profile cs wleak leaks.lspot }
    else leaks
  let wnew : ℝ :=
    (((cs.w i : ℝ) : ℂ) * reflRtot alf cap absmu i * ((reflRough alf cap i : ℝ) : ℂ)).re
  let cs : calcstruct := { cs with w := Function.update cs.w i wnew }
  (leaks, cs)

/-- Source `reflect`: the return code and the accumulators and photon state on
return. -/
def reflect (alf : ℝ) (cap : inp_file) (absmu : mumc) (profile : cap_profile)
    (s : leakstruct × calcstruct) : Int × leakstruct × calcstruct :=
  let s := forUpTo 0 absmu.n_energy (reflectBin alf cap absmu profile) s
  if s.2.w 0 < 1e-4 then (-2, s) else (0, s)

/-! ## The transport step `capil` -/

/-- The locals of `capil` that `segment` writes. -/
structure CapilLocals where
  rh1 : Vec3
  rn : Vec3
  calf : ℝ

/-- The arguments of the call of `segment` in iteration `i` of the scan (source
lines 735-746). -/
def capilSegArgs (profile : cap_profile) (cap : inp_file) (cs : calcstruct)
    (loc : CapilLocals) (i : Int) : SegArgs :=
  { s0 := ⟨cs.sx (i - 1), cs.sy (i - 1), (profile.arr (i - 1)).zarr⟩
    s1 := ⟨cs.sx i, cs.sy i, (profile.arr i).zarr⟩
    rh1 := ⟨cs.rh.x, cs.rh.y, cs.rh.z - cap.d_source⟩
    v := cs.v
    rn := loc.rn
    calf := loc.calf }

/-- The scan over segments in `capil` (source lines 734-751) with `n`
iterations left, the next one at index `i`; a hit stores `i - 1` in `ix` and
leaves the loop. -/
def capilScan (profile : cap_profile) (cap : inp_file) :
    ℕ → Int → calcstruct × CapilLocals → calcstruct × CapilLocals
  | 0, _, s => s
  | n + 1, i, s =>
    let r := segment (profile.arr (i - 1)).profil (profile.arr i).profil
      (capilSegArgs profile cap s.1 s.2 i)
    let cs : calcstruct := { s.1 with v := r.2.v, iesc := r.1 }
    let loc : CapilLocals := { rh1 := r.2.rh1, rn := r.2.rn, calf := r.2.calf }
    if cs.iesc = 0 then ({ cs with ix := i - 1 }, loc)
    else capilScan profile cap n (i + 1) (cs, loc)

/-- The state when the scan of `capil` ends (source lines 730-751).  The locals
`rh1`, `rn`, `calf` are not initialised by the source; they start at zero here
and are read before being written only when the scan has no iteration. -/
def capilScanned (profile : cap_profile) (cap : inp_file) (cs : calcstruct) :
    calcstruct × CapilLocals :=
  let cs : calcstruct := { cs with iesc := 0 }
  let cs : calcstruct := if cs.i_refl = 0 then { cs with ix := 0 } else cs
  capilScan profile cap (profile.nmax + 1 - (cs.ix + 1)).toNat (cs.ix + 1)
    (cs, { rh1 := ⟨0, 0, 0⟩, rn := ⟨0, 0, 0⟩, calf := 0 })

/-- Local `alf` of `capil` for the cosine `calf` (source lines 775-776). -/
def capilAlf (calf : ℝ) : ℝ := Real.pi / 2 - Real.arccos calf

/-- The direction after the reflection (source lines 785-790). -/
def capilReflectDir (v rn : Vec3) (alf : ℝ) : Vec3 :=
  let salf2 := 2.0 * Real.sin alf
  norm ⟨v.x - salf2 * rn.x, v.y - salf2 * rn.y, v.z - salf2 * rn.z⟩

/-- The photon state after the move to the hit point (source lines 759-767):
the path length grows by the distance travelled and `rh` becomes the hit point. -/
def capilMoved (cap : inp_file) (cs : calcstruct) (loc : CapilLocals) : calcstruct :=
  let delta_traj : Vec3 := ⟨loc.rh1.x - cs.rh.x, loc.rh1.y - cs.rh.y,
    loc.rh1.z + cap.d_source - cs.rh.z⟩
  let ds := Real.sqrt (scalar delta_traj delta_traj)
  let cs : calcstruct := { cs with traj_length := cs.traj_length + ds }
  { cs with rh := ⟨loc.rh1.x, loc.rh1.y, loc.rh1.z + cap.d_source⟩ }

/-- The reflection step of `capil` (source lines 775-792) for the moved photon
`cs`: `reflect` is called, and unless it returns -2 the absorbed weight is
recorded, the direction is reflected and the reflection counter grows. -/
def capilBounce (absmu : mumc) (profile : cap_profile) (cap : inp_file) (leaks : leakstruct)
    (cs : calcstruct) (loc : CapilLocals) : leakstruct × calcstruct :=
  let alf := capilAlf loc.calf
  let w0 := cs.w 0
  let r := reflect alf cap absmu profile (leaks, cs)
  let leaks := r.2.1
  let cs : calcstruct := { r.2.2 with iesc := r.1 }
  if cs.iesc ≠ -2 then
    let w1 := cs.w 0
    let cs : calcstruct := { cs with
      absorb := Function.update cs.absorb cs.ix (cs.absorb cs.ix + w0 - w1) }
    let cs : calcstruct := { cs with v := capilReflectDir cs.v loc.rn alf }
    (leaks, { cs with i_refl := cs.i_refl + 1 })
  else (leaks, cs)

/-- Source `capil`. -/
def capil (absmu : mumc) (profile : cap_profile) (cap : inp_file)
    (s : leakstruct × calcstruct) : leakstruct × calcstruct :=
  let leaks := s.1
  let sc := capilScanned profile cap s.2
  if sc.1.iesc ≠ 0 then (leaks, { sc.1 with iesc := 1 })
  else if |sc.2.calf| > 1.0 then (leaks, { capilMoved cap sc.1 sc.2 with iesc := -1 })
  else capilBounce absmu profile cap leaks (capilMoved cap sc.1 sc.2) sc.2

/-! ## The driver loop of `main` -/

/-- The objects the photon loop of one worker works on. -/
structure Sys where
  leaks : leakstruct
  imstr : Int → image_struct
  cs : calcstruct

/-- Program points of the body of the photon loop (source lines 1155-1171):
before the call of `start`, before a call of `capil`, before the call of
`count`, after the `do ... while` of one index (before `sum_refl` is updated),
and after the `for` loop. -/
inductive Pc where
  | atStart
  | atCapil
  | atCount
  | atSum
  | atFinished
  deriving DecidableEq

/-- The state of one worker inside the photon loop. -/
structure Driver where
  pc : Pc
  icount : Int
  sum_refl : Int
  sys : Sys

/-- The step of the photon loop from the program point before a call of `capil`
(source lines 1159-1162): `capil` is called; it is called again while
`iesc == 0`, `start` is called again while `iesc == -2`, and otherwise `count`
comes next. -/
def driverCapil (absmu : mumc) (profile : cap_profile) (cap : inp_file) (d : Driver) : Driver :=
  let r := capil absmu profile cap (d.sys.leaks, d.sys.cs)
  let sys : Sys := { d.sys with leaks := r.1, cs := r.2 }
  if sys.cs.iesc = 0 then { d with pc := Pc.atCapil, sys := sys }
  else if sys.cs.iesc = -2 then { d with pc := Pc.atStart, sys := sys }
  else { d with pc := Pc.atCount, sys := sys }

/-- One step of the photon loop of `main` for a worker whose last index is
`last` (`cap.ndet` for a single worker).  `start` and `count` are the two
callees; `start` may not return.  The nested `do ... while` loops are source
lines 1156-1164: after `capil` see `driverCapil`; after `count`, `start` is
called again while `iesc == -3`; otherwise `sum_refl` is updated and the `for`
loop goes on to the next index. -/
def driverStep (start : Int → Sys → Option Sys) (count : Int → Sys → Sys)
    (absmu : mumc) (profile : cap_profile) (cap : inp_file) (last : Int) (d : Driver) :
    Option Driver :=
  match d.pc with
  | Pc.atStart =>
    match start d.icount d.sys with
    | none => none
    | some sys => some { d with pc := Pc.atCapil, sys := sys }
  | Pc.atCapil => some (driverCapil absmu profile cap d)
  | Pc.atCount =>
    let sys : Sys := count d.icount d.sys
    if sys.cs.iesc = -3 then some { d with pc := Pc.atStart, sys := sys }
    else some { d with pc := Pc.atSum, sys := sys }
  | Pc.atSum =>
    let d : Driver := { d with sum_refl := d.sum_refl + d.sys.cs.i_refl, icount := d.icount + 1 }
    if d.icount ≤ last then some { d with pc := Pc.atStart }
    else some { d with pc := Pc.atFinished }
  | Pc.atFinished => some d

/-! ## The exit check and detection `count` -/

/-- Local `xpend` of `count`: the position extrapolated to the exit plane
`z = d_source + cl` (source lines 814-815). -/
def countXpend (cap : inp_file) (profile : cap_profile) (cs : calcstruct) : ℝ :=
  cs.rh.x + ((cap.d_source + profile.cl) - cs.rh.z) / cs.v.z * cs.v.x

/-- Local `ypend` of `count` (source lines 814, 816). -/
def countYpend (cap : inp_file) (profile : cap_profile) (cs : calcstruct) : ℝ :=
  cs.rh.y + ((cap.d_source + profile.cl) - cs.rh.z) / cs.v.z * cs.v.y

/-- Local `hex_edge_dist` of `count`. -/
def countHexEdge (profile : cap_profile) : ℝ :=
  Real.sqrt (profile.rtot2 * profile.rtot2 - (profile.rtot2 / 2) * (profile.rtot2 / 2))

/-- Local `dp1` of `count`, with `v_hex1 = (0, 1)`. -/
def countDp1 (cap : inp_file) (profile : cap_profile) (cs : calcstruct) : ℝ :=
  |0 * countXpend cap profile cs + 1 * countYpend cap profile cs|

/-- Local `dp2` of `count`, with `v_hex2 = (cos(M_PI/6), sin(M_PI/6))`. -/
def countDp2 (cap : inp_file) (profile : cap_profile) (cs : calcstruct) : ℝ :=
  |Real.cos (Real.pi / 6) * countXpend cap profile cs
    + Real.sin (Real.pi / 6) * countYpend cap profile cs|

/-- Local `dp3` of `count`, with `v_hex3 = (cos(-1.*M_PI/6), sin(-1.*M_PI/6))`. -/
def countDp3 (cap : inp_file) (profile : cap_profile) (cs : calcstruct) : ℝ :=
  |Real.cos (-1 * Real.pi / 6) * countXpend cap profile cs
    + Real.sin (-1 * Real.pi / 6) * countYpend cap profile cs|

/-- The test of source line 828: the photon is outside the exit area. -/
abbrev countOutside (cap : inp_file) (profile : cap_profile) (cs : calcstruct) : Prop :=
  countDp1 cap profile cs > countHexEdge profile ∨ countDp2 cap profile cs > countHexEdge profile
    ∨ countDp3 cap profile cs > countHexEdge profile

/-- Local `c` of `count` (source line 838). -/
def countC (cap : inp_file) (cs : calcstruct) : ℝ := (cap.d_screen - cs.rh.z) / cs.v.z

/-- Local `xp` of `count`: the position on the screen. -/
def countXp (cap : inp_file) (cs : calcstruct) : ℝ := cs.rh.x + countC cap cs * cs.v.x

/-- Local `yp` of `count`. -/
def countYp (cap : inp_file) (cs : calcstruct) : ℝ := cs.rh.y + countC cap cs * cs.v.y

/-- Local `ind_x` of `count` (source line 848). -/
def countIndX (cap : inp_file) (profile : cap_profile) (cs : calcstruct) : Int :=
  Int.floor (countXp cap cs / profile.binsize) + NSPOT / 2

/-- Local `ind_y` of `count` (source line 849). -/
def countIndY (cap : inp_file) (profile : cap_profile) (cs : calcstruct) : Int :=
  Int.floor (countYp cap cs / profile.binsize) + NSPOT / 2

/-- The loop of source lines 834-836: `cnt[i] = cnt[i] + w[i]`. -/
def countCnt (absmu : mumc) (cs : calcstruct) : calcstruct :=
  forUpTo 0 absmu.n_energy
    (fun i (c : calcstruct) => { c with cnt := Function.update c.cnt i (c.cnt i + c.w i) }) cs

/-- The update of `spot` (source lines 850-854). -/
def countSpot (cap : inp_file) (profile : cap_profile) (cs : calcstruct)
    (spot : Int → Int → ℝ) : Int → Int → ℝ :=
  if countIndX cap profile cs < NSPOT ∧ countIndX cap profile cs ≥ 0 then
    if countIndY cap profile cs < NSPOT ∧ countIndY cap profile cs ≥ 0 then
      Function.update spot (countIndX cap profile cs)
        (Function.update (spot (countIndX cap profile cs)) (countIndY cap profile cs)
          (spot (countIndX cap profile cs) (countIndY cap profile cs) + cs.w 0))
    else spot
  else spot

/-- The update of the image sample (source lines 856-862). -/
def countImage (cap : inp_file) (icount : Int) (cs : calcstruct)
    (imstr : Int → image_struct) : Int → image_struct :=
  if icount ≤ IMSIZE - 1 then
    let im : image_struct := imstr icount
    let im : image_struct := { im with xm := countYp cap cs, ym := countXp cap cs }
    let im : image_struct := { im with xm1 := cs.v.y, ym1 := cs.v.x, warr := cs.w 0 }
    Function.update imstr icount im
  else imstr

/-- Source `count`. -/
def count (absmu : mumc) (cap : inp_file) (icount : Int) (profile : cap_profile) (sys : Sys) :
    Sys :=
  if countOutside cap profile sys.cs then { sys with cs := { sys.cs with iesc := -3 } }
  else
    let cs : calcstruct := countCnt absmu sys.cs
    let delta_traj : Vec3 := ⟨countC cap cs * cs.v.x, countC cap cs * cs.v.y,
      countC cap cs * cs.v.z⟩
    let ds := Real.sqrt (scalar delta_traj delta_traj)
    let cs1 : calcstruct := { cs with traj_length := cs.traj_length + ds }
    let leaks : leakstruct := { sys.leaks with spot := countSpot cap profile cs sys.leaks.spot }
    ⟨leaks, countImage cap icount cs sys.imstr, cs1⟩

/-! ## The lattice of channels `ini_polycap` -/

/-- A C array `double[2]`; `x`, `y` are the entries 0, 1. -/
structure Vec2 where
  x : ℝ
  y : ℝ

/-- The C type `struct ini_polycap` (the function of the same name is
`ini_polycap` below). -/
structure struct_ini_polycap where
  eta : ℝ
  n_chan_max : ℝ
  cap_unita : Vec2
  cap_unitb : Vec2

/-- Source `ini_polycap`; `none` stands for the branch that prints
`N_CHANNEL must be >=7` and calls `exit`. -/
def ini_polycap (cap : inp_file) (profile : cap_profile) : Option struct_ini_polycap :=
  let chan_rad := (profile.arr 0).profil
  let eta := chan_rad / profile.rtot1
  let eta := eta * eta * cap.n_chan
  let n_chan_max := Real.sqrt (12 * cap.n_chan - 3) / 6 - 0.5
  if n_chan_max ≤ 0 then none
  else
    let s_unit := profile.rtot1 / n_chan_max
    some { eta := eta, n_chan_max := n_chan_max, cap_unita := ⟨s_unit, 0⟩,
           cap_unitb := ⟨s_unit * Real.cos (Real.pi / 3), s_unit * Real.sin (Real.pi / 3)⟩ }

/-! ## The photon generator `start` -/

/-- `polycap_rng_uniform`: the next draw and the generator after it. -/
def rngDraw (rn : ℕ → ℝ) : ℝ × (ℕ → ℝ) := (rn 0, fun n => rn (n + 1))

/-- The lattice index computed from the draw `r` (source lines 621 and 623). -/
def startIndex (n_chan_max r : ℝ) : Int := Int.floor (n_chan_max * (2 * |r| - 1) + 0.5)

/-- The test that ends the `do ... while` of source lines 619-624: the pair of
indexes is accepted. -/
abbrev startAccepted (n_chan_max : ℝ) (ix_cap iy_cap : Int) : Prop :=
  ¬ (((|iy_cap + ix_cap| : Int) : ℝ) > n_chan_max)

/-- The `do ... while` of source lines 619-624 with at most `fuel` iterations:
the accepted indexes and the generator after the draws, `none` when the fuel
runs out. -/
def startSelect (n_chan_max : ℝ) : ℕ → (ℕ → ℝ) → Option (Int × Int × (ℕ → ℝ))
  | 0, _ => none
  | fuel + 1, rn =>
    let d1 := rngDraw rn
    let ix_cap := startIndex n_chan_max d1.1
    let d2 := rngDraw d1.2
    let iy_cap := startIndex n_chan_max d2.1
    if startAccepted n_chan_max ix_cap iy_cap then some (ix_cap, iy_cap, d2.2)
    else startSelect n_chan_max fuel d2.2

/-- The locals of `start` that live across the iterations of its `while` loop.
The source initialises only `dx`; the others start at zero here and are read
before being written only when the loop has no iteration. -/
structure StartLocals where
  ix_cap : Int
  iy_cap : Int
  ra : ℝ
  rb : ℝ
  w_gamma : ℝ
  dx : ℝ

/-- One iteration of the `while` loop of `start` after the channel
`(ix_cap, iy_cap)` has been selected and the generator is `rn` (source lines
626-706). -/
def startAttempt (profile : cap_profile) (pcap_ini : struct_ini_polycap) (cap : inp_file)
    (icount : Int) (ix_cap iy_cap : Int) (rn : ℕ → ℝ) (sys : Sys) : StartLocals × Sys :=
  let cs : calcstruct := sys.cs
  let ra := ix_cap * pcap_ini.cap_unita.x + iy_cap * pcap_ini.cap_unitb.x
  let rb := ix_cap * pcap_ini.cap_unita.y + iy_cap * pcap_ini.cap_unitb.y
  let rr := Real.sqrt (ra * ra + rb * rb)
  let cosphi : ℝ := if rr ≤ DELTA then 0 else ra / rr
  let sinphi : ℝ := if rr ≤ DELTA then 0 else rb / rr
  let cx := rr / profile.rtot1
  let cs : calcstruct := forUpTo 0 profile.nmax
    (fun i (c : calcstruct) =>
      { c with sx := Function.update c.sx i ((profile.arr i).d_arr * cosphi * cx),
               sy := Function.update c.sy i ((profile.arr i).d_arr * sinphi * cx) }) cs
  -- sourcp
  let d1 := rngDraw rn
  let rad := cap.src_x * Real.sqrt |d1.1|
  let d2 := rngDraw d1.2
  let fi := 2.0 * Real.pi * |d2.1|
  let x := rad * Real.cos fi + cap.src_shiftx
  let y := rad * Real.sin fi + cap.src_shifty
  let cs : calcstruct := { cs with rh := ⟨x, y, 0.0⟩ }
  let d3 := rngDraw d2.2
  let d4 := rngDraw d3.2
  let v : Vec3 :=
    if cap.src_sigx * cap.src_sigy < 1e-20 then
      let rad := (profile.arr 0).profil * Real.sqrt |d3.1|
      let fi := 2 * Real.pi * |d4.1|
      let xpc := rad * Real.cos fi + ra
      let ypc := rad * Real.sin fi + rb
      ⟨xpc - x, ypc - y, cap.d_source⟩
    else ⟨cap.src_sigx * (1 - 2 * |d3.1|), cap.src_sigy * (1 - 2 * |d4.1|), 1⟩
  let cs : calcstruct := { cs with rn := d4.2, v := norm v }
  let cs : calcstruct := { cs with phase := 0, amplitude := 1, traj_length := 0 }
  let gamma := Real.sqrt ((ra - cs.rh.x) * (ra - cs.rh.x) + (rb - cs.rh.x) * (rb - cs.rh.x))
    / cap.d_source
  let gamma := Real.arctan gamma
  let w_gamma := Real.cos gamma
  let imstr : Int → image_struct :=
    if icount < IMSIZE - 1 then
      let im : image_struct := sys.imstr icount
      let im : image_struct := { im with xsou := cs.rh.y, ysou := cs.rh.x }
      let im : image_struct := { im with xsou1 := cs.v.y, ysou1 := cs.v.x, wsou := 1.0 }
      Function.update sys.imstr icount im
    else sys.imstr
  let c := (cap.d_source - cs.rh.z) / cs.v.z
  let cs : calcstruct := { cs with rh := ⟨cs.rh.x + c * cs.v.x, cs.rh.y + c * cs.v.y,
                                           cap.d_source⟩ }
  let cs : calcstruct := { cs with traj_length := cs.traj_length + c }
  let cs : calcstruct := { cs with iesc := 0, istart := cs.istart + 1 }
  let dx := Real.sqrt ((cs.rh.x - ra) * (cs.rh.x - ra) + (cs.rh.y - rb) * (cs.rh.y - rb))
  ({ ix_cap := ix_cap, iy_cap := iy_cap, ra := ra, rb := rb, w_gamma := w_gamma, dx := dx },
    ⟨sys.leaks, imstr, cs⟩)

/-- The `while(dx > profile->arr[0].profil)` loop of `start` (source lines
616-707) with at most `fuel` iterations, each selection loop being allowed
`inner` iterations; `none` when a fuel runs out. -/
def startLoop (profile : cap_profile) (pcap_ini : struct_ini_polycap) (cap : inp_file)
    (icount : Int) (inner : ℕ) : ℕ → StartLocals × Sys → Option (StartLocals × Sys)
  | 0, s => if s.1.dx > (profile.arr 0).profil then none else some s
  | fuel + 1, s =>
    if s.1.dx > (profile.arr 0).profil then
      match startSelect pcap_ini.n_chan_max inner s.2.cs.rn with
      | none => none
      | some sel =>
        startLoop profile pcap_ini cap icount inner fuel
          (startAttempt profile pcap_ini cap icount sel.1 sel.2.1 sel.2.2 s.2)
    else some s

/-- The state of `start` when its `while` loop ends (source lines 611-707),
together with the locals. -/
def startEntered (fuel : ℕ) (absmu : mumc) (profile : cap_profile)
    (pcap_ini : struct_ini_polycap) (cap : inp_file) (icount : Int) (sys : Sys) :
    Option (StartLocals × Sys) :=
  let cs : calcstruct := { sys.cs with i_refl := 0 }
  let cs : calcstruct := forUpTo 0 absmu.n_energy
    (fun i (c : calcstruct) => { c with w := Function.update c.w i 1.0 }) cs
  let loc : StartLocals :=
    { ix_cap := 0, iy_cap := 0, ra := 0, rb := 0, w_gamma := 0, dx := 2e9 }
  startLoop profile pcap_ini cap icount fuel fuel (loc, { sys with cs := cs })

/-- The end of `start` (source lines 709-712): the photon has entered, every
weight is multiplied by `w_gamma`. -/
def startFinish (absmu : mumc) (s : StartLocals × Sys) : Sys :=
  let cs : calcstruct := { s.2.cs with ienter := s.2.cs.ienter + 1 }
  let cs : calcstruct := forUpTo 0 absmu.n_energy
    (fun i (c : calcstruct) => { c with w := Function.update c.w i (c.w i * s.1.w_gamma) }) cs
  { s.2 with cs := cs }

/-- Source `start` with at most `fuel` iterations of each of its loops; `none`
when the fuel does not suffice. -/
def start (fuel : ℕ) (absmu : mumc) (profile : cap_profile) (pcap_ini : struct_ini_polycap)
    (cap : inp_file) (icount : Int) (sys : Sys) : Option Sys :=
  (startEntered fuel absmu profile pcap_ini cap icount sys).map (startFinish absmu)

/-! ## The analytic profiles `def_cap_profile` -/

/-- The assignments to `zarr`, `profil`, `sx`, `sy` of sample `i` that all
shapes share (for instance source lines 931-934). -/
def profRow (nmax : Int) (length : ℝ) (rad_int : Vec2) (i : Int) (row : cap_prof_arrays) :
    cap_prof_arrays :=
  let zarr := length / nmax * i
  { row with zarr := zarr, profil := (rad_int.y - rad_int.x) / length * zarr + rad_int.x,
             sx := 0, sy := 0 }

/-- The loop `for(i=0;i<profile->nmax;i++)` of `def_cap_profile` that writes
sample `i` with the external radius `d_arr i z` (`z` is the new `zarr`). -/
def profFill (nmax : Int) (length : ℝ) (rad_int : Vec2) (d_arr : Int → ℝ → ℝ)
    (arr : Int → cap_prof_arrays) : Int → cap_prof_arrays :=
  forUpTo 0 (nmax - 1)
    (fun i (a : Int → cap_prof_arrays) =>
      let row := profRow nmax length rad_int i (a i)
      Function.update a i { row with d_arr := d_arr i row.zarr }) arr

/-- Source `def_cap_profile`.  `junk` is the content of the memory returned by
the two calls of `malloc` (nothing is initialised by them); `polynomialfit` is
the quadratic fit of the library through the four points `pc_x`, `pc_y`. -/
def def_cap_profile (polynomialfit : List ℝ → List ℝ → Vec3) (junk : cap_profile)
    (shape : ℕ) (length : ℝ) (rad_ext rad_int focal_dist : Vec2) : cap_profile :=
  if shape = 0 ∨ shape = 1 ∨ shape = 2 then
    let profile : cap_profile :=
      { junk with nmax := 999, rtot1 := rad_ext.x, rtot2 := rad_ext.y, cl := length,
                  binsize := 20.e-4 }
    if shape = 0 then
      let arr := profFill profile.nmax length rad_int
        (fun _ z => (rad_ext.y - rad_ext.x) / length * z + rad_ext.x) profile.arr
      { profile with arr := arr }
    else if shape = 1 then
      let pc_x0 : ℝ := 0
      let pc_y0 := rad_ext.x
      let pc_x3 := length
      let pc_y3 := rad_ext.y
      let pc_x1 := if focal_dist.x ≤ length then focal_dist.x / 10 else length / 10
      let pc_y1 := (rad_ext.x - 0) / (0 - (-1 * focal_dist.x)) * (pc_x1 - 0) + rad_ext.x
      let pc_x2 := if focal_dist.y ≤ length then length - focal_dist.x / 10
        else length - length / 10
      let pc_y2 := (rad_ext.y - 0) / (length - (length + focal_dist.y)) * (pc_x2 - length)
        + rad_ext.y
      let coeff := polynomialfit [pc_x0, pc_x1, pc_x2, pc_x3] [pc_y0, pc_y1, pc_y2, pc_y3]
      let arr := profFill profile.nmax length rad_int
        (fun _ z => coeff.x + coeff.y * z + coeff.z * z * z) profile.arr
      { profile with arr := arr }
    else if rad_ext.y < rad_ext.x then
      let slope := rad_ext.y / focal_dist.y
      let b := (-1 * (rad_ext.y - rad_ext.x) * (rad_ext.y - rad_ext.x)
        - slope * length * (rad_ext.y - rad_ext.x)) / (slope * length + 2 * (rad_ext.y - rad_ext.x))
      let k := rad_ext.x - b
      let a := Real.sqrt ((b * b * length) / (slope * (rad_ext.y - k)))
      let arr := profFill profile.nmax length rad_int
        (fun _ z => Real.sqrt (b * b - (b * b * z * z) / (a * a)) + k) profile.arr
      { profile with arr := arr }
    else
      let slope := rad_ext.x / focal_dist.x
      let b := (-1 * (rad_ext.x - rad_ext.y) * (rad_ext.x - rad_ext.y)
        - slope * length * (rad_ext.x - rad_ext.y)) / (slope * length + 2 * (rad_ext.x - rad_ext.y))
      let k := rad_ext.y - b
      let a := Real.sqrt ((b * b * length) / (slope * (rad_ext.x - k)))
      let arr := forUpTo 0 (profile.nmax - 1)
        (fun i (a : Int → cap_prof_arrays) =>
          Function.update a i (profRow profile.nmax length rad_int i (a i))) profile.arr
      let arr := forUpTo 0 (profile.nmax - 1)
        (fun i (c : Int → cap_prof_arrays) =>
          let j := profile.nmax - 1 - i
          let d := Real.sqrt (b * b - (b * b * (c j).zarr * (c j).zarr) / (a * a)) + k
          Function.update c i { c i with d_arr := d }) arr
      { profile with arr := arr }
  else junk

/-! ## The accumulators `reset_leak` -/

/-- The number of entries of the array `leaks->leak` that `reset_leak`
allocates (source line 367): `profile->nmax + 1`. -/
def leakAllocated (profile : cap_profile) : Int := profile.nmax + 1

/-- Source `reset_leak`: the new accumulators and the absorption table with its
counts cleared.  `junk` is the content of the memory returned by `malloc`; every
entry of the two fixed grids is set to zero. -/
def reset_leak (junk : leakstruct) (profile : cap_profile) (absmu : mumc) : leakstruct × mumc :=
  let leak := forUpTo 0 profile.nmax (fun i (l : Int → ℝ) => Function.update l i 0.0) junk.leak
  let grid (g : Int → Int → ℝ) : Int → Int → ℝ :=
    fun i j => if 0 ≤ i ∧ i < NSPOT ∧ 0 ≤ j ∧ j < NSPOT then 0.0 else g i j
  let arr := forUpTo 0 absmu.n_energy
    (fun i (a : Int → amu_cnt) => Function.update a i { a i with cnt := 0.0 }) absmu.arr
  ({ spot := grid junk.spot, lspot := grid junk.lspot, leak := leak }, { absmu with arr := arr })

/-! ## The average of `main` -/

/-- Local `ave_refl` of `main` (source line 1196). -/
def ave_refl (sum_refl ndet : Int) : ℝ := (sum_refl : ℝ) / (ndet : ℝ)

/-! ## The photon loop with its callees -/

/-- One step of the photon loop of `main` for a single worker, with the callees
`start` and `count` of the source and the last index `cap.ndet` of the `for`
loop (source line 1155); `fuel` bounds the loops of `start`. -/
def polycapStep (fuel : ℕ) (absmu : mumc) (profile : cap_profile)
    (pcap_ini : struct_ini_polycap) (cap : inp_file) (d : Driver) : Option Driver :=
  driverStep (start fuel absmu profile pcap_ini cap) (fun ic t => count absmu cap ic profile t)
    absmu profile cap cap.ndet d

/-! ## Notions used in the statements -/

/-- A root of the quadratic of `segment` that may be reported as a hit: `ck`
solves `a0*ck^2 + b0*ck + c0 = 0`, lies in `(EPSILON, 1]`, its forward distance
`a + ck*b` is at least `1e-10`, and the grazing cosine at that point is not
negative. -/
def admissible (rad0 rad1 : ℝ) (m : SegArgs) (ck : ℝ) : Prop :=
  segA0 rad0 rad1 m * ck ^ 2 + segB0 rad0 rad1 m * ck + segC0 rad0 m = 0 ∧
    EPSILON < ck ∧ ck ≤ 1 ∧ (1e-10 : ℝ) ≤ segCc m ck ∧ 0 ≤ segCalf rad0 rad1 m ck

/-- The factor by which `reflect` multiplies the weight of bin `i` (source line
586): `rtot * r_rough`, converted to `double`. -/
def reflFactor (alf : ℝ) (cap : inp_file) (absmu : mumc) (i : Int) : ℝ :=
  (reflRtot alf cap absmu i * ((reflRough alf cap i : ℝ) : ℂ)).re

/-- The unroughened Fresnel reflectivity in the words of the specification:
the squared modulus of the two-term ratio for the grazing angle `alf` and the
decrement `alfa - I*beta`. -/
def fresnelSpec (alf : ℝ) (alfa beta : ℂ) : ℝ :=
  Complex.abs (((alf : ℂ) - csqrt ((alf : ℂ) ^ 2 - 2 * (alfa - Complex.I * beta)))
    / ((alf : ℂ) + csqrt ((alf : ℂ) ^ 2 - 2 * (alfa - Complex.I * beta)))) ^ 2

/-- The segment index from which `capil` scans: 0 in the first call of a
history (`i_refl = 0`, source line 731), the stored `ix` otherwise. -/
def capilIx0 (cs : calcstruct) : Int := if cs.i_refl = 0 then 0 else cs.ix

/-- The call of `segment` for the segment between the samples `i - 1` and `i`
reports a hit for the photon `cs`.  The locals `rn` and `calf` passed to
`segment` have no influence on its return code; they are zero here. -/
def capilHits (profile : cap_profile) (cap : inp_file) (cs : calcstruct) (i : Int) : Prop :=
  (segment (profile.arr (i - 1)).profil (profile.arr i).profil
    (capilSegArgs profile cap cs { rh1 := ⟨0, 0, 0⟩, rn := ⟨0, 0, 0⟩, calf := 0 } i)).1 = 0

/-- The set of pairs of draws `(r1, r2)` in `[0,1)^2` from which one pass of
the selection loop of `start` computes the lattice indexes `(a, b)`. -/
def startRegion (n_chan_max : ℝ) (a b : Int) : Set (ℝ × ℝ) :=
  { p | p.1 ∈ Set.Ico (0 : ℝ) 1 ∧ p.2 ∈ Set.Ico (0 : ℝ) 1 ∧
      startIndex n_chan_max p.1 = a ∧ startIndex n_chan_max p.2 = b }

/-- Local `au` of the call of `segment` for the segment `ix + 1` at which the
scan of `capil` ended, when that call is made with the locals `loc`. -/
def capilHitAu (profile : cap_profile) (cap : inp_file) (cs : calcstruct)
    (loc : CapilLocals) : ℝ :=
  let k := (capilScanned profile cap cs).1.ix + 1
  let m := capilSegArgs profile cap cs loc k
  let u := segU m (segCk (profile.arr (k - 1)).profil (profile.arr k).profil m)
  Real.sqrt (scalar u u)

/-! ## Concrete inputs used below -/

/-- A ray from the axis of the cylinder of radius 1 around the segment from
`(0,0,0)` to `(0,0,2)`, with unit direction `(3/5, 0, 4/5)`: it meets the wall
at `(1, 0, 4/3)`. -/
def exCyl : SegArgs :=
  { s0 := ⟨0, 0, 0⟩, s1 := ⟨0, 0, 2⟩, rh1 := ⟨0, 0, 0⟩, v := ⟨3 / 5, 0, 4 / 5⟩,
    rn := ⟨0, 0, 0⟩, calf := 0 }

/-- A ray that starts on the wall of the cylinder of radius 1 around the
segment from `(0,0,0)` to `(0,0,4)`, at `(-1, 0, 1)`, and crosses the tube with
unit direction `(3/5, 0, 4/5)`: it meets the wall again at `(1, 0, 11/3)`,
inside the same segment. -/
def exWall : SegArgs :=
  { s0 := ⟨0, 0, 0⟩, s1 := ⟨0, 0, 4⟩, rh1 := ⟨-1, 0, 1⟩, v := ⟨3 / 5, 0, 4 / 5⟩,
    rn := ⟨0, 0, 0⟩, calf := 0 }

/-- A ray parallel to the axis of the cylinder of radius 1 around the segment
from `(0,0,0)` to `(0,0,2)`, at distance `1/2` from the axis. -/
def exParallel : SegArgs :=
  { s0 := ⟨0, 0, 0⟩, s1 := ⟨0, 0, 2⟩, rh1 := ⟨1 / 2, 0, 0⟩, v := ⟨0, 0, 1⟩,
    rn := ⟨0, 0, 0⟩, calf := 0 }

/-- A ray that touches the cylinder of radius 1 around the segment from
`(0,0,0)` to `(0,0,2)`: it starts at `(1, -1, 0)` with direction `(0, 1, 1)` and
is tangent to the wall at `(1, 0, 1)`. -/
def exTangent : SegArgs :=
  { s0 := ⟨0, 0, 0⟩, s1 := ⟨0, 0, 2⟩, rh1 := ⟨1, -1, 0⟩, v := ⟨0, 1, 1⟩,
    rn := ⟨0, 0, 0⟩, calf := 0 }

/-- A ray almost parallel to the axis of a cylinder of radius `1e-16` around
the segment from `(0,0,0)` to `(0,0,1)`: the leading coefficient is
`a0 = 1.6e-31`, below `EPSILON`. -/
def exTiny : SegArgs :=
  { s0 := ⟨0, 0, 0⟩, s1 := ⟨0, 0, 1⟩, rh1 := ⟨-2e-16, 3e-16, 0⟩, v := ⟨4e-16, 0, 1⟩,
    rn := ⟨0, 0, 0⟩, calf := 0 }

/-- An input file with roughness `sig`, a single energy `e = 1`, density
`2*pi`, the entrance plane at `z = 0` and the screen at `z = 10`. -/
def exCap (sig : ℝ) : inp_file :=
  { sig_rough := sig, d_source := 0, d_screen := 10, src_x := 0, src_y := 0, src_sigx := 0,
    src_sigy := 0, src_shiftx := 0, src_shifty := 0, density := 2 * Real.pi, e_start := 1,
    e_final := 1, delta_e := 0, ndet := 0, n_chan := 7 }

/-- A one-bin absorption table without attenuation and with scattering factor
`scatf`: `1e20` makes the wall a perfect mirror at every angle below 2 rad, `0`
makes it transparent. -/
def exAbsmu (scatf : ℝ) : mumc :=
  { n_energy := 0, arr := fun _ => { amu := 0, cnt := 0, scatf := scatf } }

/-- A profile with one segment: a cylinder of radius 1 from `z = 0` to `z = 2`. -/
def exProfile : cap_profile :=
  { nmax := 1, rtot1 := 10, rtot2 := 10, cl := 2, binsize := 20e-4,
    arr := fun i => if i ≤ 0 then { zarr := 0, profil := 1, sx := 0, sy := 0, d_arr := 10 }
      else { zarr := 2, profil := 1, sx := 0, sy := 0, d_arr := 10 } }

/-- Empty accumulators. -/
def exLeaks : leakstruct :=
  { spot := fun _ _ => 0, lspot := fun _ _ => 0, leak := fun _ => 0 }

/-- A photon that has just entered the central channel on the axis with unit
direction `(3/5, 0, 4/5)` and weight 1. -/
def exCalc : calcstruct :=
  { sx := fun _ => 0, sy := fun _ => 0, rn := fun _ => 0, cnt := fun _ => 0,
    absorb := fun _ => 0, i_refl := 0, istart := 1, ienter := 1, rh := ⟨0, 0, 0⟩,
    v := ⟨3 / 5, 0, 4 / 5⟩, traj_length := 0, phase := 0, amplitude := 1, w := fun _ => 1,
    iesc := 0, ix := 0 }

/-- A ray that runs along the wall of the cylinder of radius 1 around the
segment from `(0,0,0)` to `(0,0,2)`: it starts at `(1, 0, 0)` with direction
`(0, 0, 1)`. -/
def exOnWall : SegArgs :=
  { s0 := ⟨0, 0, 0⟩, s1 := ⟨0, 0, 2⟩, rh1 := ⟨1, 0, 0⟩, v := ⟨0, 0, 1⟩,
    rn := ⟨0, 0, 0⟩, calf := 0 }

/-- A worker about to call `capil` for the photon `exCalc` of index 0. -/
def exDriver : Driver :=
  { pc := Pc.atCapil, icount := 0, sum_refl := 0,
    sys := { leaks := exLeaks, imstr := fun _ => ⟨0, 0, 0, 0, 0, 0, 0, 0, 0, 0⟩, cs := exCalc } }

/-- A photon in the central channel that flies parallel to the axis at
distance `1/2` from it, with weight 1. -/
def exAxis : calcstruct :=
  { exCalc with rh := ⟨1 / 2, 0, 0⟩, v := ⟨0, 0, 1⟩ }

/-- A photon far outside the housing, at `y = 100`, flying parallel to the axis. -/
def exFar : calcstruct :=
  { exCalc with rh := ⟨0, 100, 0⟩, v := ⟨0, 0, 1⟩ }

/-- The objects of a worker whose photon is `cs`, with empty accumulators. -/
def exSys (cs : calcstruct) : Sys :=
  { leaks := exLeaks, imstr := fun _ => ⟨0, 0, 0, 0, 0, 0, 0, 0, 0, 0⟩, cs := cs }

/-- The lattice of a bundle of 7 channels (one shell) of pitch 10. -/
def exIni : struct_ini_polycap :=
  { eta := 7 / 100, n_chan_max := 1, cap_unita := ⟨10, 0⟩,
    cap_unitb := ⟨10 * Real.cos (Real.pi / 3), 10 * Real.sin (Real.pi / 3)⟩ }

/-- The input file `exCap 0` with the photon budget `ndet`. -/
def exCapDet (ndet : Int) : inp_file := { exCap 0 with ndet := ndet }

/-- The input file `exCap 0` with the declared channel count `n_chan`. -/
def exCapChan (n_chan : ℝ) : inp_file := { exCap 0 with n_chan := n_chan }

/-- An absorption table with three energy bins (`n_energy = 2`), without
attenuation and without scattering factor: the wall is transparent. -/
def exAbsmuWide : mumc :=
  { n_energy := 2, arr := fun _ => { amu := 0, cnt := 0, scatf := 0 } }

/-- A one-segment profile whose channel radius is `2e9` at both ends. -/
def exProfileWide : cap_profile :=
  { nmax := 1, rtot1 := 1e10, rtot2 := 1e10, cl := 2, binsize := 20e-4,
    arr := fun i => if i ≤ 0 then { zarr := 0, profil := 2e9, sx := 0, sy := 0, d_arr := 1e10 }
      else { zarr := 2, profil := 2e9, sx := 0, sy := 0, d_arr := 1e10 } }

/-- The input file `exCap 0` with the entrance plane at `z = d_source`. -/
def exCapSource (d_source : ℝ) : inp_file := { exCap 0 with d_source := d_source }

/-- A profile with two segments: a cylinder of radius 1 with samples at
`z = 0`, `z = 2` and `z = 4`. -/
def exProfileTwo : cap_profile :=
  { nmax := 2, rtot1 := 10, rtot2 := 10, cl := 4, binsize := 20e-4,
    arr := fun i => if i ≤ 0 then { zarr := 0, profil := 1, sx := 0, sy := 0, d_arr := 10 }
      else if i ≤ 1 then { zarr := 2, profil := 1, sx := 0, sy := 0, d_arr := 10 }
      else { zarr := 4, profil := 1, sx := 0, sy := 0, d_arr := 10 } }

/-- The photon `exCalc` just generated (`i_refl = 0`) while `ix` still holds
the segment index 1 in which the previous history ended. -/
def exStale : calcstruct := { exCalc with ix := 1 }

/-! ## Auxiliary lemmas

Facts about one routine are proved together, as one theorem whose conjuncts
are the facts; a proof that uses some of them names the conjuncts first. -/

theorem ratio_antitone {T1 G1 T2 G2 : ℝ} (K2 : ℝ) (hG1 : 0 ≤ G1) (hG2 : 0 ≤ G2) (hT1 : 0 ≤ T1)
    (hT : T1 ≤ T2) (h1 : G1 ^ 2 = T1 ^ 2 - K2) (h2 : G2 ^ 2 = T2 ^ 2 - K2) (hK : 0 ≤ K2) :
    (T2 - G2) / (T2 + G2) ≤ (T1 - G1) / (T1 + G1) := by
  rcases (add_nonneg hT1 hG1).lt_or_eq with hpos | hzero
  · have hT1pos : 0 < T1 := by
      rcases hT1.lt_or_eq with h | h
      · exact h
      · exfalso
        rw [← h] at h1 hpos
        nlinarith [sq_nonneg G1]
    have hpos2 : 0 < T2 + G2 := by linarith
    rw [div_le_div_iff₀ hpos2 hpos]
    have hkey : T2 * G1 ≤ T1 * G2 := by
      by_contra hlt
      push_neg at hlt
      have h0 : 0 ≤ T1 * G2 := mul_nonneg hT1 hG2
      have hsq : (T1 * G2) ^ 2 < (T2 * G1) ^ 2 := by nlinarith
      have hd : (T1 * G2) ^ 2 - (T2 * G1) ^ 2 = K2 * (T2 ^ 2 - T1 ^ 2) := by
        rw [mul_pow, mul_pow, h1, h2]; ring
      have : 0 ≤ K2 * (T2 ^ 2 - T1 ^ 2) := by
        apply mul_nonneg hK
        nlinarith
      linarith
    nlinarith [hkey]
  · have hT0 : T1 = 0 := by linarith
    have hG0 : G1 = 0 := by linarith
    have hK0 : K2 = 0 := by
      rw [hT0, hG0] at h1
      linarith [h1]
    have hGT : G2 = T2 := by
      have hT2 : 0 ≤ T2 := le_trans hT1 hT
      rw [hK0, sub_zero] at h2
      nlinarith [sq_nonneg (G2 - T2), sq_nonneg (G2 + T2)]
    rw [hT0, hG0, hGT]
    simp

set_option maxHeartbeats 1000000 in
/-- Auxiliary facts about `segment`: the shape of its return code and of the
memory it leaves, the roots its selection can pick, and the geometry of the
reported point. -/
theorem segment_lemmas :
    (∀ (rad0 rad1 : ℝ) (m : SegArgs),
      segCk rad0 rad1 m = -1000 ∨ (EPSILON < segCk rad0 rad1 m ∧ segCk rad0 rad1 m ≤ 1)) ∧
    (∀ (rad0 rad1 : ℝ) (m : SegArgs),
      (segment rad0 rad1 m).1 = 0 ↔
        (¬ |segVds m| < EPSILON ∧ ¬ (¬ (|segA0 rad0 rad1 m| ≤ EPSILON) ∧ segDisc rad0 rad1 m < 0)
          ∧ segCk rad0 rad1 m ≠ -1000 ∧ ¬ segCc m (segCk rad0 rad1 m) < 1e-10
          ∧ ¬ segCalf rad0 rad1 m (segCk rad0 rad1 m) < 0)) ∧
    (∀ (rad0 rad1 : ℝ) (m : SegArgs) (_ : (segment rad0 rad1 m).1 = 0),
      (segment rad0 rad1 m).2 = segHit rad0 rad1 m (segCk rad0 rad1 m)) ∧
    (∀ (rad0 rad1 : ℝ) (m : SegArgs),
      (segment rad0 rad1 m).2.v = m.v ∧ (segment rad0 rad1 m).2.s0 = m.s0
        ∧ (segment rad0 rad1 m).2.s1 = m.s1) ∧
    (∀ {x y : ℝ} (_ : 0 ≤ y) (_ : x = y * y), Real.sqrt x = y) ∧
    (∀ (rad0 rad1 : ℝ) (m : SegArgs) (_ : (segment rad0 rad1 m).1 = 0),
      segVds m ≠ 0) ∧
    (∀ (rad0 rad1 : ℝ) (m : SegArgs) (_ : (segment rad0 rad1 m).1 = 0),
      EPSILON < segCk rad0 rad1 m ∧ segCk rad0 rad1 m ≤ 1) ∧
    (∀ (rad0 rad1 : ℝ) (m : SegArgs) (_ : segCk rad0 rad1 m ≠ -1000),
      (segCk rad0 rad1 m = segCk2 rad0 rad1 m ∧ EPSILON < segCk2 rad0 rad1 m
          ∧ segCk2 rad0 rad1 m ≤ 1) ∨
      (segCk rad0 rad1 m = segCk1 rad0 rad1 m ∧ EPSILON < segCk1 rad0 rad1 m
          ∧ segCk1 rad0 rad1 m ≤ 1
          ∧ ¬ (EPSILON < segCk2 rad0 rad1 m ∧ segCk2 rad0 rad1 m ≤ 1))) ∧
    (∀ (rad0 rad1 : ℝ) (m : SegArgs)
      (_ : segA0 rad0 rad1 m = 0 ∨ EPSILON < |segA0 rad0 rad1 m|)
      (_ : ¬ (¬ (|segA0 rad0 rad1 m| ≤ EPSILON) ∧ segDisc rad0 rad1 m < 0))
      (_ : segCk rad0 rad1 m ≠ -1000),
      segA0 rad0 rad1 m * segCk rad0 rad1 m ^ 2 + segB0 rad0 rad1 m * segCk rad0 rad1 m
        + segC0 rad0 m = 0) ∧
    (∀ (m : SegArgs) (ck : ℝ) (_ : segVds m ≠ 0),
      scalar (segU m ck) (segDs m) = 0) ∧
    (∀ (rad0 rad1 : ℝ) (m : SegArgs) (ck : ℝ),
      scalar (segU m ck) (segU m ck) - (rad0 + ck * (rad1 - rad0)) ^ 2
        = segA0 rad0 rad1 m * ck ^ 2 + segB0 rad0 rad1 m * ck + segC0 rad0 m) ∧
    (∀ {a b c r : ℝ} (_ : a ≠ 0) (_ : a * r ^ 2 + b * r + c = 0),
      0 ≤ b * b - 4 * a * c ∧
        (r = (-b + Real.sqrt (b * b - 4 * a * c)) / (2 * a) ∨
          r = (-b - Real.sqrt (b * b - 4 * a * c)) / (2 * a))) ∧
    (∀ (u : Vec3), 0 ≤ scalar u u) ∧
    (∀ (rad lam : ℝ) (m : SegArgs)
      (_ : m.s0 ≠ m.s1) (_ : lam ≠ 0)
      (_ : m.v = ⟨lam * (m.s1.x - m.s0.x), lam * (m.s1.y - m.s0.y), lam * (m.s1.z - m.s0.z)⟩)
      (_ : scalar (segDrs m) (segDrs m)
        - scalar (segDrs m) (segDs m) ^ 2 / scalar (segDs m) (segDs m) < rad ^ 2),
      (segment rad rad m).1 = -2 ∧ (segment rad rad m).2 = m ∧
        (segment rad rad m).2.rh1 = m.rh1 ∧
        segA0 rad rad m = 0 ∧ segB0 rad rad m = 0 ∧ segC0 rad m < 0) ∧
    (∀ (rad0 rad1 : ℝ) (m : SegArgs) (rn : Vec3) (calf : ℝ),
      (segment rad0 rad1 { m with rn := rn, calf := calf }).1 = (segment rad0 rad1 m).1) := by
  have segCk_eq_or (rad0 rad1 : ℝ) (m : SegArgs) :
      segCk rad0 rad1 m = -1000 ∨ (EPSILON < segCk rad0 rad1 m ∧ segCk rad0 rad1 m ≤ 1) := by
    unfold segCk
    simp only
    split_ifs with h2 h1
    · exact Or.inr h2
    · exact Or.inr h1
    · exact Or.inl rfl
  have segment_zero_iff (rad0 rad1 : ℝ) (m : SegArgs) :
      (segment rad0 rad1 m).1 = 0 ↔
        (¬ |segVds m| < EPSILON ∧ ¬ (¬ (|segA0 rad0 rad1 m| ≤ EPSILON) ∧ segDisc rad0 rad1 m < 0)
          ∧ segCk rad0 rad1 m ≠ -1000 ∧ ¬ segCc m (segCk rad0 rad1 m) < 1e-10
          ∧ ¬ segCalf rad0 rad1 m (segCk rad0 rad1 m) < 0) := by
    have h0 : (0.0 : ℝ) = 0 := by norm_num
    unfold segment
    rw [h0]
    split_ifs with h1 h2 h3 h4 h5 <;> simp_all [segHit]
  have segment_mem_of_zero (rad0 rad1 : ℝ) (m : SegArgs) (h : (segment rad0 rad1 m).1 = 0) :
      (segment rad0 rad1 m).2 = segHit rad0 rad1 m (segCk rad0 rad1 m) := by
    unfold segment at h ⊢
    split_ifs at h ⊢ with h1 h2 h3 h4 h5 <;> simp_all
  have segment_frame (rad0 rad1 : ℝ) (m : SegArgs) :
      (segment rad0 rad1 m).2.v = m.v ∧ (segment rad0 rad1 m).2.s0 = m.s0
        ∧ (segment rad0 rad1 m).2.s1 = m.s1 := by
    unfold segment
    split_ifs <;> simp [segHit]
  have sqrt_eq_of_sq {x y : ℝ} (hy : 0 ≤ y) (h : x = y * y) : Real.sqrt x = y := by
    rw [h]; exact Real.sqrt_mul_self hy
  have segVds_ne_zero_of_zero (rad0 rad1 : ℝ) (m : SegArgs) (h : (segment rad0 rad1 m).1 = 0) :
      segVds m ≠ 0 := by
    have h1 := ((segment_zero_iff rad0 rad1 m).1 h).1
    intro h0
    rw [h0] at h1
    exact h1 (by norm_num [EPSILON])
  have segCk_range_of_zero (rad0 rad1 : ℝ) (m : SegArgs) (h : (segment rad0 rad1 m).1 = 0) :
      EPSILON < segCk rad0 rad1 m ∧ segCk rad0 rad1 m ≤ 1 := by
    have h3 := ((segment_zero_iff rad0 rad1 m).1 h).2.2.1
    rcases segCk_eq_or rad0 rad1 m with h' | h'
    · exact absurd h' h3
    · exact h'
  have segCk_cases (rad0 rad1 : ℝ) (m : SegArgs) (h : segCk rad0 rad1 m ≠ -1000) :
      (segCk rad0 rad1 m = segCk2 rad0 rad1 m ∧ EPSILON < segCk2 rad0 rad1 m
          ∧ segCk2 rad0 rad1 m ≤ 1) ∨
      (segCk rad0 rad1 m = segCk1 rad0 rad1 m ∧ EPSILON < segCk1 rad0 rad1 m
          ∧ segCk1 rad0 rad1 m ≤ 1
          ∧ ¬ (EPSILON < segCk2 rad0 rad1 m ∧ segCk2 rad0 rad1 m ≤ 1)) := by
    unfold segCk at h ⊢
    simp only at h ⊢
    split_ifs at h ⊢ with h2 h1
    · exact Or.inl ⟨rfl, h2.1, h2.2⟩
    · exact Or.inr ⟨rfl, h1.1, h1.2, h2⟩
    · exact absurd rfl h
  have quad_root_plus {a b c d : ℝ} (ha : a ≠ 0) (hd : 0 ≤ d) (hdisc : d = b * b - 4 * a * c) :
      a * ((-b + Real.sqrt d) / (2 * a)) ^ 2 + b * ((-b + Real.sqrt d) / (2 * a)) + c = 0 := by
    have hs : Real.sqrt d * Real.sqrt d = b * b - 4 * a * c := by
      rw [Real.mul_self_sqrt hd, hdisc]
    field_simp
    nlinarith [hs]
  have quad_root_minus {a b c d : ℝ} (ha : a ≠ 0) (hd : 0 ≤ d) (hdisc : d = b * b - 4 * a * c) :
      a * ((-b - Real.sqrt d) / (2 * a)) ^ 2 + b * ((-b - Real.sqrt d) / (2 * a)) + c = 0 := by
    have hs : Real.sqrt d * Real.sqrt d = b * b - 4 * a * c := by
      rw [Real.mul_self_sqrt hd, hdisc]
    field_simp
    nlinarith [hs]
  have segCk_root_of_cases (rad0 rad1 : ℝ) (m : SegArgs)
      (ha : segA0 rad0 rad1 m = 0 ∨ EPSILON < |segA0 rad0 rad1 m|)
      (hd : ¬ (¬ (|segA0 rad0 rad1 m| ≤ EPSILON) ∧ segDisc rad0 rad1 m < 0))
      (hk : segCk rad0 rad1 m ≠ -1000) :
      segA0 rad0 rad1 m * segCk rad0 rad1 m ^ 2 + segB0 rad0 rad1 m * segCk rad0 rad1 m
        + segC0 rad0 m = 0 := by
    have hE : (0 : ℝ) < EPSILON := by norm_num [EPSILON]
    rcases ha with ha | ha
    · -- the linear branch with a0 = 0
      have hlin : |segA0 rad0 rad1 m| ≤ EPSILON := by rw [ha]; simpa using hE.le
      have h2 : segCk2 rad0 rad1 m = -1000 := by rw [segCk2, if_pos hlin]
      have h1 : segCk1 rad0 rad1 m = -segC0 rad0 m / segB0 rad0 rad1 m := by
        rw [segCk1, if_pos hlin]
      rcases segCk_cases rad0 rad1 m hk with ⟨_, h, _⟩ | ⟨he, h, _, _⟩
      · rw [h2] at h; linarith
      · rw [he, ha, h1]
        have hb : segB0 rad0 rad1 m ≠ 0 := by
          intro hb
          rw [h1, hb, div_zero] at h
          linarith
        field_simp
        ring
    · -- the quadratic branch
      have hq : ¬ |segA0 rad0 rad1 m| ≤ EPSILON := not_le.mpr ha
      have ha0 : segA0 rad0 rad1 m ≠ 0 := by
        intro h0
        rw [h0, abs_zero] at ha
        linarith
      have hdisc : 0 ≤ segDisc rad0 rad1 m := by
        by_contra hneg
        exact hd ⟨hq, not_le.mp hneg⟩
      rcases segCk_cases rad0 rad1 m hk with ⟨he, _, _⟩ | ⟨he, _, _, _⟩
      · rw [he, segCk2, if_neg hq]
        exact quad_root_minus ha0 hdisc rfl
      · rw [he, segCk1, if_neg hq]
        exact quad_root_plus ha0 hdisc rfl
  have segU_perp (m : SegArgs) (ck : ℝ) (hv : segVds m ≠ 0) :
      scalar (segU m ck) (segDs m) = 0 := by
    have ha : segA m * segVds m = -scalar (segDrs m) (segDs m) := by
      unfold segA; field_simp
    have hb : segB m * segVds m = scalar (segDs m) (segDs m) := by
      unfold segB; field_simp
    simp only [segVds, scalar, segDrs, segDs] at ha hb
    simp only [scalar, segU, segPoint, segS, segCc, segDs]
    linear_combination ha + ck * hb
  have segU_sq (rad0 rad1 : ℝ) (m : SegArgs) (ck : ℝ) :
      scalar (segU m ck) (segU m ck) - (rad0 + ck * (rad1 - rad0)) ^ 2
        = segA0 rad0 rad1 m * ck ^ 2 + segB0 rad0 rad1 m * ck + segC0 rad0 m := by
    simp only [scalar, segU, segPoint, segS, segCc, segDs, segA0, segB0, segC0, segAa, segBb]
    ring
  have quad_root_cases {a b c r : ℝ} (ha : a ≠ 0) (hr : a * r ^ 2 + b * r + c = 0) :
      0 ≤ b * b - 4 * a * c ∧
        (r = (-b + Real.sqrt (b * b - 4 * a * c)) / (2 * a) ∨
          r = (-b - Real.sqrt (b * b - 4 * a * c)) / (2 * a)) := by
    have hsq : b * b - 4 * a * c = (2 * a * r + b) ^ 2 := by linear_combination (-4 * a) * hr
    have h2a : 2 * a ≠ 0 := mul_ne_zero two_ne_zero ha
    refine ⟨by rw [hsq]; positivity, ?_⟩
    rw [hsq, Real.sqrt_sq_eq_abs]
    rcases le_total 0 (2 * a * r + b) with h | h
    · left
      rw [abs_of_nonneg h]
      field_simp
    · right
      rw [abs_of_nonpos h]
      field_simp
  have scalar_self_nonneg (u : Vec3) : 0 ≤ scalar u u := by
    unfold scalar
    nlinarith [mul_self_nonneg u.x, mul_self_nonneg u.y, mul_self_nonneg u.z]
  have segDs_sq_pos (m : SegArgs) (hs : m.s0 ≠ m.s1) : 0 < scalar (segDs m) (segDs m) := by
    rcases (scalar_self_nonneg (segDs m)).lt_or_eq with h | h
    · exact h
    · exfalso
      apply hs
      simp only [scalar, segDs] at h
      have hx : m.s1.x - m.s0.x = 0 := by
        nlinarith [mul_self_nonneg (m.s1.x - m.s0.x), mul_self_nonneg (m.s1.y - m.s0.y),
          mul_self_nonneg (m.s1.z - m.s0.z)]
      have hy : m.s1.y - m.s0.y = 0 := by
        nlinarith [mul_self_nonneg (m.s1.x - m.s0.x), mul_self_nonneg (m.s1.y - m.s0.y),
          mul_self_nonneg (m.s1.z - m.s0.z)]
      have hz : m.s1.z - m.s0.z = 0 := by
        nlinarith [mul_self_nonneg (m.s1.x - m.s0.x), mul_self_nonneg (m.s1.y - m.s0.y),
          mul_self_nonneg (m.s1.z - m.s0.z)]
      ext <;> linarith
  have segment_parallel_miss (rad lam : ℝ) (m : SegArgs)
      (hs : m.s0 ≠ m.s1) (hl : lam ≠ 0)
      (hpar : m.v = ⟨lam * (m.s1.x - m.s0.x), lam * (m.s1.y - m.s0.y), lam * (m.s1.z - m.s0.z)⟩)
      (hdist : scalar (segDrs m) (segDrs m)
        - scalar (segDrs m) (segDs m) ^ 2 / scalar (segDs m) (segDs m) < rad ^ 2) :
      (segment rad rad m).1 = -2 ∧ (segment rad rad m).2 = m ∧
        (segment rad rad m).2.rh1 = m.rh1 ∧
        segA0 rad rad m = 0 ∧ segB0 rad rad m = 0 ∧ segC0 rad m < 0 := by
    have hE : (0 : ℝ) < EPSILON := by norm_num [EPSILON]
    have hS := segDs_sq_pos m hs
    have hvds : segVds m = lam * scalar (segDs m) (segDs m) := by
      simp only [segVds, scalar, segDs, hpar]; ring
    have hvne : segVds m ≠ 0 := by rw [hvds]; exact mul_ne_zero hl hS.ne'
    have hb : segB m * lam = 1 := by
      rw [segB, hvds]; field_simp; ring
    have hbb : segBb m = ⟨0, 0, 0⟩ := by
      simp only [segBb, hpar]
      ext
      · show segB m * (lam * (m.s1.x - m.s0.x)) - m.s1.x + m.s0.x = 0
        linear_combination (m.s1.x - m.s0.x) * hb
      · show segB m * (lam * (m.s1.y - m.s0.y)) - m.s1.y + m.s0.y = 0
        linear_combination (m.s1.y - m.s0.y) * hb
      · show segB m * (lam * (m.s1.z - m.s0.z)) - m.s1.z + m.s0.z = 0
        linear_combination (m.s1.z - m.s0.z) * hb
    have ha0 : segA0 rad rad m = 0 := by
      simp [segA0, hbb, scalar]
    have hb0 : segB0 rad rad m = 0 := by
      simp [segB0, hbb, scalar]
    have hc0 : segC0 rad m < 0 := by
      have hA : segA m * lam = -scalar (segDrs m) (segDs m) / scalar (segDs m) (segDs m) := by
        rw [segA, hvds]; field_simp; ring
      have hexp : scalar (segAa m) (segAa m) = scalar (segDrs m) (segDrs m)
          + 2 * (segA m * lam) * scalar (segDrs m) (segDs m)
          + (segA m * lam) ^ 2 * scalar (segDs m) (segDs m) := by
        simp only [segAa, hpar, scalar, segDrs, segDs]; ring
      have haa : scalar (segAa m) (segAa m) = scalar (segDrs m) (segDrs m)
          - scalar (segDrs m) (segDs m) ^ 2 / scalar (segDs m) (segDs m) := by
        rw [hexp, hA]; field_simp; ring
      rw [segC0, haa]
      nlinarith [hdist]
    have hlin : |segA0 rad rad m| ≤ EPSILON := by rw [ha0]; simpa using hE.le
    have hck : segCk rad rad m = -1000 := by
      have h1 : segCk1 rad rad m = 0 := by rw [segCk1, if_pos hlin, hb0, div_zero]
      have h2 : segCk2 rad rad m = -1000 := by rw [segCk2, if_pos hlin]
      simp only [segCk, h1, h2]
      norm_num [EPSILON]
    have hseg : segment rad rad m = (-2, m) := by
      unfold segment
      by_cases h1 : |segVds m| < EPSILON
      · rw [if_pos h1]
      · rw [if_neg h1, if_neg (fun hh => hh.1 hlin), if_pos hck]
    rw [hseg]
    exact ⟨rfl, rfl, rfl, ha0, hb0, hc0⟩
  have segment_code_eq (rad0 rad1 : ℝ) (m : SegArgs) :
      (segment rad0 rad1 m).1 =
        if |segVds m| < EPSILON then -2
        else if ¬ (|segA0 rad0 rad1 m| ≤ EPSILON) ∧ segDisc rad0 rad1 m < 0 then -2
        else if segCk rad0 rad1 m = -1000 then -2
        else if segCc m (segCk rad0 rad1 m) < 1e-10 then -2
        else if (segHit rad0 rad1 m (segCk rad0 rad1 m)).calf < 0.0 then -2
        else 0 := by
    unfold segment
    split_ifs <;> rfl
  have segment_code_loc (rad0 rad1 : ℝ) (m : SegArgs) (rn : Vec3) (calf : ℝ) :
      (segment rad0 rad1 { m with rn := rn, calf := calf }).1 = (segment rad0 rad1 m).1 := by
    have e1 : segVds { m with rn := rn, calf := calf } = segVds m := rfl
    have e2 : segA0 rad0 rad1 { m with rn := rn, calf := calf } = segA0 rad0 rad1 m := rfl
    have e3 : segDisc rad0 rad1 { m with rn := rn, calf := calf } = segDisc rad0 rad1 m := rfl
    have e4 : segCk rad0 rad1 { m with rn := rn, calf := calf } = segCk rad0 rad1 m := rfl
    have e5 : ∀ ck, segCc { m with rn := rn, calf := calf } ck = segCc m ck := fun _ => rfl
    have e6 : ∀ ck, (segHit rad0 rad1 { m with rn := rn, calf := calf } ck).calf
        = (segHit rad0 rad1 m ck).calf := fun _ => rfl
    rw [segment_code_eq, segment_code_eq, e1, e2, e3, e4, e5, e6]
  exact ⟨segCk_eq_or, segment_zero_iff, segment_mem_of_zero, segment_frame, sqrt_eq_of_sq,
    segVds_ne_zero_of_zero, segCk_range_of_zero, segCk_cases, segCk_root_of_cases, segU_perp,
    segU_sq, quad_root_cases, scalar_self_nonneg, segment_parallel_miss, segment_code_loc⟩

/-- The values that `segment` computes on the ray `exCyl`, step by step. -/
theorem exCyl_eval :
    (segVds exCyl = 8 / 5) ∧
    (¬ |segA0 1 1 exCyl| ≤ EPSILON) ∧
    (segCk 1 1 exCyl = 2 / 3) ∧
    (segPoint exCyl (2 / 3) = ⟨1, 0, 4 / 3⟩) ∧
    (segRn 1 1 exCyl (2 / 3) = ⟨1, 0, 0⟩) ∧
    (segCalf 1 1 exCyl (2 / 3) = 3 / 5) ∧
    ((segment 1 1 exCyl).1 = 0) := by
  have segment_zero_iff := segment_lemmas.2.1
  have sqrt_eq_of_sq : ∀ {x y : ℝ} (_ : 0 ≤ y) (_ : x = y * y), Real.sqrt x = y :=
    segment_lemmas.2.2.2.2.1
  have exCyl_vds : segVds exCyl = 8 / 5 := by
    norm_num [segVds, scalar, segDs, exCyl]
  have exCyl_a : segA exCyl = 0 := by
    norm_num [segA, scalar, segDs, segDrs, exCyl]
  have exCyl_b : segB exCyl = 5 / 2 := by
    rw [segB, exCyl_vds]; norm_num [scalar, segDs, exCyl]
  have exCyl_a0 : segA0 1 1 exCyl = 9 / 4 := by
    simp only [segA0, segBb, exCyl_b, scalar]; norm_num [exCyl]
  have exCyl_b0 : segB0 1 1 exCyl = 0 := by
    simp only [segB0, segBb, segAa, exCyl_b, exCyl_a, scalar]; norm_num [exCyl]
  have exCyl_c0 : segC0 1 exCyl = -1 := by
    simp only [segC0, segAa, exCyl_a, scalar]; norm_num [exCyl]
  have exCyl_disc : segDisc 1 1 exCyl = 9 := by
    rw [segDisc, exCyl_a0, exCyl_b0, exCyl_c0]; norm_num
  have exCyl_quadratic : ¬ |segA0 1 1 exCyl| ≤ EPSILON := by
    rw [exCyl_a0]; norm_num [EPSILON, abs_of_pos]
  have exCyl_ck1 : segCk1 1 1 exCyl = 2 / 3 := by
    rw [segCk1, if_neg exCyl_quadratic, exCyl_a0, exCyl_b0, exCyl_disc,
      sqrt_eq_of_sq (by norm_num : (0:ℝ) ≤ 3) (by norm_num)]
    norm_num
  have exCyl_ck2 : segCk2 1 1 exCyl = -(2 / 3) := by
    rw [segCk2, if_neg exCyl_quadratic, exCyl_a0, exCyl_b0, exCyl_disc,
      sqrt_eq_of_sq (by norm_num : (0:ℝ) ≤ 3) (by norm_num)]
    norm_num
  have exCyl_ck : segCk 1 1 exCyl = 2 / 3 := by
    simp only [segCk, exCyl_ck1, exCyl_ck2]
    norm_num [EPSILON]
  have exCyl_cc : segCc exCyl (2 / 3) = 5 / 3 := by
    rw [segCc, exCyl_a, exCyl_b]; norm_num
  have exCyl_point : segPoint exCyl (2 / 3) = ⟨1, 0, 4 / 3⟩ := by
    simp only [segPoint, exCyl_cc]; norm_num [exCyl]
  have exCyl_u : segU exCyl (2 / 3) = ⟨1, 0, 0⟩ := by
    simp only [segU, exCyl_point, segS, segDs]; norm_num [exCyl]
  have exCyl_rnRaw : segRnRaw 1 1 exCyl (2 / 3) = ⟨1, 0, 0⟩ := by
    simp only [segRnRaw, exCyl_u, scalar]
    norm_num [segDs, exCyl]
  have exCyl_rn : segRn 1 1 exCyl (2 / 3) = ⟨1, 0, 0⟩ := by
    simp only [segRn, exCyl_rnRaw, norm]; norm_num
  have exCyl_calf : segCalf 1 1 exCyl (2 / 3) = 3 / 5 := by
    simp only [segCalf, exCyl_rn, scalar]; norm_num [exCyl]
  have exCyl_code : (segment 1 1 exCyl).1 = 0 := by
    rw [segment_zero_iff, exCyl_ck, exCyl_cc, exCyl_calf, exCyl_vds, exCyl_disc]
    norm_num [EPSILON, abs_of_pos]
  exact ⟨exCyl_vds, exCyl_quadratic, exCyl_ck, exCyl_point, exCyl_rn, exCyl_calf, exCyl_code⟩

/-- The values that `segment` computes on the ray `exWall`, step by step. -/
theorem exWall_eval :
    (segVds exWall = 16 / 5) ∧
    (segA0 1 1 exWall = 9) ∧
    (segB0 1 1 exWall = -(21 / 2)) ∧
    (segC0 1 exWall = 33 / 16) ∧
    (segCk1 1 1 exWall = 11 / 12) ∧
    (segCk2 1 1 exWall = 1 / 4) ∧
    (segCk 1 1 exWall = 1 / 4) ∧
    (segCc exWall (1 / 4) = 0) ∧
    (segCc exWall (11 / 12) = 10 / 3) ∧
    (segPoint exWall (11 / 12) = ⟨1, 0, 11 / 3⟩) ∧
    (segCalf 1 1 exWall (11 / 12) = 3 / 5) ∧
    ((segment 1 1 exWall).1 = -2) := by
  have sqrt_eq_of_sq : ∀ {x y : ℝ} (_ : 0 ≤ y) (_ : x = y * y), Real.sqrt x = y :=
    segment_lemmas.2.2.2.2.1
  have exWall_vds : segVds exWall = 16 / 5 := by
    norm_num [segVds, scalar, segDs, exWall]
  have exWall_a : segA exWall = -(5 / 4) := by
    rw [segA, exWall_vds]; norm_num [scalar, segDs, segDrs, exWall]
  have exWall_b : segB exWall = 5 := by
    rw [segB, exWall_vds]; norm_num [scalar, segDs, exWall]
  have exWall_a0 : segA0 1 1 exWall = 9 := by
    simp only [segA0, segBb, exWall_b, scalar]; norm_num [exWall]
  have exWall_b0 : segB0 1 1 exWall = -(21 / 2) := by
    simp only [segB0, segBb, segAa, exWall_b, exWall_a, scalar]; norm_num [exWall]
  have exWall_c0 : segC0 1 exWall = 33 / 16 := by
    simp only [segC0, segAa, exWall_a, scalar]; norm_num [exWall]
  have exWall_disc : segDisc 1 1 exWall = 36 := by
    rw [segDisc, exWall_a0, exWall_b0, exWall_c0]; norm_num
  have exWall_quadratic : ¬ |segA0 1 1 exWall| ≤ EPSILON := by
    rw [exWall_a0]; norm_num [EPSILON, abs_of_pos]
  have exWall_ck1 : segCk1 1 1 exWall = 11 / 12 := by
    rw [segCk1, if_neg exWall_quadratic, exWall_a0, exWall_b0, exWall_disc,
      sqrt_eq_of_sq (by norm_num : (0:ℝ) ≤ 6) (by norm_num)]
    norm_num
  have exWall_ck2 : segCk2 1 1 exWall = 1 / 4 := by
    rw [segCk2, if_neg exWall_quadratic, exWall_a0, exWall_b0, exWall_disc,
      sqrt_eq_of_sq (by norm_num : (0:ℝ) ≤ 6) (by norm_num)]
    norm_num
  have exWall_ck : segCk 1 1 exWall = 1 / 4 := by
    simp only [segCk, exWall_ck1, exWall_ck2]
    norm_num [EPSILON]
  have exWall_cc_near : segCc exWall (1 / 4) = 0 := by
    rw [segCc, exWall_a, exWall_b]; norm_num
  have exWall_cc_far : segCc exWall (11 / 12) = 10 / 3 := by
    rw [segCc, exWall_a, exWall_b]; norm_num
  have exWall_point : segPoint exWall (11 / 12) = ⟨1, 0, 11 / 3⟩ := by
    simp only [segPoint, exWall_cc_far]; norm_num [exWall]
  have exWall_u : segU exWall (11 / 12) = ⟨1, 0, 0⟩ := by
    simp only [segU, exWall_point, segS, segDs]; norm_num [exWall]
  have exWall_rnRaw : segRnRaw 1 1 exWall (11 / 12) = ⟨1, 0, 0⟩ := by
    simp only [segRnRaw, exWall_u, scalar]
    norm_num [segDs, exWall]
  have exWall_rn : segRn 1 1 exWall (11 / 12) = ⟨1, 0, 0⟩ := by
    simp only [segRn, exWall_rnRaw, norm]; norm_num
  have exWall_calf : segCalf 1 1 exWall (11 / 12) = 3 / 5 := by
    simp only [segCalf, exWall_rn, scalar]; norm_num [exWall]
  have exWall_code : (segment 1 1 exWall).1 = -2 := by
    have h1 : ¬ |segVds exWall| < EPSILON := by
      rw [exWall_vds]; norm_num [EPSILON, abs_of_pos]
    have h2 : ¬ (¬ (|segA0 1 1 exWall| ≤ EPSILON) ∧ segDisc 1 1 exWall < 0) := by
      rw [exWall_disc]; norm_num
    have h3 : ¬ segCk 1 1 exWall = -1000 := by rw [exWall_ck]; norm_num
    have h4 : segCc exWall (segCk 1 1 exWall) < 1e-10 := by
      rw [exWall_ck, exWall_cc_near]; norm_num
    rw [segment, if_neg h1, if_neg h2, if_neg h3, if_pos h4]
  exact ⟨exWall_vds, exWall_a0, exWall_b0, exWall_c0, exWall_ck1, exWall_ck2, exWall_ck,
    exWall_cc_near, exWall_cc_far, exWall_point, exWall_calf, exWall_code⟩

/-- The values that `segment` computes on the ray `exTangent`, step by step. -/
theorem exTangent_eval :
    (segCk 1 1 exTangent = 1 / 2) ∧
    (segCalf 1 1 exTangent (1 / 2) = 0) ∧
    ((segment 1 1 exTangent).1 = 0) := by
  have segment_zero_iff := segment_lemmas.2.1
  have exTangent_vds : segVds exTangent = 2 := by
    norm_num [segVds, scalar, segDs, exTangent]
  have exTangent_a : segA exTangent = 0 := by
    norm_num [segA, scalar, segDs, segDrs, exTangent]
  have exTangent_b : segB exTangent = 2 := by
    rw [segB, exTangent_vds]; norm_num [scalar, segDs, exTangent]
  have exTangent_a0 : segA0 1 1 exTangent = 4 := by
    simp only [segA0, segBb, exTangent_b, scalar]; norm_num [exTangent]
  have exTangent_b0 : segB0 1 1 exTangent = -4 := by
    simp only [segB0, segBb, segAa, exTangent_b, exTangent_a, scalar]; norm_num [exTangent]
  have exTangent_c0 : segC0 1 exTangent = 1 := by
    simp only [segC0, segAa, exTangent_a, scalar]; norm_num [exTangent]
  have exTangent_disc : segDisc 1 1 exTangent = 0 := by
    rw [segDisc, exTangent_a0, exTangent_b0, exTangent_c0]; norm_num
  have exTangent_quadratic : ¬ |segA0 1 1 exTangent| ≤ EPSILON := by
    rw [exTangent_a0]; norm_num [EPSILON, abs_of_pos]
  have exTangent_ck1 : segCk1 1 1 exTangent = 1 / 2 := by
    rw [segCk1, if_neg exTangent_quadratic, exTangent_a0, exTangent_b0, exTangent_disc,
      Real.sqrt_zero]
    norm_num
  have exTangent_ck2 : segCk2 1 1 exTangent = 1 / 2 := by
    rw [segCk2, if_neg exTangent_quadratic, exTangent_a0, exTangent_b0, exTangent_disc,
      Real.sqrt_zero]
    norm_num
  have exTangent_ck : segCk 1 1 exTangent = 1 / 2 := by
    simp only [segCk, exTangent_ck1, exTangent_ck2]
    norm_num [EPSILON]
  have exTangent_cc : segCc exTangent (1 / 2) = 1 := by
    rw [segCc, exTangent_a, exTangent_b]; norm_num
  have exTangent_point : segPoint exTangent (1 / 2) = ⟨1, 0, 1⟩ := by
    simp only [segPoint, exTangent_cc]; norm_num [exTangent]
  have exTangent_u : segU exTangent (1 / 2) = ⟨1, 0, 0⟩ := by
    simp only [segU, exTangent_point, segS, segDs]; norm_num [exTangent]
  have exTangent_rnRaw : segRnRaw 1 1 exTangent (1 / 2) = ⟨1, 0, 0⟩ := by
    simp only [segRnRaw, exTangent_u, scalar]
    norm_num [segDs, exTangent]
  have exTangent_rn : segRn 1 1 exTangent (1 / 2) = ⟨1, 0, 0⟩ := by
    simp only [segRn, exTangent_rnRaw, norm]; norm_num
  have exTangent_calf : segCalf 1 1 exTangent (1 / 2) = 0 := by
    simp only [segCalf, exTangent_rn, scalar]; norm_num [exTangent]
  have exTangent_code : (segment 1 1 exTangent).1 = 0 := by
    rw [segment_zero_iff, exTangent_ck, exTangent_cc, exTangent_calf, exTangent_vds,
      exTangent_disc]
    norm_num [EPSILON, abs_of_pos]
  exact ⟨exTangent_ck, exTangent_calf, exTangent_code⟩

/-- The values that `segment` computes on the ray `exTiny`, step by step. -/
theorem exTiny_eval :
    (segVds exTiny = 1) ∧
    (segA0 1e-16 1e-16 exTiny = 1.6e-31) ∧
    (segDisc 1e-16 1e-16 exTiny < 0) ∧
    ((segment 1e-16 1e-16 exTiny).1 = 0) := by
  have segment_zero_iff := segment_lemmas.2.1
  have exTiny_vds : segVds exTiny = 1 := by
    norm_num [segVds, scalar, segDs, exTiny]
  have exTiny_a : segA exTiny = 0 := by
    norm_num [segA, scalar, segDs, segDrs, exTiny]
  have exTiny_b : segB exTiny = 1 := by
    rw [segB, exTiny_vds]; norm_num [scalar, segDs, exTiny]
  have exTiny_a0 : segA0 1e-16 1e-16 exTiny = 1.6e-31 := by
    simp only [segA0, segBb, exTiny_b, scalar]; norm_num [exTiny]
  have exTiny_b0 : segB0 1e-16 1e-16 exTiny = -1.6e-31 := by
    simp only [segB0, segBb, segAa, exTiny_b, exTiny_a, scalar]; norm_num [exTiny]
  have exTiny_c0 : segC0 1e-16 exTiny = 1.2e-31 := by
    simp only [segC0, segAa, exTiny_a, scalar]; norm_num [exTiny]
  have exTiny_disc : segDisc 1e-16 1e-16 exTiny < 0 := by
    rw [segDisc, exTiny_a0, exTiny_b0, exTiny_c0]; norm_num
  have exTiny_linear : |segA0 1e-16 1e-16 exTiny| ≤ EPSILON := by
    rw [exTiny_a0]; norm_num [EPSILON, abs_of_pos]
  have exTiny_ck1 : segCk1 1e-16 1e-16 exTiny = 3 / 4 := by
    rw [segCk1, if_pos exTiny_linear, exTiny_b0, exTiny_c0]
    norm_num
  have exTiny_ck2 : segCk2 1e-16 1e-16 exTiny = -1000 := by
    rw [segCk2, if_pos exTiny_linear]
  have exTiny_ck : segCk 1e-16 1e-16 exTiny = 3 / 4 := by
    simp only [segCk, exTiny_ck1, exTiny_ck2]
    norm_num [EPSILON]
  have exTiny_cc : segCc exTiny (3 / 4) = 3 / 4 := by
    rw [segCc, exTiny_a, exTiny_b]; norm_num
  have exTiny_point : segPoint exTiny (3 / 4) = ⟨1e-16, 3e-16, 3 / 4⟩ := by
    simp only [segPoint, exTiny_cc]; norm_num [exTiny]
  have exTiny_u : segU exTiny (3 / 4) = ⟨1e-16, 3e-16, 0⟩ := by
    simp only [segU, exTiny_point, segS, segDs]; norm_num [exTiny]
  have exTiny_calf : 0 ≤ segCalf 1e-16 1e-16 exTiny (3 / 4) := by
    have hz : (segRnRaw 1e-16 1e-16 exTiny (3 / 4)).z = 0 := by
      simp only [segRnRaw, exTiny_u]
      norm_num [segDs, exTiny]
    have hx : 0 ≤ (segRnRaw 1e-16 1e-16 exTiny (3 / 4)).x := by
      simp only [segRnRaw, exTiny_u]
      norm_num [segDs, exTiny]
      positivity
    have hv : exTiny.v = ⟨4e-16, 0, 1⟩ := rfl
    simp only [segCalf, segRn, norm, scalar, hv, hz]
    have := div_nonneg hx (Real.sqrt_nonneg
      (0 + (segRnRaw 1e-16 1e-16 exTiny (3 / 4)).x * (segRnRaw 1e-16 1e-16 exTiny (3 / 4)).x
        + (segRnRaw 1e-16 1e-16 exTiny (3 / 4)).y * (segRnRaw 1e-16 1e-16 exTiny (3 / 4)).y
        + 0 * 0))
    norm_num at this ⊢
    exact this
  have exTiny_code : (segment 1e-16 1e-16 exTiny).1 = 0 := by
    rw [segment_zero_iff, exTiny_ck, exTiny_cc, exTiny_vds]
    refine ⟨by norm_num [EPSILON], fun h => h.1 exTiny_linear, by norm_num, by norm_num,
      not_lt.mpr exTiny_calf⟩
  exact ⟨exTiny_vds, exTiny_a0, exTiny_disc, exTiny_code⟩

/-- The values that `segment` computes on the ray `exOnWall`, step by step. -/
theorem exOnWall_eval :
    (segVds exOnWall = 2) ∧
    (segA0 1 1 exOnWall = 0) ∧
    (segB0 1 1 exOnWall = 0) ∧
    (segC0 1 exOnWall = 0) ∧
    (segCc exOnWall 1 = 2) ∧
    (segCalf 1 1 exOnWall 1 = 0) ∧
    ((segment 1 1 exOnWall).1 = -2) := by
  have exOnWall_vds : segVds exOnWall = 2 := by
    norm_num [segVds, scalar, segDs, exOnWall]
  have exOnWall_a : segA exOnWall = 0 := by
    norm_num [segA, scalar, segDs, segDrs, exOnWall]
  have exOnWall_b : segB exOnWall = 2 := by
    rw [segB, exOnWall_vds]; norm_num [scalar, segDs, exOnWall]
  have exOnWall_a0 : segA0 1 1 exOnWall = 0 := by
    simp only [segA0, segBb, exOnWall_b, scalar]; norm_num [exOnWall]
  have exOnWall_b0 : segB0 1 1 exOnWall = 0 := by
    simp only [segB0, segBb, segAa, exOnWall_b, exOnWall_a, scalar]; norm_num [exOnWall]
  have exOnWall_c0 : segC0 1 exOnWall = 0 := by
    simp only [segC0, segAa, exOnWall_a, scalar]; norm_num [exOnWall]
  have exOnWall_cc : segCc exOnWall 1 = 2 := by
    rw [segCc, exOnWall_a, exOnWall_b]; norm_num
  have exOnWall_point : segPoint exOnWall 1 = ⟨1, 0, 2⟩ := by
    simp only [segPoint, exOnWall_cc]; norm_num [exOnWall]
  have exOnWall_u : segU exOnWall 1 = ⟨1, 0, 0⟩ := by
    simp only [segU, exOnWall_point, segS, segDs]; norm_num [exOnWall]
  have exOnWall_rnRaw : segRnRaw 1 1 exOnWall 1 = ⟨1, 0, 0⟩ := by
    simp only [segRnRaw, exOnWall_u, scalar]
    norm_num [segDs, exOnWall]
  have exOnWall_rn : segRn 1 1 exOnWall 1 = ⟨1, 0, 0⟩ := by
    simp only [segRn, exOnWall_rnRaw, norm]; norm_num
  have exOnWall_calf : segCalf 1 1 exOnWall 1 = 0 := by
    simp only [segCalf, exOnWall_rn, scalar]; norm_num [exOnWall]
  have exOnWall_code : (segment 1 1 exOnWall).1 = -2 := by
    have hlin : |segA0 1 1 exOnWall| ≤ EPSILON := by
      rw [exOnWall_a0]; norm_num [EPSILON]
    have h1 : ¬ |segVds exOnWall| < EPSILON := by
      rw [exOnWall_vds]; norm_num [EPSILON, abs_of_pos]
    have hck : segCk 1 1 exOnWall = -1000 := by
      have h1 : segCk1 1 1 exOnWall = 0 := by
        rw [segCk1, if_pos hlin, exOnWall_b0, div_zero]
      have h2 : segCk2 1 1 exOnWall = -1000 := by rw [segCk2, if_pos hlin]
      simp only [segCk, h1, h2]
      norm_num [EPSILON]
    rw [segment, if_neg h1, if_neg (fun hh => hh.1 hlin), if_pos hck]
  exact ⟨exOnWall_vds, exOnWall_a0, exOnWall_b0, exOnWall_c0, exOnWall_cc, exOnWall_calf,
    exOnWall_code⟩

set_option maxHeartbeats 1000000 in
/-- Auxiliary facts about the reflectivity computed by `reflect`: the complex
square root, the algebra of the Fresnel ratio, and how the reflectivity depends
on the grazing angle. -/
theorem fresnel_lemmas :
    (∀ (alf : ℝ) (cap : inp_file) (absmu : mumc) (i : Int),
      (reflRtot alf cap absmu i).re
        = fresnelSpec alf (reflAlfa cap absmu i) (reflBeta cap absmu i)) ∧
    (∀ (alf : ℝ) (cap : inp_file) (absmu : mumc) (i : Int),
      reflFactor alf cap absmu i = (reflRtot alf cap absmu i).re * reflRough alf cap i) ∧
    (∀ (alf : ℝ) (cap : inp_file) (absmu : mumc) (profile : cap_profile)
      (cs : calcstruct) (i : Int),
      reflWleak alf cap absmu profile cs i
        = (1 - (reflRtot alf cap absmu i).re) * cs.w i
          * Real.exp (-1 * reflDesc cap profile cs * (absmu.arr i).amu)) ∧
    (∀ (alf : ℝ) (cap : inp_file) (absmu : mumc) (profile : cap_profile)
      (cs cs' : calcstruct) (i : Int) (_ : cs'.w i = cs.w i) (_ : cs'.rh = cs.rh)
      (_ : cs'.v = cs.v),
      reflWleak alf cap absmu profile cs' i = reflWleak alf cap absmu profile cs i) ∧
    (∀ (alf : ℝ) (cap : inp_file) (absmu : mumc) (i : Int),
      0 ≤ (reflRtot alf cap absmu i).re) ∧
    (∀ (cap : inp_file) (absmu : mumc) (i : Int) (alf1 alf2 : ℝ)
      (_ : 0 ≤ alf1) (_ : alf1 ≤ alf2),
      (reflRtot alf2 cap absmu i).re ≤ (reflRtot alf1 cap absmu i).re) ∧
    (∀ (cap : inp_file) (i : Int) (alf1 alf2 : ℝ)
      (_ : 0 ≤ alf1) (_ : alf1 ≤ alf2),
      reflRough alf2 cap i ≤ reflRough alf1 cap i) ∧
    (∀ (alf : ℝ) (cap : inp_file) (absmu : mumc) (i : Int)
      (_ : (reflBeta cap absmu i).re = 0) (_ : alf ^ 2 < 2 * (reflAlfa cap absmu i).re),
      (reflRtot alf cap absmu i).re = 1) ∧
    (∀ (alf : ℝ) (cap : inp_file) (absmu : mumc) (i : Int) (_ : 0 < alf)
      (_ : (reflBeta cap absmu i).re = 0) (_ : (reflAlfa cap absmu i).re = 0),
      (reflRtot alf cap absmu i).re = 0) := by
  have csqrt_sq (z : ℂ) : csqrt z ^ 2 = z := by
    unfold csqrt
    exact Complex.cpow_ofNat_inv_pow z 2
  have csqrt_re_nonneg (z : ℂ) : 0 ≤ (csqrt z).re := by
    unfold csqrt
    by_cases hz : z = 0
    · rw [hz, Complex.zero_cpow (by norm_num)]
      simp
    · rw [Complex.cpow_def_of_ne_zero hz, Complex.exp_re]
      apply mul_nonneg (Real.exp_pos _).le
      apply Real.cos_nonneg_of_neg_pi_div_two_le_of_le
      · have h := Complex.neg_pi_lt_arg z
        have : (Complex.log z * 2⁻¹).im = Complex.arg z / 2 := by
          simp [Complex.log_im, div_eq_mul_inv]
        rw [this]; linarith
      · have h := Complex.arg_le_pi z
        have : (Complex.log z * 2⁻¹).im = Complex.arg z / 2 := by
          simp [Complex.log_im, div_eq_mul_inv]
        rw [this]; linarith
  have csqrt_normSq (z : ℂ) : Complex.normSq (csqrt z) = Complex.abs z := by
    rw [Complex.normSq_eq_abs, ← map_pow, csqrt_sq]
  have csqrt_re_sq (z : ℂ) : 2 * (csqrt z).re ^ 2 = Complex.abs z + z.re := by
    have h1 := csqrt_normSq z
    have h2 : (csqrt z ^ 2).re = z.re := by rw [csqrt_sq]
    rw [Complex.normSq_apply] at h1
    rw [pow_two, Complex.mul_re] at h2
    nlinarith [h1, h2]
  -- The squared modulus of the Fresnel ratio in terms of `T = alf^2 + |z|` and `G =
  -- 2*alf*Re(sqrt z)`.
  have fresnel_ratio (alf : ℝ) (z : ℂ) :
      Complex.abs (((alf : ℂ) - csqrt z) / ((alf : ℂ) + csqrt z)) ^ 2
        = (alf ^ 2 + Complex.abs z - 2 * alf * (csqrt z).re)
          / (alf ^ 2 + Complex.abs z + 2 * alf * (csqrt z).re) := by
    rw [map_div₀, div_pow, Complex.sq_abs, Complex.sq_abs]
    have h1 := csqrt_normSq z
    rw [Complex.normSq_apply] at h1
    congr 1
    · rw [Complex.normSq_apply]
      simp only [Complex.sub_re, Complex.sub_im, Complex.ofReal_re, Complex.ofReal_im]
      nlinarith [h1]
    · rw [Complex.normSq_apply]
      simp only [Complex.add_re, Complex.add_im, Complex.ofReal_re, Complex.ofReal_im]
      nlinarith [h1]
  -- The argument of the square root in `reflect`.
  have reflRtot_eq (alf : ℝ) (cap : inp_file) (absmu : mumc) (i : Int) :
      reflRtot alf cap absmu i
        = ((Complex.abs (reflFresnel alf cap absmu i) ^ 2 : ℝ) : ℂ) := by
    unfold reflRtot
    rw [Complex.cpow_ofNat, ← Complex.ofReal_pow, Complex.ofReal_re]
  have reflRtot_spec (alf : ℝ) (cap : inp_file) (absmu : mumc) (i : Int) :
      (reflRtot alf cap absmu i).re
        = fresnelSpec alf (reflAlfa cap absmu i) (reflBeta cap absmu i) := by
    rw [reflRtot_eq, Complex.ofReal_re]
    unfold fresnelSpec reflFresnel
    rw [Complex.cpow_ofNat, mul_comm Complex.I (reflBeta cap absmu i)]
  have reflFactor_eq (alf : ℝ) (cap : inp_file) (absmu : mumc) (i : Int) :
      reflFactor alf cap absmu i = (reflRtot alf cap absmu i).re * reflRough alf cap i := by
    unfold reflFactor
    rw [reflRtot_eq]
    simp
  have reflWleak_eq (alf : ℝ) (cap : inp_file) (absmu : mumc) (profile : cap_profile)
      (cs : calcstruct) (i : Int) :
      reflWleak alf cap absmu profile cs i
        = (1 - (reflRtot alf cap absmu i).re) * cs.w i
          * Real.exp (-1 * reflDesc cap profile cs * (absmu.arr i).amu) := by
    unfold reflWleak
    rw [reflRtot_eq]
    simp only [← Complex.ofReal_one, ← Complex.ofReal_sub, ← Complex.ofReal_mul,
      Complex.ofReal_re]
  have reflWleak_congr (alf : ℝ) (cap : inp_file) (absmu : mumc) (profile : cap_profile)
      (cs cs' : calcstruct) (i : Int) (hw : cs'.w i = cs.w i) (hrh : cs'.rh = cs.rh)
      (hv : cs'.v = cs.v) :
      reflWleak alf cap absmu profile cs' i = reflWleak alf cap absmu profile cs i := by
    unfold reflWleak reflDesc
    rw [hw, hrh, hv]
  have reflAlfa_im (cap : inp_file) (absmu : mumc) (i : Int) :
      (reflAlfa cap absmu i).im = 0 := by
    unfold reflAlfa
    exact Complex.ofReal_im _
  have reflBeta_im (cap : inp_file) (absmu : mumc) (i : Int) :
      (reflBeta cap absmu i).im = 0 := by
    unfold reflBeta
    exact Complex.ofReal_im _
  have reflZ_re (alf : ℝ) (cap : inp_file) (absmu : mumc) (i : Int) :
      ((alf : ℂ) ^ (2 : ℂ) - 2 * (reflAlfa cap absmu i - reflBeta cap absmu i * Complex.I)).re
        = alf ^ 2 - 2 * (reflAlfa cap absmu i).re := by
    rw [Complex.cpow_ofNat]
    simp [reflAlfa_im, reflBeta_im, pow_two]
  have reflZ_im (alf : ℝ) (cap : inp_file) (absmu : mumc) (i : Int) :
      ((alf : ℂ) ^ (2 : ℂ) - 2 * (reflAlfa cap absmu i - reflBeta cap absmu i * Complex.I)).im
        = 2 * (reflBeta cap absmu i).re := by
    rw [Complex.cpow_ofNat]
    simp [reflAlfa_im, reflBeta_im, pow_two]
  have reflRtot_ratio (alf : ℝ) (cap : inp_file) (absmu : mumc) (i : Int) :
      (reflRtot alf cap absmu i).re
        = (alf ^ 2 + Complex.abs ((alf : ℂ) ^ (2 : ℂ)
              - 2 * (reflAlfa cap absmu i - reflBeta cap absmu i * Complex.I))
            - 2 * alf * (csqrt ((alf : ℂ) ^ (2 : ℂ)
              - 2 * (reflAlfa cap absmu i - reflBeta cap absmu i * Complex.I))).re)
          / (alf ^ 2 + Complex.abs ((alf : ℂ) ^ (2 : ℂ)
              - 2 * (reflAlfa cap absmu i - reflBeta cap absmu i * Complex.I))
            + 2 * alf * (csqrt ((alf : ℂ) ^ (2 : ℂ)
              - 2 * (reflAlfa cap absmu i - reflBeta cap absmu i * Complex.I))).re) := by
    rw [reflRtot_eq, Complex.ofReal_re]
    unfold reflFresnel
    exact fresnel_ratio alf _
  have reflRtot_nonneg (alf : ℝ) (cap : inp_file) (absmu : mumc) (i : Int) :
      0 ≤ (reflRtot alf cap absmu i).re := by
    rw [reflRtot_eq, Complex.ofReal_re]
    positivity
  have reflRtot_antitone (cap : inp_file) (absmu : mumc) (i : Int) (alf1 alf2 : ℝ)
      (h0 : 0 ≤ alf1) (h12 : alf1 ≤ alf2) :
      (reflRtot alf2 cap absmu i).re ≤ (reflRtot alf1 cap absmu i).re := by
    rw [reflRtot_ratio, reflRtot_ratio]
    set z1 : ℂ := (alf1 : ℂ) ^ (2 : ℂ)
      - 2 * (reflAlfa cap absmu i - reflBeta cap absmu i * Complex.I) with hz1
    set z2 : ℂ := (alf2 : ℂ) ^ (2 : ℂ)
      - 2 * (reflAlfa cap absmu i - reflBeta cap absmu i * Complex.I) with hz2
    have h02 : 0 ≤ alf2 := le_trans h0 h12
    have hre1 : z1.re = alf1 ^ 2 - 2 * (reflAlfa cap absmu i).re := reflZ_re alf1 cap absmu i
    have hre2 : z2.re = alf2 ^ 2 - 2 * (reflAlfa cap absmu i).re := reflZ_re alf2 cap absmu i
    have him1 : z1.im = 2 * (reflBeta cap absmu i).re := reflZ_im alf1 cap absmu i
    have him2 : z2.im = 2 * (reflBeta cap absmu i).re := reflZ_im alf2 cap absmu i
    have hsq : alf1 ^ 2 ≤ alf2 ^ 2 := pow_le_pow_left₀ h0 h12 2
    -- the modulus of z is 1-Lipschitz in alf^2
    have hdiff : z1 - z2 = ((alf1 ^ 2 - alf2 ^ 2 : ℝ) : ℂ) := by
      apply Complex.ext
      · rw [Complex.sub_re, hre1, hre2, Complex.ofReal_re]; ring
      · rw [Complex.sub_im, him1, him2, Complex.ofReal_im]; ring
    have hlip : Complex.abs z1 - Complex.abs z2 ≤ alf2 ^ 2 - alf1 ^ 2 := by
      have := Complex.abs.le_sub z1 z2
      rw [hdiff, Complex.abs_ofReal, abs_of_nonpos (by linarith)] at this
      linarith
    have hn1 : Complex.abs z1 ^ 2 = z1.re ^ 2 + z1.im ^ 2 := by
      rw [Complex.sq_abs, Complex.normSq_apply]; ring
    have hn2 : Complex.abs z2 ^ 2 = z2.re ^ 2 + z2.im ^ 2 := by
      rw [Complex.sq_abs, Complex.normSq_apply]; ring
    have hp1 := csqrt_re_sq z1
    have hp2 := csqrt_re_sq z2
    have ha1 : 0 ≤ Complex.abs z1 := Complex.abs.nonneg z1
    have ha2 : 0 ≤ Complex.abs z2 := Complex.abs.nonneg z2
    apply ratio_antitone ((2 * (reflAlfa cap absmu i).re) ^ 2
        + (2 * (reflBeta cap absmu i).re) ^ 2)
    · exact mul_nonneg (mul_nonneg (by norm_num) h0) (csqrt_re_nonneg z1)
    · exact mul_nonneg (mul_nonneg (by norm_num) h02) (csqrt_re_nonneg z2)
    · positivity
    · linarith
    · rw [hre1, him1] at hn1
      rw [hre1] at hp1
      have : (2 * alf1 * (csqrt z1).re) ^ 2 = 2 * alf1 ^ 2 * (2 * (csqrt z1).re ^ 2) := by ring
      rw [this, hp1]
      linear_combination (-1 : ℝ) * hn1
    · rw [hre2, him2] at hn2
      rw [hre2] at hp2
      have : (2 * alf2 * (csqrt z2).re) ^ 2 = 2 * alf2 ^ 2 * (2 * (csqrt z2).re ^ 2) := by ring
      rw [this, hp2]
      linear_combination (-1 : ℝ) * hn2
    · positivity
  have reflRough_antitone (cap : inp_file) (i : Int) (alf1 alf2 : ℝ)
      (h0 : 0 ≤ alf1) (h12 : alf1 ≤ alf2) :
      reflRough alf2 cap i ≤ reflRough alf1 cap i := by
    unfold reflRough
    simp only
    apply Real.exp_le_exp.mpr
    have hsq : alf1 ^ 2 ≤ alf2 ^ 2 := pow_le_pow_left₀ h0 h12 2
    have hk : 0 ≤ (1.01358e0 * reflE cap i * cap.sig_rough) ^ 2 := sq_nonneg _
    nlinarith [mul_le_mul_of_nonneg_left hsq hk]
  -- Total reflection: when the attenuation term vanishes and `alf^2 < 2*alfa` the reflectivity
  -- is 1.
  have reflRtot_total (alf : ℝ) (cap : inp_file) (absmu : mumc) (i : Int)
      (hb : (reflBeta cap absmu i).re = 0) (ha : alf ^ 2 < 2 * (reflAlfa cap absmu i).re) :
      (reflRtot alf cap absmu i).re = 1 := by
    rw [reflRtot_ratio]
    set z : ℂ := (alf : ℂ) ^ (2 : ℂ)
      - 2 * (reflAlfa cap absmu i - reflBeta cap absmu i * Complex.I) with hz
    have hre : z.re = alf ^ 2 - 2 * (reflAlfa cap absmu i).re := reflZ_re alf cap absmu i
    have him : z.im = 0 := by rw [hz, reflZ_im, hb, mul_zero]
    have habs : Complex.abs z = -z.re := by
      have hzr : z = ((z.re : ℝ) : ℂ) := by
        apply Complex.ext
        · simp
        · simp [him]
      rw [hzr, Complex.abs_ofReal, abs_of_neg (by rw [hre]; linarith), Complex.ofReal_re]
    have hp : (csqrt z).re = 0 := by
      have := csqrt_re_sq z
      rw [habs] at this
      have h2 : (csqrt z).re ^ 2 = 0 := by linarith
      exact pow_eq_zero_iff (two_ne_zero) |>.mp h2
    rw [hp, habs, hre]
    have hpos : alf ^ 2 + -(alf ^ 2 - 2 * (reflAlfa cap absmu i).re) ≠ 0 := by
      have : 0 ≤ alf ^ 2 := sq_nonneg alf
      intro h
      linarith
    simp only [mul_zero, sub_zero, add_zero]
    exact div_self hpos
  -- No reflection: without any decrement the reflectivity at a positive angle is 0.
  have reflRtot_none (alf : ℝ) (cap : inp_file) (absmu : mumc) (i : Int) (hpos : 0 < alf)
      (hb : (reflBeta cap absmu i).re = 0) (ha : (reflAlfa cap absmu i).re = 0) :
      (reflRtot alf cap absmu i).re = 0 := by
    rw [reflRtot_ratio]
    set z : ℂ := (alf : ℂ) ^ (2 : ℂ)
      - 2 * (reflAlfa cap absmu i - reflBeta cap absmu i * Complex.I) with hz
    have hre : z.re = alf ^ 2 := by rw [hz, reflZ_re, ha]; ring
    have him : z.im = 0 := by rw [hz, reflZ_im, hb, mul_zero]
    have habs : Complex.abs z = alf ^ 2 := by
      have hzr : z = ((z.re : ℝ) : ℂ) := by
        apply Complex.ext
        · simp
        · simp [him]
      rw [hzr, Complex.abs_ofReal, abs_of_nonneg (by rw [hre]; positivity), hre]
    have hp : (csqrt z).re = alf := by
      have h1 := csqrt_re_sq z
      have h2 := csqrt_re_nonneg z
      rw [habs, hre] at h1
      nlinarith [sq_nonneg ((csqrt z).re - alf), sq_nonneg ((csqrt z).re + alf)]
    rw [hp, habs]
    have : alf ^ 2 + alf ^ 2 - 2 * alf * alf = 0 := by ring
    rw [this, zero_div]
  exact ⟨reflRtot_spec, reflFactor_eq, reflWleak_eq, reflWleak_congr, reflRtot_nonneg,
    reflRtot_antitone, reflRough_antitone, reflRtot_total, reflRtot_none⟩

set_option maxHeartbeats 400000 in
/-- Auxiliary facts about the energy loop of `reflect`: what one iteration
changes, what the whole loop changes in each bin, and the possible return
codes. -/
theorem reflect_lemmas :
    (∀ (alf : ℝ) (cap : inp_file) (absmu : mumc) (profile : cap_profile)
      (s : leakstruct × calcstruct) (i : Int) (_ : 0 ≤ i) (_ : i ≤ absmu.n_energy),
      (reflect alf cap absmu profile s).2.2.w i = s.2.w i * reflFactor alf cap absmu i ∧
      (reflect alf cap absmu profile s).2.1.leak i
        = s.1.leak i + reflWleak alf cap absmu profile s.2 i) ∧
    (∀ (alf : ℝ) (cap : inp_file) (absmu : mumc) (profile : cap_profile)
      (s : leakstruct × calcstruct),
      (reflect alf cap absmu profile s).2.2
        = { s.2 with w := (reflect alf cap absmu profile s).2.2.w }) ∧
    (∀ (alf : ℝ) (cap : inp_file) (absmu : mumc) (profile : cap_profile)
      (s : leakstruct × calcstruct),
      ((reflect alf cap absmu profile s).1 = -2 ↔
          (reflect alf cap absmu profile s).2.2.w 0 < 1e-4) ∧
        ((reflect alf cap absmu profile s).1 = -2 ∨ (reflect alf cap absmu profile s).1 = 0)) := by
  have reflectBin_snd (alf : ℝ) (cap : inp_file) (absmu : mumc) (profile : cap_profile)
      (i : Int) (s : leakstruct × calcstruct) :
      (reflectBin alf cap absmu profile i s).2
        = { s.2 with w := Function.update s.2.w i (s.2.w i * reflFactor alf cap absmu i) } := by
    unfold reflectBin reflFactor
    simp only [mul_assoc, Complex.re_ofReal_mul]
  have reflectBin_leak (alf : ℝ) (cap : inp_file) (absmu : mumc) (profile : cap_profile)
      (i : Int) (s : leakstruct × calcstruct) :
      (reflectBin alf cap absmu profile i s).1.leak
        = Function.update s.1.leak i (s.1.leak i + reflWleak alf cap absmu profile s.2 i) := by
    unfold reflectBin
    simp only
    split_ifs <;> rfl
  have reflectBin_spot (alf : ℝ) (cap : inp_file) (absmu : mumc) (profile : cap_profile)
      (i : Int) (s : leakstruct × calcstruct) :
      (reflectBin alf cap absmu profile i s).1.spot = s.1.spot := by
    unfold reflectBin
    simp only
    split_ifs <;> rfl
  -- What the energy loop of `reflect` does to the photon state, the weights and the leak
  -- spectrum when it runs over the `n` bins from `lo`.
  have reflect_loop (alf : ℝ) (cap : inp_file) (absmu : mumc) (profile : cap_profile) :
      ∀ (n : ℕ) (lo : Int) (s : leakstruct × calcstruct),
        (forLoop (reflectBin alf cap absmu profile) n lo s).2
            = { s.2 with w := (forLoop (reflectBin alf cap absmu profile) n lo s).2.w } ∧
        (forLoop (reflectBin alf cap absmu profile) n lo s).1.spot = s.1.spot ∧
        (∀ j : Int, (forLoop (reflectBin alf cap absmu profile) n lo s).2.w j
            = if lo ≤ j ∧ j < lo + n then s.2.w j * reflFactor alf cap absmu j else s.2.w j) ∧
        (∀ j : Int, (forLoop (reflectBin alf cap absmu profile) n lo s).1.leak j
            = if lo ≤ j ∧ j < lo + n then s.1.leak j + reflWleak alf cap absmu profile s.2 j
              else s.1.leak j) := by
    have reflWleak_congr := fresnel_lemmas.2.2.2.1
    intro n
    induction n with
    | zero =>
      intro lo s
      refine ⟨rfl, rfl, fun j => ?_, fun j => ?_⟩
      · have : ¬ (lo ≤ j ∧ j < lo + ((0 : ℕ) : Int)) := by push_cast; omega
        rw [if_neg this]; rfl
      · have : ¬ (lo ≤ j ∧ j < lo + ((0 : ℕ) : Int)) := by push_cast; omega
        rw [if_neg this]; rfl
    | succ n ih =>
      intro lo s
      obtain ⟨h1, h2, h3, h4⟩ := ih (lo + 1) (reflectBin alf cap absmu profile lo s)
      have hstep : forLoop (reflectBin alf cap absmu profile) (n + 1) lo s
          = forLoop (reflectBin alf cap absmu profile) n (lo + 1)
              (reflectBin alf cap absmu profile lo s) := rfl
      rw [hstep]
      refine ⟨?_, ?_, fun j => ?_, fun j => ?_⟩
      · rw [h1, reflectBin_snd]
      · rw [h2, reflectBin_spot]
      · rw [h3 j, reflectBin_snd]
        simp only
        by_cases hj : j = lo
        · subst hj
          have hn : ¬ (j + 1 ≤ j ∧ j < j + 1 + (n : Int)) := by omega
          have hp : j ≤ j ∧ j < j + ((n + 1 : ℕ) : Int) := by push_cast; omega
          rw [if_neg hn, if_pos hp, Function.update_same]
        · rw [Function.update_noteq hj]
          by_cases hr : lo + 1 ≤ j ∧ j < lo + 1 + (n : Int)
          · have hp : lo ≤ j ∧ j < lo + ((n + 1 : ℕ) : Int) := by push_cast; omega
            rw [if_pos hr, if_pos hp]
          · have hp : ¬ (lo ≤ j ∧ j < lo + ((n + 1 : ℕ) : Int)) := by push_cast; omega
            rw [if_neg hr, if_neg hp]
      · rw [h4 j, reflectBin_leak]
        by_cases hj : j = lo
        · subst hj
          have hn : ¬ (j + 1 ≤ j ∧ j < j + 1 + (n : Int)) := by omega
          have hp : j ≤ j ∧ j < j + ((n + 1 : ℕ) : Int) := by push_cast; omega
          rw [if_neg hn, if_pos hp, Function.update_same]
        · rw [Function.update_noteq hj]
          have hc : reflWleak alf cap absmu profile (reflectBin alf cap absmu profile lo s).2 j
              = reflWleak alf cap absmu profile s.2 j := by
            apply reflWleak_congr
            · rw [reflectBin_snd]
              exact Function.update_noteq hj _ _
            · rw [reflectBin_snd]
            · rw [reflectBin_snd]
          rw [hc]
          by_cases hr : lo + 1 ≤ j ∧ j < lo + 1 + (n : Int)
          · have hp : lo ≤ j ∧ j < lo + ((n + 1 : ℕ) : Int) := by push_cast; omega
            rw [if_pos hr, if_pos hp]
          · have hp : ¬ (lo ≤ j ∧ j < lo + ((n + 1 : ℕ) : Int)) := by push_cast; omega
            rw [if_neg hr, if_neg hp]
  -- The state after the energy loop of `reflect`.
  have reflect_state (alf : ℝ) (cap : inp_file) (absmu : mumc) (profile : cap_profile)
      (s : leakstruct × calcstruct) :
      (reflect alf cap absmu profile s).2
        = forUpTo 0 absmu.n_energy (reflectBin alf cap absmu profile) s := by
    unfold reflect
    simp only
    split_ifs <;> rfl
  have reflect_bin (alf : ℝ) (cap : inp_file) (absmu : mumc) (profile : cap_profile)
      (s : leakstruct × calcstruct) (i : Int) (h0 : 0 ≤ i) (h1 : i ≤ absmu.n_energy) :
      (reflect alf cap absmu profile s).2.2.w i = s.2.w i * reflFactor alf cap absmu i ∧
      (reflect alf cap absmu profile s).2.1.leak i
        = s.1.leak i + reflWleak alf cap absmu profile s.2 i := by
    rw [reflect_state]
    unfold forUpTo
    obtain ⟨-, -, h3, h4⟩ := reflect_loop alf cap absmu profile
      (absmu.n_energy + 1 - 0).toNat 0 s
    have hp : (0 : Int) ≤ i ∧ i < 0 + ((absmu.n_energy + 1 - 0).toNat : Int) := by
      constructor
      · exact h0
      · rw [Int.toNat_of_nonneg (by omega)]; omega
    rw [h3 i, h4 i, if_pos hp, if_pos hp]
    exact ⟨rfl, rfl⟩
  have reflect_frame (alf : ℝ) (cap : inp_file) (absmu : mumc) (profile : cap_profile)
      (s : leakstruct × calcstruct) :
      (reflect alf cap absmu profile s).2.2
        = { s.2 with w := (reflect alf cap absmu profile s).2.2.w } := by
    rw [reflect_state]
    unfold forUpTo
    exact (reflect_loop alf cap absmu profile (absmu.n_energy + 1 - 0).toNat 0 s).1
  have reflect_code (alf : ℝ) (cap : inp_file) (absmu : mumc) (profile : cap_profile)
      (s : leakstruct × calcstruct) :
      ((reflect alf cap absmu profile s).1 = -2 ↔
          (reflect alf cap absmu profile s).2.2.w 0 < 1e-4) ∧
        ((reflect alf cap absmu profile s).1 = -2 ∨ (reflect alf cap absmu profile s).1 = 0) := by
    unfold reflect
    simp only
    split_ifs with h
    · exact ⟨⟨fun _ => h, fun _ => rfl⟩, Or.inl rfl⟩
    · refine ⟨⟨fun h' => ?_, fun h' => absurd h' h⟩, Or.inr rfl⟩
      norm_num at h'
  exact ⟨reflect_bin, reflect_frame, reflect_code⟩

set_option maxHeartbeats 1000000 in
/-- The values that the code computes on the concrete inputs: the parallel ray,
the reflectivity of the mirror, void and wide tables, and the photons `exCalc`,
`exAxis` and `exFar`. -/
theorem example_evals :
    (∀ (sig : ℝ) (i : Int), reflE (exCap sig) i = 1) ∧
    (∀ (sig alf : ℝ) (i : Int) (_ : alf ^ 2 < 4),
      (reflRtot alf (exCap sig) (exAbsmu 1e20) i).re = 1) ∧
    (∀ (sig : ℝ),
      capilScanned exProfile (exCap sig) exCalc
        = (exCalc, { rh1 := ⟨1, 0, 4 / 3⟩, rn := ⟨1, 0, 0⟩, calf := 3 / 5 })) ∧
    (scalar exCalc.v exCalc.v = 1) ∧
    (∀ (sig : ℝ) (_ : sig = 0),
      (reflect (capilAlf (3 / 5)) (exCap sig) (exAbsmu 1e20) exProfile
        (exLeaks, capilMoved (exCap sig) exCalc
          { rh1 := ⟨1, 0, 4 / 3⟩, rn := ⟨1, 0, 0⟩, calf := 3 / 5 })).1 ≠ -2) ∧
    (∀ (sig : ℝ),
      (reflect (capilAlf (3 / 5)) (exCap sig) (exAbsmu 0) exProfile
        (exLeaks, capilMoved (exCap sig) exCalc
          { rh1 := ⟨1, 0, 4 / 3⟩, rn := ⟨1, 0, 0⟩, calf := 3 / 5 })).1 = -2) ∧
    (¬ countOutside (exCap 0) exProfile exAxis) ∧
    (countOutside (exCap 0) exProfile exFar) ∧
    (∀ (sig : ℝ),
      capilScanned exProfile (exCap sig) exAxis
        = ({ exAxis with iesc := -2 },
            { rh1 := ⟨1 / 2, 0, 0⟩, rn := ⟨0, 0, 0⟩, calf := 0 })) ∧
    (∀ (i : Int), (reflRtot 1 (exCap 0) exAbsmuWide i).re = 0) ∧
    (segVds exParallel = 2 ∧ segA0 1 1 exParallel = 0 ∧ segB0 1 1 exParallel = 0) ∧
    (Real.sqrt (scalar (segU exCyl (segCk 1 1 exCyl))
      (segU exCyl (segCk 1 1 exCyl))) = 1) ∧
    (∀ (sig : ℝ) (loc : CapilLocals),
      capilHitAu exProfile (exCap sig) exCalc loc = 1) := by
  have exParallel_miss :
      (segment 1 1 exParallel).1 = -2 ∧ (segment 1 1 exParallel).2 = exParallel := by
    have segment_parallel_miss := segment_lemmas.2.2.2.2.2.2.2.2.2.2.2.2.2.1
    obtain ⟨h1, h2, -⟩ := segment_parallel_miss 1 (1 / 2) exParallel
      (by intro h; have := congrArg Vec3.z h; norm_num [exParallel] at this)
      (by norm_num)
      (by ext <;> norm_num [exParallel])
      (by norm_num [scalar, segDrs, segDs, exParallel])
    exact ⟨h1, h2⟩
  have exCap_e (sig : ℝ) (i : Int) : reflE (exCap sig) i = 1 := by
    simp [reflE, exCap]
  have exAbsmu_beta (sig scatf : ℝ) (i : Int) :
      (reflBeta (exCap sig) (exAbsmu scatf) i).re = 0 := by
    unfold reflBeta
    rw [Complex.ofReal_re]
    simp [exAbsmu]
  have exAbsmu_alfa (sig scatf : ℝ) (i : Int) :
      (reflAlfa (exCap sig) (exAbsmu scatf) i).re = HC * HC * (N_AVOG * R0) * scatf := by
    unfold reflAlfa
    rw [Complex.ofReal_re, exCap_e]
    have hpi : (2 * Real.pi) ≠ 0 := by positivity
    have : N_AVOG * R0 * (exCap sig).density / (2 * Real.pi) = N_AVOG * R0 := by
      show N_AVOG * R0 * (2 * Real.pi) / (2 * Real.pi) = N_AVOG * R0
      field_simp
    rw [this]
    simp [exAbsmu]
  have exMirror_rtot (sig alf : ℝ) (i : Int) (h : alf ^ 2 < 4) :
      (reflRtot alf (exCap sig) (exAbsmu 1e20) i).re = 1 := by
    have reflRtot_total := fresnel_lemmas.2.2.2.2.2.2.2.1
    apply reflRtot_total _ _ _ _ (exAbsmu_beta sig 1e20 i)
    rw [exAbsmu_alfa]
    have : (2 : ℝ) < HC * HC * (N_AVOG * R0) * 1e20 := by
      norm_num [HC, N_AVOG, R0]
    linarith
  have exVoid_rtot (sig alf : ℝ) (i : Int) (h : 0 < alf) :
      (reflRtot alf (exCap sig) (exAbsmu 0) i).re = 0 := by
    have reflRtot_none := fresnel_lemmas.2.2.2.2.2.2.2.2
    apply reflRtot_none _ _ _ _ h (exAbsmu_beta sig 0 i)
    rw [exAbsmu_alfa]
    simp
  have exScanned (sig : ℝ) :
      capilScanned exProfile (exCap sig) exCalc
        = (exCalc, { rh1 := ⟨1, 0, 4 / 3⟩, rn := ⟨1, 0, 0⟩, calf := 3 / 5 }) := by
    have segment_mem_of_zero := segment_lemmas.2.2.1
    have hargs : capilSegArgs exProfile (exCap sig) exCalc
        { rh1 := ⟨0, 0, 0⟩, rn := ⟨0, 0, 0⟩, calf := 0 } 1 = exCyl := by
      simp [capilSegArgs, exCyl, exProfile, exCap, exCalc]
    have hcnt : (exProfile.nmax + 1 - ((0 : Int) + 1)).toNat = 1 := by
      simp [exProfile]
    have hmem := segment_mem_of_zero 1 1 exCyl exCyl_eval.2.2.2.2.2.2
    rw [exCyl_eval.2.2.1] at hmem
    have hp0 : (exProfile.arr (1 - 1)).profil = 1 := by simp [exProfile]
    have hp1 : (exProfile.arr 1).profil = 1 := by simp [exProfile]
    have hstart : capilScanned exProfile (exCap sig) exCalc
        = capilScan exProfile (exCap sig) (exProfile.nmax + 1 - ((0 : Int) + 1)).toNat 1
            (exCalc, { rh1 := ⟨0, 0, 0⟩, rn := ⟨0, 0, 0⟩, calf := 0 }) := by
      unfold capilScanned
      have hrefl : exCalc.i_refl = 0 := rfl
      simp only [hrefl, if_true]
      rfl
    rw [hstart, hcnt]
    unfold capilScan
    simp only [hargs, hp0, hp1, exCyl_eval.2.2.2.2.2.2, if_true, hmem]
    simp only [segHit, exCyl_eval.2.2.2.1, exCyl_eval.2.2.2.2.1, exCyl_eval.2.2.2.2.2.1]
    rfl
  have exCalc_unit : scalar exCalc.v exCalc.v = 1 := by
    norm_num [scalar, exCalc]
  have exAlf_range : 0 < capilAlf (3 / 5) ∧ capilAlf (3 / 5) ^ 2 < 4 := by
    unfold capilAlf
    have h1 : Real.arccos (3 / 5) < Real.pi / 2 := by
      rw [Real.arccos_lt_pi_div_two]; norm_num
    have h2 : 0 ≤ Real.arccos (3 / 5) := Real.arccos_nonneg _
    have h3 := Real.pi_lt_d2
    have h4 := Real.pi_pos
    constructor
    · linarith
    · nlinarith
  have exMirror_reflect_code (sig : ℝ) (hs : sig = 0) :
      (reflect (capilAlf (3 / 5)) (exCap sig) (exAbsmu 1e20) exProfile
        (exLeaks, capilMoved (exCap sig) exCalc
          { rh1 := ⟨1, 0, 4 / 3⟩, rn := ⟨1, 0, 0⟩, calf := 3 / 5 })).1 ≠ -2 := by
    have reflect_bin := reflect_lemmas.1
    have reflect_code := reflect_lemmas.2.2
    have reflFactor_eq := fresnel_lemmas.2.1
    intro h
    have hlt := (reflect_code _ _ _ _ _).1.1 h
    rw [(reflect_bin _ _ _ _ _ 0 le_rfl (by simp [exAbsmu])).1, reflFactor_eq,
      exMirror_rtot sig _ 0 exAlf_range.2] at hlt
    have hrough : reflRough (capilAlf (3 / 5)) (exCap sig) 0 = 1 := by
      unfold reflRough
      simp [exCap, hs]
    rw [hrough] at hlt
    have hw : (capilMoved (exCap sig) exCalc
        { rh1 := ⟨1, 0, 4 / 3⟩, rn := ⟨1, 0, 0⟩, calf := 3 / 5 }).w 0 = 1 := rfl
    simp only [hw] at hlt
    norm_num at hlt
  have exVoid_reflect_code (sig : ℝ) :
      (reflect (capilAlf (3 / 5)) (exCap sig) (exAbsmu 0) exProfile
        (exLeaks, capilMoved (exCap sig) exCalc
          { rh1 := ⟨1, 0, 4 / 3⟩, rn := ⟨1, 0, 0⟩, calf := 3 / 5 })).1 = -2 := by
    have reflect_bin := reflect_lemmas.1
    have reflect_code := reflect_lemmas.2.2
    have reflFactor_eq := fresnel_lemmas.2.1
    rw [(reflect_code _ _ _ _ _).1,
      (reflect_bin _ _ _ _ _ 0 le_rfl (by simp [exAbsmu])).1, reflFactor_eq,
      exVoid_rtot sig _ 0 exAlf_range.1]
    norm_num
  have exAxis_inside : ¬ countOutside (exCap 0) exProfile exAxis := by
    have hx : countXpend (exCap 0) exProfile exAxis = 1 / 2 := by
      norm_num [countXpend, exAxis, exCap, exProfile, exCalc]
    have hy : countYpend (exCap 0) exProfile exAxis = 0 := by
      norm_num [countYpend, exAxis, exCap, exProfile, exCalc]
    have hh : (1 / 2 : ℝ) ≤ countHexEdge exProfile := by
      unfold countHexEdge
      rw [Real.le_sqrt' (by norm_num)]
      norm_num [exProfile]
    have hc : ∀ t : ℝ, |Real.cos t * (1 / 2) + Real.sin t * 0| ≤ 1 / 2 := by
      intro t
      rw [mul_zero, add_zero, abs_mul, abs_of_pos (by norm_num : (0 : ℝ) < 1 / 2)]
      have := Real.abs_cos_le_one t
      linarith
    unfold countOutside countDp1 countDp2 countDp3
    rw [hx, hy]
    intro h
    rcases h with h | h | h
    · norm_num at h
      linarith
    · have := hc (Real.pi / 6)
      linarith
    · have := hc (-1 * Real.pi / 6)
      linarith
  have exFar_outside : countOutside (exCap 0) exProfile exFar := by
    have hy : countYpend (exCap 0) exProfile exFar = 100 := by
      norm_num [countYpend, exFar, exCap, exProfile, exCalc]
    have hh : countHexEdge exProfile < 100 := by
      unfold countHexEdge
      rw [Real.sqrt_lt' (by norm_num)]
      norm_num [exProfile]
    left
    unfold countDp1
    rw [hy]
    norm_num
    exact hh
  have exAxisScanned (sig : ℝ) :
      capilScanned exProfile (exCap sig) exAxis
        = ({ exAxis with iesc := -2 },
            { rh1 := ⟨1 / 2, 0, 0⟩, rn := ⟨0, 0, 0⟩, calf := 0 }) := by
    have hargs : capilSegArgs exProfile (exCap sig) exAxis
        { rh1 := ⟨0, 0, 0⟩, rn := ⟨0, 0, 0⟩, calf := 0 } 1 = exParallel := by
      simp [capilSegArgs, exParallel, exProfile, exCap, exAxis, exCalc]
    have hcnt : (exProfile.nmax + 1 - ((0 : Int) + 1)).toNat = 1 := by
      simp [exProfile]
    obtain ⟨hcode, hmem⟩ := exParallel_miss
    have hp0 : (exProfile.arr (1 - 1)).profil = 1 := by simp [exProfile]
    have hp1 : (exProfile.arr 1).profil = 1 := by simp [exProfile]
    have hstart : capilScanned exProfile (exCap sig) exAxis
        = capilScan exProfile (exCap sig) (exProfile.nmax + 1 - ((0 : Int) + 1)).toNat 1
            (exAxis, { rh1 := ⟨0, 0, 0⟩, rn := ⟨0, 0, 0⟩, calf := 0 }) := by
      unfold capilScanned
      have hrefl : exAxis.i_refl = 0 := rfl
      simp only [hrefl, if_true]
      rfl
    rw [hstart, hcnt]
    unfold capilScan
    simp only [hargs, hp0, hp1, hcode, hmem]
    simp only [capilScan]
    rfl
  have exAbsmuWide_rtot (i : Int) : (reflRtot 1 (exCap 0) exAbsmuWide i).re = 0 := by
    have reflRtot_none := fresnel_lemmas.2.2.2.2.2.2.2.2
    apply reflRtot_none _ _ _ _ one_pos
    · unfold reflBeta
      rw [Complex.ofReal_re]
      simp [exAbsmuWide]
    · unfold reflAlfa
      rw [Complex.ofReal_re]
      simp [exAbsmuWide]
  have exParallel_coeff :
      segVds exParallel = 2 ∧ segA0 1 1 exParallel = 0 ∧ segB0 1 1 exParallel = 0 := by
    have segment_parallel_miss := segment_lemmas.2.2.2.2.2.2.2.2.2.2.2.2.2.1
    obtain ⟨-, -, -, h4, h5, -⟩ := segment_parallel_miss 1 (1 / 2) exParallel
      (by intro h; have := congrArg Vec3.z h; norm_num [exParallel] at this)
      (by norm_num)
      (by ext <;> norm_num [exParallel])
      (by norm_num [scalar, segDrs, segDs, exParallel])
    refine ⟨?_, h4, h5⟩
    norm_num [segVds, scalar, segDs, exParallel]
  have exCyl_au : Real.sqrt (scalar (segU exCyl (segCk 1 1 exCyl))
      (segU exCyl (segCk 1 1 exCyl))) = 1 := by
    have hck := exCyl_eval.2.2.1
    have hpt := exCyl_eval.2.2.2.1
    have hu : segU exCyl (2 / 3) = ⟨1, 0, 0⟩ := by
      simp only [segU, hpt, segS, segDs]; norm_num [exCyl]
    rw [hck, hu]
    norm_num [scalar]
  have exCalc_au (sig : ℝ) (loc : CapilLocals) :
      capilHitAu exProfile (exCap sig) exCalc loc = 1 := by
    have hix : (capilScanned exProfile (exCap sig) exCalc).1.ix + 1 = 1 := by
      rw [exScanned]; rfl
    unfold capilHitAu
    simp only
    rw [hix]
    have hp0 : (exProfile.arr (1 - 1)).profil = 1 := by simp [exProfile]
    have hp1 : (exProfile.arr 1).profil = 1 := by simp [exProfile]
    rw [hp0, hp1]
    have hargs : capilSegArgs exProfile (exCap sig) exCalc loc 1
        = { exCyl with rn := loc.rn, calf := loc.calf } := by
      simp [capilSegArgs, exCyl, exProfile, exCap, exCalc]
    rw [hargs]
    exact exCyl_au
  exact ⟨exCap_e, exMirror_rtot, exScanned, exCalc_unit, exMirror_reflect_code,
    exVoid_reflect_code, exAxis_inside, exFar_outside, exAxisScanned, exAbsmuWide_rtot,
    exParallel_coeff, exCyl_au, exCalc_au⟩

set_option maxHeartbeats 1000000 in
/-- Auxiliary facts about `capil`: what its scan leaves in the photon state and
in the locals, which segment it stops at, and the return code and direction
after the reflection step. -/
theorem capil_lemmas :
    (∀ (profile : cap_profile) (cap : inp_file) (cs : calcstruct)
      (_ : (capilScanned profile cap cs).1.iesc = 0)
      (_ : scalar (capilScanned profile cap cs).2.rn (capilScanned profile cap cs).2.rn ≠ 0),
      (capilScanned profile cap cs).2.calf = scalar (capilScanned profile cap cs).2.rn cs.v) ∧
    (∀ (absmu : mumc) (profile : cap_profile) (cap : inp_file)
      (leaks : leakstruct) (cs : calcstruct) (loc : CapilLocals),
      (capilBounce absmu profile cap leaks cs loc).2.iesc
        = (reflect (capilAlf loc.calf) cap absmu profile (leaks, cs)).1) ∧
    (∀ (absmu : mumc) (profile : cap_profile) (cap : inp_file)
      (s : leakstruct × calcstruct),
      (capil absmu profile cap s).2.iesc = -2 ↔
        ((capilScanned profile cap s.2).1.iesc = 0 ∧
          ¬ |(capilScanned profile cap s.2).2.calf| > 1.0 ∧
          (reflect (capilAlf (capilScanned profile cap s.2).2.calf) cap absmu profile
            (s.1, capilMoved cap (capilScanned profile cap s.2).1
              (capilScanned profile cap s.2).2)).1 = -2)) ∧
    (∀ (v n : Vec3) (c : ℝ) (_ : c = scalar n v) (_ : -1 ≤ c)
      (_ : c ≤ 1) (_ : scalar n n = 1) (_ : scalar v v = 1),
      capilReflectDir v n (capilAlf c)
        = ⟨v.x - 2 * scalar v n * n.x, v.y - 2 * scalar v n * n.y, v.z - 2 * scalar v n * n.z⟩) ∧
    (∀ (absmu : mumc) (profile : cap_profile) (cap : inp_file)
      (s : leakstruct × calcstruct)
      (_ : (capilScanned profile cap s.2).1.iesc = 0)
      (_ : ¬ |(capilScanned profile cap s.2).2.calf| > 1.0)
      (_ : (capil absmu profile cap s).2.iesc ≠ -2),
      (capil absmu profile cap s).2.v
        = capilReflectDir s.2.v (capilScanned profile cap s.2).2.rn
            (capilAlf (capilScanned profile cap s.2).2.calf)) ∧
    (∀ (absmu : mumc) (profile : cap_profile) (cap : inp_file)
      (s : leakstruct × calcstruct) (_ : (capilScanned profile cap s.2).1.iesc ≠ 0),
      capil absmu profile cap s = (s.1, { (capilScanned profile cap s.2).1 with iesc := 1 })) ∧
    (∀ (absmu : mumc) (profile : cap_profile) (cap : inp_file)
      (s : leakstruct × calcstruct),
      (capil absmu profile cap s).2.iesc = 1 ↔ (capilScanned profile cap s.2).1.iesc ≠ 0) ∧
    (∀ (profile : cap_profile) (cap : inp_file) (cs cs' : calcstruct)
      (i : Int) (_ : cs'.sx = cs.sx) (_ : cs'.sy = cs.sy) (_ : cs'.rh = cs.rh)
      (_ : cs'.v = cs.v),
      capilHits profile cap cs' i ↔ capilHits profile cap cs i) ∧
    (∀ (profile : cap_profile) (cap : inp_file),
      ∀ (n : ℕ) (i : Int) (s : calcstruct × CapilLocals),
        ((∀ j, i ≤ j → j < i + n → ¬ capilHits profile cap s.1 j) ∧
          (capilScan profile cap n i s).1.ix = s.1.ix ∧
          ((s.1.iesc ≠ 0 ∨ 0 < n) → (capilScan profile cap n i s).1.iesc ≠ 0)) ∨
        (∃ k, i ≤ k ∧ k < i + n ∧ capilHits profile cap s.1 k ∧
          (∀ j, i ≤ j → j < k → ¬ capilHits profile cap s.1 j) ∧
          (capilScan profile cap n i s).1.ix = k - 1 ∧
          (capilScan profile cap n i s).1.iesc = 0)) ∧
    (∀ (profile : cap_profile) (cap : inp_file) (cs : calcstruct),
      capilScanned profile cap cs
        = capilScan profile cap (profile.nmax + 1 - (capilIx0 cs + 1)).toNat (capilIx0 cs + 1)
            ({ cs with iesc := 0, ix := capilIx0 cs },
              { rh1 := ⟨0, 0, 0⟩, rn := ⟨0, 0, 0⟩, calf := 0 })) ∧
    (∀ (absmu : mumc) (profile : cap_profile) (cap : inp_file)
      (s : leakstruct × calcstruct),
      (capil absmu profile cap s).2.ix = (capilScanned profile cap s.2).1.ix) ∧
    (∀ (profile : cap_profile) (cap : inp_file),
      ∀ (n : ℕ) (i : Int) (s : calcstruct × CapilLocals),
        (capilScan profile cap n i s).1.iesc = 0 →
          capilScan profile cap n i s = s ∨
          ∃ (k : Int) (loc : CapilLocals),
            (capilScan profile cap n i s).1.ix = k - 1 ∧
            (segment (profile.arr (k - 1)).profil (profile.arr k).profil
              (capilSegArgs profile cap s.1 loc k)).1 = 0 ∧
            (capilScan profile cap n i s).2.calf
              = (segment (profile.arr (k - 1)).profil (profile.arr k).profil
                  (capilSegArgs profile cap s.1 loc k)).2.calf) := by
  have capilScan_v (profile : cap_profile) (cap : inp_file) :
      ∀ (n : ℕ) (i : Int) (s : calcstruct × CapilLocals),
        (capilScan profile cap n i s).1.v = s.1.v := by
    have segment_frame := segment_lemmas.2.2.2.1
    intro n
    induction n with
    | zero => intro i s; rfl
    | succ n ih =>
      intro i s
      unfold capilScan
      simp only
      split_ifs with h
      · exact (segment_frame _ _ _).1
      · rw [ih]
        exact (segment_frame _ _ _).1
  have capilScan_calf (profile : cap_profile) (cap : inp_file) :
      ∀ (n : ℕ) (i : Int) (s : calcstruct × CapilLocals),
        (capilScan profile cap n i s).1.iesc = 0 →
          capilScan profile cap n i s = s ∨
          (capilScan profile cap n i s).2.calf
            = scalar (capilScan profile cap n i s).2.rn (capilScan profile cap n i s).1.v := by
    have segment_mem_of_zero := segment_lemmas.2.2.1
    intro n
    induction n with
    | zero => intro i s _; exact Or.inl rfl
    | succ n ih =>
      intro i s
      unfold capilScan
      simp only
      split_ifs with h
      · intro _
        right
        simp only
        rw [segment_mem_of_zero _ _ _ h]
        simp [segHit, segCalf, capilSegArgs]
      · intro h0
        right
        rcases ih _ _ h0 with heq | hc
        · rw [heq] at h0
          exact absurd h0 h
        · exact hc
  have capilScanned_v (profile : cap_profile) (cap : inp_file) (cs : calcstruct) :
      (capilScanned profile cap cs).1.v = cs.v := by
    unfold capilScanned
    simp only
    rw [capilScan_v]
    split_ifs <;> rfl
  have capilScanned_calf (profile : cap_profile) (cap : inp_file) (cs : calcstruct)
      (hhit : (capilScanned profile cap cs).1.iesc = 0)
      (hn : scalar (capilScanned profile cap cs).2.rn (capilScanned profile cap cs).2.rn ≠ 0) :
      (capilScanned profile cap cs).2.calf = scalar (capilScanned profile cap cs).2.rn cs.v := by
    rw [← capilScanned_v profile cap cs]
    unfold capilScanned at hhit hn ⊢
    simp only at hhit hn ⊢
    rcases capilScan_calf profile cap _ _ _ hhit with heq | hc
    · exfalso
      rw [heq] at hn
      simp [scalar] at hn
    · exact hc
  have capilBounce_iesc (absmu : mumc) (profile : cap_profile) (cap : inp_file)
      (leaks : leakstruct) (cs : calcstruct) (loc : CapilLocals) :
      (capilBounce absmu profile cap leaks cs loc).2.iesc
        = (reflect (capilAlf loc.calf) cap absmu profile (leaks, cs)).1 := by
    unfold capilBounce
    simp only
    split_ifs <;> rfl
  have capilBounce_v (absmu : mumc) (profile : cap_profile) (cap : inp_file)
      (leaks : leakstruct) (cs : calcstruct) (loc : CapilLocals)
      (h : (reflect (capilAlf loc.calf) cap absmu profile (leaks, cs)).1 ≠ -2) :
      (capilBounce absmu profile cap leaks cs loc).2.v
        = capilReflectDir cs.v loc.rn (capilAlf loc.calf) := by
    have reflect_frame := reflect_lemmas.2.1
    unfold capilBounce
    simp only
    rw [if_pos h]
    simp only
    rw [reflect_frame]
  -- The return code of `capil` is -2 exactly when a segment was hit, the cosine passed the range
  -- test and `reflect` returned -2.
  have capil_absorbed_iff (absmu : mumc) (profile : cap_profile) (cap : inp_file)
      (s : leakstruct × calcstruct) :
      (capil absmu profile cap s).2.iesc = -2 ↔
        ((capilScanned profile cap s.2).1.iesc = 0 ∧
          ¬ |(capilScanned profile cap s.2).2.calf| > 1.0 ∧
          (reflect (capilAlf (capilScanned profile cap s.2).2.calf) cap absmu profile
            (s.1, capilMoved cap (capilScanned profile cap s.2).1
              (capilScanned profile cap s.2).2)).1 = -2) := by
    unfold capil
    simp only
    split_ifs with h1 h2
    · constructor
      · intro h; norm_num at h
      · intro h; exact absurd h.1 h1
    · constructor
      · intro h; norm_num at h
      · intro h; exact absurd h2 h.2.1
    · rw [capilBounce_iesc]
      constructor
      · intro h; exact ⟨not_not.mp h1, h2, h⟩
      · intro h; exact h.2.2
  have reflectDir_specular (v n : Vec3) (c : ℝ) (hc : c = scalar n v) (hc0 : -1 ≤ c)
      (hc1 : c ≤ 1) (hn : scalar n n = 1) (hv : scalar v v = 1) :
      capilReflectDir v n (capilAlf c)
        = ⟨v.x - 2 * scalar v n * n.x, v.y - 2 * scalar v n * n.y, v.z - 2 * scalar v n * n.z⟩ := by
    have hsin : Real.sin (capilAlf c) = c := by
      unfold capilAlf
      rw [Real.sin_pi_div_two_sub, Real.cos_arccos hc0 hc1]
    have hcomm : scalar v n = c := by rw [hc]; unfold scalar; ring
    unfold capilReflectDir norm
    simp only
    rw [hsin, hcomm]
    have hlen : (0 + (v.x - 2.0 * c * n.x) * (v.x - 2.0 * c * n.x)
        + (v.y - 2.0 * c * n.y) * (v.y - 2.0 * c * n.y)
        + (v.z - 2.0 * c * n.z) * (v.z - 2.0 * c * n.z)) = 1 := by
      unfold scalar at hn hv hc
      have h2 : (2.0 : ℝ) = 2 := by norm_num
      rw [h2]
      linear_combination hv + 4 * c * hc + 4 * c ^ 2 * hn
    rw [hlen, Real.sqrt_one]
    norm_num
  have capil_v_of_bounce (absmu : mumc) (profile : cap_profile) (cap : inp_file)
      (s : leakstruct × calcstruct)
      (hhit : (capilScanned profile cap s.2).1.iesc = 0)
      (hc : ¬ |(capilScanned profile cap s.2).2.calf| > 1.0)
      (hr : (capil absmu profile cap s).2.iesc ≠ -2) :
      (capil absmu profile cap s).2.v
        = capilReflectDir s.2.v (capilScanned profile cap s.2).2.rn
            (capilAlf (capilScanned profile cap s.2).2.calf) := by
    have hr' : (reflect (capilAlf (capilScanned profile cap s.2).2.calf) cap absmu profile
        (s.1, capilMoved cap (capilScanned profile cap s.2).1
          (capilScanned profile cap s.2).2)).1 ≠ -2 := by
      intro h
      exact hr ((capil_absorbed_iff absmu profile cap s).2 ⟨hhit, hc, h⟩)
    unfold capil
    simp only
    rw [if_neg (not_not.mpr hhit), if_neg hc, capilBounce_v _ _ _ _ _ _ hr']
    have : (capilMoved cap (capilScanned profile cap s.2).1 (capilScanned profile cap s.2).2).v
        = s.2.v := by
      rw [← capilScanned_v profile cap s.2]
      rfl
    rw [this]
  have capil_miss (absmu : mumc) (profile : cap_profile) (cap : inp_file)
      (s : leakstruct × calcstruct) (h : (capilScanned profile cap s.2).1.iesc ≠ 0) :
      capil absmu profile cap s = (s.1, { (capilScanned profile cap s.2).1 with iesc := 1 }) := by
    unfold capil
    simp only
    rw [if_pos h]
  have capil_miss_iff (absmu : mumc) (profile : cap_profile) (cap : inp_file)
      (s : leakstruct × calcstruct) :
      (capil absmu profile cap s).2.iesc = 1 ↔ (capilScanned profile cap s.2).1.iesc ≠ 0 := by
    have reflect_code := reflect_lemmas.2.2
    constructor
    · intro h hhit
      unfold capil at h
      simp only at h
      rw [if_neg (not_not.mpr hhit)] at h
      split_ifs at h with hc
      · norm_num at h
      · rw [capilBounce_iesc] at h
        rcases (reflect_code _ cap absmu profile _).2 with h' | h' <;> rw [h'] at h <;>
          norm_num at h
    · intro h
      rw [capil_miss absmu profile cap s h]
  have capilHits_loc (profile : cap_profile) (cap : inp_file) (cs : calcstruct)
      (loc : CapilLocals) (i : Int) :
      (segment (profile.arr (i - 1)).profil (profile.arr i).profil
        (capilSegArgs profile cap cs loc i)).1 = 0 ↔ capilHits profile cap cs i := by
    have segment_code_loc := segment_lemmas.2.2.2.2.2.2.2.2.2.2.2.2.2.2
    unfold capilHits
    have h := segment_code_loc (profile.arr (i - 1)).profil (profile.arr i).profil
      (capilSegArgs profile cap cs { rh1 := ⟨0, 0, 0⟩, rn := ⟨0, 0, 0⟩, calf := 0 } i)
      loc.rn loc.calf
    have hm : capilSegArgs profile cap cs loc i
        = { capilSegArgs profile cap cs { rh1 := ⟨0, 0, 0⟩, rn := ⟨0, 0, 0⟩, calf := 0 } i with
            rn := loc.rn, calf := loc.calf } := rfl
    rw [hm, h]
  have capilHits_congr (profile : cap_profile) (cap : inp_file) (cs cs' : calcstruct)
      (i : Int) (hsx : cs'.sx = cs.sx) (hsy : cs'.sy = cs.sy) (hrh : cs'.rh = cs.rh)
      (hv : cs'.v = cs.v) :
      capilHits profile cap cs' i ↔ capilHits profile cap cs i := by
    unfold capilHits capilSegArgs
    rw [hsx, hsy, hrh, hv]
  have capilScan_ix (profile : cap_profile) (cap : inp_file) :
      ∀ (n : ℕ) (i : Int) (s : calcstruct × CapilLocals),
        ((∀ j, i ≤ j → j < i + n → ¬ capilHits profile cap s.1 j) ∧
          (capilScan profile cap n i s).1.ix = s.1.ix ∧
          ((s.1.iesc ≠ 0 ∨ 0 < n) → (capilScan profile cap n i s).1.iesc ≠ 0)) ∨
        (∃ k, i ≤ k ∧ k < i + n ∧ capilHits profile cap s.1 k ∧
          (∀ j, i ≤ j → j < k → ¬ capilHits profile cap s.1 j) ∧
          (capilScan profile cap n i s).1.ix = k - 1 ∧
          (capilScan profile cap n i s).1.iesc = 0) := by
    have segment_frame := segment_lemmas.2.2.2.1
    intro n
    induction n with
    | zero =>
      intro i s
      left
      refine ⟨fun j h1 h2 => ?_, rfl, fun h => ?_⟩
      · exfalso
        push_cast at h2
        omega
      · rcases h with h | h
        · exact h
        · exact absurd h (lt_irrefl 0)
    | succ n ih =>
      intro i s
      by_cases hit : (segment (profile.arr (i - 1)).profil (profile.arr i).profil
          (capilSegArgs profile cap s.1 s.2 i)).1 = 0
      · right
        refine ⟨i, le_refl i, by push_cast; omega, (capilHits_loc profile cap s.1 s.2 i).1 hit,
          fun j h1 h2 => by omega, ?_, ?_⟩
        · unfold capilScan
          simp only
          rw [if_pos hit]
        · unfold capilScan
          simp only
          rw [if_pos hit]
          exact hit
      · have hstep : capilScan profile cap (n + 1) i s
            = capilScan profile cap n (i + 1)
                ({ s.1 with
                    v := (segment (profile.arr (i - 1)).profil (profile.arr i).profil
                      (capilSegArgs profile cap s.1 s.2 i)).2.v,
                    iesc := (segment (profile.arr (i - 1)).profil (profile.arr i).profil
                      (capilSegArgs profile cap s.1 s.2 i)).1 },
                  { rh1 := (segment (profile.arr (i - 1)).profil (profile.arr i).profil
                      (capilSegArgs profile cap s.1 s.2 i)).2.rh1,
                    rn := (segment (profile.arr (i - 1)).profil (profile.arr i).profil
                      (capilSegArgs profile cap s.1 s.2 i)).2.rn,
                    calf := (segment (profile.arr (i - 1)).profil (profile.arr i).profil
                      (capilSegArgs profile cap s.1 s.2 i)).2.calf }) := by
          conv_lhs => unfold capilScan
          simp only
          rw [if_neg hit]
        have hcongr : ∀ j, capilHits profile cap
            ({ s.1 with
                v := (segment (profile.arr (i - 1)).profil (profile.arr i).profil
                  (capilSegArgs profile cap s.1 s.2 i)).2.v,
                iesc := (segment (profile.arr (i - 1)).profil (profile.arr i).profil
                  (capilSegArgs profile cap s.1 s.2 i)).1 } : calcstruct) j
            ↔ capilHits profile cap s.1 j := fun j =>
          capilHits_congr profile cap s.1 _ j rfl rfl rfl (segment_frame _ _ _).1
        have hno : ¬ capilHits profile cap s.1 i := fun h =>
          hit ((capilHits_loc profile cap s.1 s.2 i).2 h)
        rw [hstep]
        rcases ih (i + 1) _ with ⟨h1, h2, h3⟩ | ⟨k, h1, h2, h3, h4, h5, h6⟩
        · left
          refine ⟨fun j hj1 hj2 => ?_, h2, fun _ => h3 (Or.inl hit)⟩
          by_cases hj : j = i
          · rw [hj]; exact hno
          · exact fun h => h1 j (by omega) (by push_cast at hj2; omega) ((hcongr j).2 h)
        · right
          refine ⟨k, by omega, by push_cast; omega, (hcongr k).1 h3, fun j hj1 hj2 => ?_, h5, h6⟩
          by_cases hj : j = i
          · rw [hj]; exact hno
          · exact fun h => h4 j (by omega) hj2 ((hcongr j).2 h)
  have capilScanned_eq (profile : cap_profile) (cap : inp_file) (cs : calcstruct) :
      capilScanned profile cap cs
        = capilScan profile cap (profile.nmax + 1 - (capilIx0 cs + 1)).toNat (capilIx0 cs + 1)
            ({ cs with iesc := 0, ix := capilIx0 cs },
              { rh1 := ⟨0, 0, 0⟩, rn := ⟨0, 0, 0⟩, calf := 0 }) := by
    unfold capilScanned capilIx0
    simp only
    split_ifs <;> rfl
  have capilBounce_ix (absmu : mumc) (profile : cap_profile) (cap : inp_file)
      (leaks : leakstruct) (cs : calcstruct) (loc : CapilLocals) :
      (capilBounce absmu profile cap leaks cs loc).2.ix = cs.ix := by
    have reflect_frame := reflect_lemmas.2.1
    unfold capilBounce
    simp only
    split_ifs
    · show (reflect (capilAlf loc.calf) cap absmu profile (leaks, cs)).2.2.ix = cs.ix
      rw [reflect_frame]
    · show (reflect (capilAlf loc.calf) cap absmu profile (leaks, cs)).2.2.ix = cs.ix
      rw [reflect_frame]
  have capil_ix (absmu : mumc) (profile : cap_profile) (cap : inp_file)
      (s : leakstruct × calcstruct) :
      (capil absmu profile cap s).2.ix = (capilScanned profile cap s.2).1.ix := by
    unfold capil
    simp only
    split_ifs
    · rfl
    · rfl
    · rw [capilBounce_ix]
      rfl
  have capilScan_hit (profile : cap_profile) (cap : inp_file) :
      ∀ (n : ℕ) (i : Int) (s : calcstruct × CapilLocals),
        (capilScan profile cap n i s).1.iesc = 0 →
          capilScan profile cap n i s = s ∨
          ∃ (k : Int) (loc : CapilLocals),
            (capilScan profile cap n i s).1.ix = k - 1 ∧
            (segment (profile.arr (k - 1)).profil (profile.arr k).profil
              (capilSegArgs profile cap s.1 loc k)).1 = 0 ∧
            (capilScan profile cap n i s).2.calf
              = (segment (profile.arr (k - 1)).profil (profile.arr k).profil
                  (capilSegArgs profile cap s.1 loc k)).2.calf := by
    have segment_frame := segment_lemmas.2.2.2.1
    intro n
    induction n with
    | zero => intro i s _; exact Or.inl rfl
    | succ n ih =>
      intro i s
      by_cases hit : (segment (profile.arr (i - 1)).profil (profile.arr i).profil
          (capilSegArgs profile cap s.1 s.2 i)).1 = 0
      · intro _
        right
        refine ⟨i, s.2, ?_, hit, ?_⟩
        · unfold capilScan
          simp only
          rw [if_pos hit]
        · unfold capilScan
          simp only
          rw [if_pos hit]
      · have hstep : capilScan profile cap (n + 1) i s
            = capilScan profile cap n (i + 1)
                ({ s.1 with
                    v := (segment (profile.arr (i - 1)).profil (profile.arr i).profil
                      (capilSegArgs profile cap s.1 s.2 i)).2.v,
                    iesc := (segment (profile.arr (i - 1)).profil (profile.arr i).profil
                      (capilSegArgs profile cap s.1 s.2 i)).1 },
                  { rh1 := (segment (profile.arr (i - 1)).profil (profile.arr i).profil
                      (capilSegArgs profile cap s.1 s.2 i)).2.rh1,
                    rn := (segment (profile.arr (i - 1)).profil (profile.arr i).profil
                      (capilSegArgs profile cap s.1 s.2 i)).2.rn,
                    calf := (segment (profile.arr (i - 1)).profil (profile.arr i).profil
                      (capilSegArgs profile cap s.1 s.2 i)).2.calf }) := by
          conv_lhs => unfold capilScan
          simp only
          rw [if_neg hit]
        have hargs : ∀ (loc : CapilLocals) (k : Int), capilSegArgs profile cap
            ({ s.1 with
                v := (segment (profile.arr (i - 1)).profil (profile.arr i).profil
                  (capilSegArgs profile cap s.1 s.2 i)).2.v,
                iesc := (segment (profile.arr (i - 1)).profil (profile.arr i).profil
                  (capilSegArgs profile cap s.1 s.2 i)).1 } : calcstruct) loc k
            = capilSegArgs profile cap s.1 loc k := by
          intro loc k
          have hv : (segment (profile.arr (i - 1)).profil (profile.arr i).profil
              (capilSegArgs profile cap s.1 s.2 i)).2.v = s.1.v := (segment_frame _ _ _).1
          unfold capilSegArgs at hv ⊢
          simp only [hv]
        rw [hstep]
        intro h0
        right
        rcases ih (i + 1) _ h0 with heq | ⟨k, loc, h1, h2, h3⟩
        · rw [heq] at h0
          exact absurd h0 hit
        · rw [hargs] at h2 h3
          exact ⟨k, loc, h1, h2, h3⟩
  exact ⟨capilScanned_calf, capilBounce_iesc, capil_absorbed_iff, reflectDir_specular,
    capil_v_of_bounce, capil_miss, capil_miss_iff, capilHits_congr, capilScan_ix, capilScanned_eq,
    capil_ix, capilScan_hit⟩

theorem forLoop_outside {α : Type} (val : Int → (Int → α) → α) :
    ∀ (n : ℕ) (lo : Int) (a : Int → α) (j : Int), ¬ (lo ≤ j ∧ j < lo + n) →
      forLoop (fun i (a : Int → α) => Function.update a i (val i a)) n lo a j = a j := by
  intro n
  induction n with
  | zero => intro lo a j _; rfl
  | succ n ih =>
    intro lo a j hj
    show forLoop _ n (lo + 1) (Function.update a lo (val lo a)) j = a j
    rw [ih (lo + 1) _ j (by push_cast at hj; omega)]
    exact Function.update_noteq (by push_cast at hj; omega) _ _

theorem forLoop_update {α : Type} (g : Int → α → α) :
    ∀ (n : ℕ) (lo : Int) (a : Int → α) (j : Int),
      forLoop (fun i (a : Int → α) => Function.update a i (g i (a i))) n lo a j
        = if lo ≤ j ∧ j < lo + n then g j (a j) else a j := by
  intro n
  induction n with
  | zero =>
    intro lo a j
    have : ¬ (lo ≤ j ∧ j < lo + ((0 : ℕ) : Int)) := by push_cast; omega
    rw [if_neg this]; rfl
  | succ n ih =>
    intro lo a j
    show forLoop _ n (lo + 1) (Function.update a lo (g lo (a lo))) j = _
    rw [ih (lo + 1) _ j]
    by_cases hj : j = lo
    · subst hj
      have hn : ¬ (j + 1 ≤ j ∧ j < j + 1 + (n : Int)) := by omega
      have hp : j ≤ j ∧ j < j + ((n + 1 : ℕ) : Int) := by push_cast; omega
      rw [if_neg hn, if_pos hp, Function.update_same]
    · rw [Function.update_noteq hj]
      by_cases hr : lo + 1 ≤ j ∧ j < lo + 1 + (n : Int)
      · have hp : lo ≤ j ∧ j < lo + ((n + 1 : ℕ) : Int) := by push_cast; omega
        rw [if_pos hr, if_pos hp]
      · have hp : ¬ (lo ≤ j ∧ j < lo + ((n + 1 : ℕ) : Int)) := by push_cast; omega
        rw [if_neg hr, if_neg hp]

theorem forUpTo_range (lo hi j : Int) :
    (lo ≤ j ∧ j < lo + ((hi + 1 - lo).toNat : Int)) ↔ (lo ≤ j ∧ j ≤ hi) := by
  constructor
  · rintro ⟨h1, h2⟩
    refine ⟨h1, ?_⟩
    by_cases h : 0 ≤ hi + 1 - lo
    · rw [Int.toNat_of_nonneg h] at h2; omega
    · rw [Int.toNat_eq_zero.mpr (by omega)] at h2
      simp at h2
      omega
  · rintro ⟨h1, h2⟩
    refine ⟨h1, ?_⟩
    rw [Int.toNat_of_nonneg (by omega)]; omega

set_option maxHeartbeats 400000 in
/-- Auxiliary facts about `count`: the loop over the energy bins and the two
branches of the housing test. -/
theorem count_lemmas :
    (∀ (absmu : mumc) (cap : inp_file) (icount : Int) (profile : cap_profile)
      (sys : Sys) (_ : ¬ countOutside cap profile sys.cs),
      (count absmu cap icount profile sys).cs.cnt
          = (fun j => if 0 ≤ j ∧ j ≤ absmu.n_energy then sys.cs.cnt j + sys.cs.w j
              else sys.cs.cnt j) ∧
        (count absmu cap icount profile sys).cs.iesc = sys.cs.iesc ∧
        (count absmu cap icount profile sys).leaks.spot
          = countSpot cap profile sys.cs sys.leaks.spot ∧
        (count absmu cap icount profile sys).leaks.lspot = sys.leaks.lspot ∧
        (count absmu cap icount profile sys).leaks.leak = sys.leaks.leak) ∧
    (∀ (absmu : mumc) (cap : inp_file) (icount : Int) (profile : cap_profile)
      (sys : Sys) (_ : ¬ countOutside cap profile sys.cs) (i : Int) (_ : 0 ≤ i)
      (_ : i ≤ absmu.n_energy),
      (count absmu cap icount profile sys).cs.cnt i = sys.cs.cnt i + sys.cs.w i) ∧
    (∀ (absmu : mumc) (cap : inp_file) (icount : Int) (profile : cap_profile)
      (sys : Sys) (_ : countOutside cap profile sys.cs),
      count absmu cap icount profile sys = { sys with cs := { sys.cs with iesc := -3 } }) := by
  have countCnt_loop (n : ℕ) :
      ∀ (lo : Int) (c : calcstruct),
        forLoop (fun i (c : calcstruct) =>
            { c with cnt := Function.update c.cnt i (c.cnt i + c.w i) }) n lo c
          = { c with cnt := fun j => if lo ≤ j ∧ j < lo + n then c.cnt j + c.w j else c.cnt j } := by
    induction n with
    | zero =>
      intro lo c
      have : (fun j => if lo ≤ j ∧ j < lo + ((0 : ℕ) : Int) then c.cnt j + c.w j else c.cnt j)
          = c.cnt := by
        funext j
        have : ¬ (lo ≤ j ∧ j < lo + ((0 : ℕ) : Int)) := by push_cast; omega
        rw [if_neg this]
      rw [this]
      rfl
    | succ n ih =>
      intro lo c
      show forLoop _ n (lo + 1)
        { c with cnt := Function.update c.cnt lo (c.cnt lo + c.w lo) } = _
      rw [ih]
      congr 1
      funext j
      simp only
      by_cases hj : j = lo
      · subst hj
        have hn : ¬ (j + 1 ≤ j ∧ j < j + 1 + (n : Int)) := by omega
        have hp : j ≤ j ∧ j < j + ((n + 1 : ℕ) : Int) := by push_cast; omega
        rw [if_neg hn, if_pos hp, Function.update_same]
      · rw [Function.update_noteq hj]
        by_cases hr : lo + 1 ≤ j ∧ j < lo + 1 + (n : Int)
        · have hp : lo ≤ j ∧ j < lo + ((n + 1 : ℕ) : Int) := by push_cast; omega
          rw [if_pos hr, if_pos hp]
        · have hp : ¬ (lo ≤ j ∧ j < lo + ((n + 1 : ℕ) : Int)) := by push_cast; omega
          rw [if_neg hr, if_neg hp]
  have countCnt_eq (absmu : mumc) (cs : calcstruct) :
      countCnt absmu cs
        = { cs with cnt := fun j =>
              if 0 ≤ j ∧ j ≤ absmu.n_energy then cs.cnt j + cs.w j else cs.cnt j } := by
    unfold countCnt forUpTo
    rw [countCnt_loop]
    congr 1
    funext j
    by_cases h : 0 ≤ j ∧ j ≤ absmu.n_energy
    · rw [if_pos h, if_pos ((forUpTo_range 0 absmu.n_energy j).2 h)]
    · rw [if_neg h, if_neg (fun h' => h ((forUpTo_range 0 absmu.n_energy j).1 h'))]
  have count_inside (absmu : mumc) (cap : inp_file) (icount : Int) (profile : cap_profile)
      (sys : Sys) (hin : ¬ countOutside cap profile sys.cs) :
      (count absmu cap icount profile sys).cs.cnt
          = (fun j => if 0 ≤ j ∧ j ≤ absmu.n_energy then sys.cs.cnt j + sys.cs.w j
              else sys.cs.cnt j) ∧
        (count absmu cap icount profile sys).cs.iesc = sys.cs.iesc ∧
        (count absmu cap icount profile sys).leaks.spot
          = countSpot cap profile sys.cs sys.leaks.spot ∧
        (count absmu cap icount profile sys).leaks.lspot = sys.leaks.lspot ∧
        (count absmu cap icount profile sys).leaks.leak = sys.leaks.leak := by
    have hgeo : ∀ c : calcstruct, c.rh = sys.cs.rh → c.v = sys.cs.v → c.w = sys.cs.w →
        countSpot cap profile c sys.leaks.spot = countSpot cap profile sys.cs sys.leaks.spot := by
      intro c h1 h2 h3
      unfold countSpot countIndX countIndY countXp countYp countC
      rw [h1, h2, h3]
    unfold count
    rw [if_neg hin]
    simp only
    rw [countCnt_eq]
    refine ⟨?_, ?_, ?_, ?_, ?_⟩
    · rfl
    · rfl
    · exact hgeo _ rfl rfl rfl
    · trivial
    · trivial
  have count_inside_cnt (absmu : mumc) (cap : inp_file) (icount : Int) (profile : cap_profile)
      (sys : Sys) (hin : ¬ countOutside cap profile sys.cs) (i : Int) (h0 : 0 ≤ i)
      (h1 : i ≤ absmu.n_energy) :
      (count absmu cap icount profile sys).cs.cnt i = sys.cs.cnt i + sys.cs.w i := by
    rw [(count_inside absmu cap icount profile sys hin).1]
    simp only
    rw [if_pos ⟨h0, h1⟩]
  have count_outside (absmu : mumc) (cap : inp_file) (icount : Int) (profile : cap_profile)
      (sys : Sys) (hout : countOutside cap profile sys.cs) :
      count absmu cap icount profile sys = { sys with cs := { sys.cs with iesc := -3 } } := by
    unfold count
    rw [if_pos hout]
  exact ⟨count_inside, count_inside_cnt, count_outside⟩

set_option maxHeartbeats 600000 in
/-- Auxiliary facts about the driver loop, `ini_polycap`, `def_cap_profile`,
`reset_leak` and the depth `desc` of `reflect`. -/
theorem setup_lemmas :
    (∀ (start : Int → Sys → Option Sys) (count : Int → Sys → Sys)
      (absmu : mumc) (profile : cap_profile) (cap : inp_file) (last k sum : Int) (sys : Sys),
      driverStep start count absmu profile cap last ⟨Pc.atSum, k, sum, sys⟩
        = some ⟨if k + 1 ≤ last then Pc.atStart else Pc.atFinished, k + 1, sum + sys.cs.i_refl,
            sys⟩) ∧
    (∀ (cap : inp_file) (profile : cap_profile),
      ini_polycap cap profile = none ↔ cap.n_chan ≤ 1) ∧
    (∀ (cap : inp_file) (profile : cap_profile)
      (_ : 7 ≤ cap.n_chan),
      ∃ g : struct_ini_polycap, ini_polycap cap profile = some g ∧
        g.n_chan_max = Real.sqrt (12 * cap.n_chan - 3) / 6 - 0.5 ∧ 1 ≤ g.n_chan_max) ∧
    (∀ (nmax : Int) (length : ℝ) (rad_int : Vec2) (d_arr : Int → ℝ → ℝ)
      (arr : Int → cap_prof_arrays) (j : Int) (_ : ¬ (0 ≤ j ∧ j ≤ nmax - 1)),
      profFill nmax length rad_int d_arr arr j = arr j) ∧
    (∀ (nmax : Int) (length : ℝ) (rad_int : Vec2) (d_arr : Int → ℝ → ℝ)
      (arr : Int → cap_prof_arrays) (j : Int) (_ : 0 ≤ j ∧ j ≤ nmax - 1),
      (profFill nmax length rad_int d_arr arr j).zarr = length / nmax * j) ∧
    (∀ (junk : leakstruct) (profile : cap_profile) (absmu : mumc) (j : Int)
      (_ : ¬ (0 ≤ j ∧ j ≤ profile.nmax)),
      (reset_leak junk profile absmu).1.leak j = junk.leak j) ∧
    (∀ (junk : leakstruct) (profile : cap_profile) (absmu : mumc) (j : Int)
      (_ : 0 ≤ j ∧ j ≤ profile.nmax),
      (reset_leak junk profile absmu).1.leak j = 0) ∧
    (∀ (alf : ℝ) (cap : inp_file) (absmu : mumc) (i : Int) (_ : 0 ≤ alf),
      (reflRtot alf cap absmu i).re ≤ 1) ∧
    (∀ (cap : inp_file) (profile : cap_profile) (cs : calcstruct)
      (_ : 0 ≤ profile.cl), 0 ≤ reflDesc cap profile cs) := by
  have driverStep_atSum (start : Int → Sys → Option Sys) (count : Int → Sys → Sys)
      (absmu : mumc) (profile : cap_profile) (cap : inp_file) (last k sum : Int) (sys : Sys) :
      driverStep start count absmu profile cap last ⟨Pc.atSum, k, sum, sys⟩
        = some ⟨if k + 1 ≤ last then Pc.atStart else Pc.atFinished, k + 1, sum + sys.cs.i_refl,
            sys⟩ := by
    unfold driverStep
    simp only
    split_ifs <;> rfl
  have ini_polycap_none_iff (cap : inp_file) (profile : cap_profile) :
      ini_polycap cap profile = none ↔ cap.n_chan ≤ 1 := by
    unfold ini_polycap
    simp only
    have h3 : (0 : ℝ) ≤ 3 := by norm_num
    have key : Real.sqrt (12 * cap.n_chan - 3) / 6 - 0.5 ≤ 0 ↔ cap.n_chan ≤ 1 := by
      have h : Real.sqrt (12 * cap.n_chan - 3) ≤ 3 ↔ 12 * cap.n_chan - 3 ≤ 3 ^ 2 :=
        Real.sqrt_le_left h3
      constructor
      · intro hle
        have : Real.sqrt (12 * cap.n_chan - 3) ≤ 3 := by norm_num at hle; linarith
        have := h.1 this
        linarith
      · intro hle
        have : Real.sqrt (12 * cap.n_chan - 3) ≤ 3 := h.2 (by linarith)
        norm_num
        linarith
    split_ifs with hc
    · exact ⟨fun _ => key.1 hc, fun _ => rfl⟩
    · exact ⟨fun h => by simp at h, fun h => absurd (key.2 h) hc⟩
  -- A declared channel count of at least 7 is accepted, with a shell count of at least 1.
  have ini_polycap_accepts_seven (cap : inp_file) (profile : cap_profile)
      (h : 7 ≤ cap.n_chan) :
      ∃ g : struct_ini_polycap, ini_polycap cap profile = some g ∧
        g.n_chan_max = Real.sqrt (12 * cap.n_chan - 3) / 6 - 0.5 ∧ 1 ≤ g.n_chan_max := by
    have hpos : 1 ≤ Real.sqrt (12 * cap.n_chan - 3) / 6 - 0.5 := by
      have : (9 : ℝ) ≤ Real.sqrt (12 * cap.n_chan - 3) := by
        rw [Real.le_sqrt' (by norm_num)]; norm_num; linarith
      norm_num
      linarith
    unfold ini_polycap
    simp only
    rw [if_neg (by linarith)]
    exact ⟨_, rfl, rfl, hpos⟩
  have profFill_outside (nmax : Int) (length : ℝ) (rad_int : Vec2) (d_arr : Int → ℝ → ℝ)
      (arr : Int → cap_prof_arrays) (j : Int) (hj : ¬ (0 ≤ j ∧ j ≤ nmax - 1)) :
      profFill nmax length rad_int d_arr arr j = arr j := by
    unfold profFill forUpTo
    exact forLoop_outside
      (fun i (a : Int → cap_prof_arrays) =>
        { profRow nmax length rad_int i (a i) with
          d_arr := d_arr i (profRow nmax length rad_int i (a i)).zarr }) _ 0 arr j
      (fun h => hj ((forUpTo_range 0 (nmax - 1) j).1 h))
  have profFill_zarr (nmax : Int) (length : ℝ) (rad_int : Vec2) (d_arr : Int → ℝ → ℝ)
      (arr : Int → cap_prof_arrays) (j : Int) (hj : 0 ≤ j ∧ j ≤ nmax - 1) :
      (profFill nmax length rad_int d_arr arr j).zarr = length / nmax * j := by
    unfold profFill forUpTo
    have h := forLoop_update
      (fun i (row : cap_prof_arrays) =>
        { profRow nmax length rad_int i row with
          d_arr := d_arr i (profRow nmax length rad_int i row).zarr })
      (nmax - 1 + 1 - 0).toNat 0 arr j
    rw [if_pos ((forUpTo_range 0 (nmax - 1) j).2 hj)] at h
    exact (congrArg cap_prof_arrays.zarr h).trans rfl
  have reset_leak_outside (junk : leakstruct) (profile : cap_profile) (absmu : mumc) (j : Int)
      (hj : ¬ (0 ≤ j ∧ j ≤ profile.nmax)) :
      (reset_leak junk profile absmu).1.leak j = junk.leak j := by
    unfold reset_leak forUpTo
    exact forLoop_outside (fun _ (_ : Int → ℝ) => (0.0 : ℝ)) _ 0 junk.leak j
      (fun h => hj ((forUpTo_range 0 profile.nmax j).1 h))
  have reset_leak_inside (junk : leakstruct) (profile : cap_profile) (absmu : mumc) (j : Int)
      (hj : 0 ≤ j ∧ j ≤ profile.nmax) :
      (reset_leak junk profile absmu).1.leak j = 0 := by
    unfold reset_leak forUpTo
    have h := forLoop_update (fun _ (_ : ℝ) => (0.0 : ℝ)) (profile.nmax + 1 - 0).toNat 0
      junk.leak j
    rw [if_pos ((forUpTo_range 0 profile.nmax j).2 hj)] at h
    refine h.trans ?_
    norm_num
  have reflRtot_le_one (alf : ℝ) (cap : inp_file) (absmu : mumc) (i : Int) (h : 0 ≤ alf) :
      (reflRtot alf cap absmu i).re ≤ 1 := by
    have reflRtot_spec := fresnel_lemmas.1
    have reflRtot_antitone := fresnel_lemmas.2.2.2.2.2.1
    refine (reflRtot_antitone cap absmu i 0 alf le_rfl h).trans ?_
    rw [reflRtot_spec]
    unfold fresnelSpec
    have hq : Complex.abs ((((0 : ℝ) : ℂ)
        - csqrt ((((0 : ℝ) : ℂ)) ^ 2 - 2 * (reflAlfa cap absmu i - Complex.I * reflBeta cap absmu i)))
        / ((((0 : ℝ) : ℂ))
          + csqrt ((((0 : ℝ) : ℂ)) ^ 2
            - 2 * (reflAlfa cap absmu i - Complex.I * reflBeta cap absmu i)))) ≤ 1 := by
      rw [map_div₀, Complex.ofReal_zero, zero_sub, zero_add, map_neg_eq_map]
      exact div_self_le_one _
    have h0 := Complex.abs.nonneg ((((0 : ℝ) : ℂ)
        - csqrt ((((0 : ℝ) : ℂ)) ^ 2 - 2 * (reflAlfa cap absmu i - Complex.I * reflBeta cap absmu i)))
        / ((((0 : ℝ) : ℂ))
          + csqrt ((((0 : ℝ) : ℂ)) ^ 2
            - 2 * (reflAlfa cap absmu i - Complex.I * reflBeta cap absmu i))))
    exact pow_le_one₀ h0 hq
  have reflDesc_nonneg (cap : inp_file) (profile : cap_profile) (cs : calcstruct)
      (hcl : 0 ≤ profile.cl) : 0 ≤ reflDesc cap profile cs := by
    unfold reflDesc
    simp only
    split_ifs with h
    · exact hcl
    · exact not_lt.mp h
  exact ⟨driverStep_atSum, ini_polycap_none_iff, ini_polycap_accepts_seven, profFill_outside,
    profFill_zarr, reset_leak_outside, reset_leak_inside, reflRtot_le_one, reflDesc_nonneg⟩

theorem forLoop_field {α β : Type} (f : α → β) (val : Int → (Int → α) → α)
    (hval : ∀ i a, f (val i a) = f (a i)) :
    ∀ (n : ℕ) (lo : Int) (a : Int → α) (j : Int),
      f (forLoop (fun i (a : Int → α) => Function.update a i (val i a)) n lo a j) = f (a j) := by
  intro n
  induction n with
  | zero => intro lo a j; rfl
  | succ n ih =>
    intro lo a j
    show f (forLoop _ n (lo + 1) (Function.update a lo (val lo a)) j) = f (a j)
    rw [ih (lo + 1) _ j]
    by_cases hj : j = lo
    · subst hj
      rw [Function.update_same, hval]
    · rw [Function.update_noteq hj]

theorem forLoop_preserves {σ β : Type} (f : σ → β) (body : Int → σ → σ)
    (h : ∀ i s, f (body i s) = f s) :
    ∀ (n : ℕ) (lo : Int) (s : σ), f (forLoop body n lo s) = f s := by
  intro n
  induction n with
  | zero => intro lo s; rfl
  | succ n ih =>
    intro lo s
    show f (forLoop body n (lo + 1) (body lo s)) = f s
    rw [ih, h]

set_option maxHeartbeats 600000 in
/-- Auxiliary facts about `start`: the loops that leave the counters alone, the
state when the generation loop ends, the entrance guarantee for an entrance
radius below `2e9`, and the draws that give each lattice index for one shell.
-/
theorem start_lemmas :
    (∀ (profile : cap_profile) (pcap_ini : struct_ini_polycap) (cap : inp_file)
      (icount : Int) (inner fuel : ℕ) (s : StartLocals × Sys)
      (_ : ¬ s.1.dx > (profile.arr 0).profil),
      startLoop profile pcap_ini cap icount inner fuel s = some s) ∧
    (∀ (absmu : mumc) (s : StartLocals × Sys),
      (startFinish absmu s).cs.rh = s.2.cs.rh ∧
      (startFinish absmu s).cs.istart = s.2.cs.istart ∧
      (startFinish absmu s).cs.ienter = s.2.cs.ienter + 1) ∧
    (∀ (fuel : ℕ) (absmu : mumc) (profile : cap_profile)
      (pcap_ini : struct_ini_polycap) (cap : inp_file) (icount : Int) (sys : Sys),
      ∃ s0 : StartLocals × Sys,
        startEntered fuel absmu profile pcap_ini cap icount sys
          = startLoop profile pcap_ini cap icount fuel fuel s0 ∧
        s0.1.dx = 2e9 ∧ s0.2.cs.rh = sys.cs.rh ∧ s0.2.cs.istart = sys.cs.istart ∧
        s0.2.cs.ienter = sys.cs.ienter ∧ s0.2.cs.rn = sys.cs.rn) ∧
    (∀ (fuel : ℕ) (absmu : mumc) (profile : cap_profile)
      (pcap_ini : struct_ini_polycap) (cap : inp_file) (icount : Int) (sys sys' : Sys)
      (_ : (profile.arr 0).profil < 2e9)
      (_ : start fuel absmu profile pcap_ini cap icount sys = some sys'),
      sys'.cs.rh.z = cap.d_source ∧
      (∃ ix_cap iy_cap : Int, startAccepted pcap_ini.n_chan_max ix_cap iy_cap ∧
        Real.sqrt
            ((sys'.cs.rh.x - (ix_cap * pcap_ini.cap_unita.x + iy_cap * pcap_ini.cap_unitb.x))
              * (sys'.cs.rh.x - (ix_cap * pcap_ini.cap_unita.x + iy_cap * pcap_ini.cap_unitb.x))
            + (sys'.cs.rh.y - (ix_cap * pcap_ini.cap_unita.y + iy_cap * pcap_ini.cap_unitb.y))
              * (sys'.cs.rh.y - (ix_cap * pcap_ini.cap_unita.y + iy_cap * pcap_ini.cap_unitb.y)))
          ≤ (profile.arr 0).profil) ∧
      sys'.cs.ienter = sys.cs.ienter + 1 ∧ sys.cs.istart + 1 ≤ sys'.cs.istart) ∧
    (startRegion 1 0 0 = Set.Ico (1 / 4 : ℝ) (3 / 4) ×ˢ Set.Ico (1 / 4 : ℝ) (3 / 4)) ∧
    (startRegion 1 1 (-1) = Set.Ico (3 / 4 : ℝ) 1 ×ˢ Set.Ico (0 : ℝ) (1 / 4)) := by
  have startLoop_skip (profile : cap_profile) (pcap_ini : struct_ini_polycap) (cap : inp_file)
      (icount : Int) (inner fuel : ℕ) (s : StartLocals × Sys)
      (h : ¬ s.1.dx > (profile.arr 0).profil) :
      startLoop profile pcap_ini cap icount inner fuel s = some s := by
    cases fuel with
    | zero => unfold startLoop; rw [if_neg h]
    | succ n => unfold startLoop; rw [if_neg h]
  have startFinish_frame (absmu : mumc) (s : StartLocals × Sys) :
      (startFinish absmu s).cs.rh = s.2.cs.rh ∧
      (startFinish absmu s).cs.istart = s.2.cs.istart ∧
      (startFinish absmu s).cs.ienter = s.2.cs.ienter + 1 := by
    unfold startFinish forUpTo
    refine ⟨?_, ?_, ?_⟩
    · refine (forLoop_preserves calcstruct.rh _ ?_ _ _ _).trans rfl
      intro i c
      rfl
    · refine (forLoop_preserves calcstruct.istart _ ?_ _ _ _).trans rfl
      intro i c
      rfl
    · refine (forLoop_preserves calcstruct.ienter _ ?_ _ _ _).trans rfl
      intro i c
      rfl
  have startEntered_init (fuel : ℕ) (absmu : mumc) (profile : cap_profile)
      (pcap_ini : struct_ini_polycap) (cap : inp_file) (icount : Int) (sys : Sys) :
      ∃ s0 : StartLocals × Sys,
        startEntered fuel absmu profile pcap_ini cap icount sys
          = startLoop profile pcap_ini cap icount fuel fuel s0 ∧
        s0.1.dx = 2e9 ∧ s0.2.cs.rh = sys.cs.rh ∧ s0.2.cs.istart = sys.cs.istart ∧
        s0.2.cs.ienter = sys.cs.ienter ∧ s0.2.cs.rn = sys.cs.rn := by
    unfold startEntered forUpTo
    refine ⟨_, rfl, rfl, ?_, ?_, ?_, ?_⟩
    · refine (forLoop_preserves calcstruct.rh _ ?_ _ _ _).trans rfl
      intro i c
      rfl
    · refine (forLoop_preserves calcstruct.istart _ ?_ _ _ _).trans rfl
      intro i c
      rfl
    · refine (forLoop_preserves calcstruct.ienter _ ?_ _ _ _).trans rfl
      intro i c
      rfl
    · refine (forLoop_preserves calcstruct.rn _ ?_ _ _ _).trans rfl
      intro i c
      rfl
  have startSelect_accepted (n_chan_max : ℝ) :
      ∀ (fuel : ℕ) (rn : ℕ → ℝ) (sel : Int × Int × (ℕ → ℝ)),
        startSelect n_chan_max fuel rn = some sel → startAccepted n_chan_max sel.1 sel.2.1 := by
    intro fuel
    induction fuel with
    | zero =>
      intro rn sel h
      simp [startSelect] at h
    | succ n ih =>
      intro rn sel h
      unfold startSelect at h
      simp only at h
      split_ifs at h with hacc
      · have hs := Option.some.inj h
        rw [← hs]
        exact hacc
      · exact ih _ sel h
  have startAttempt_entered (profile : cap_profile) (pcap_ini : struct_ini_polycap)
      (cap : inp_file) (icount ix_cap iy_cap : Int) (rn : ℕ → ℝ) (sys : Sys) :
      (startAttempt profile pcap_ini cap icount ix_cap iy_cap rn sys).2.cs.rh.z = cap.d_source ∧
      (startAttempt profile pcap_ini cap icount ix_cap iy_cap rn sys).1.ix_cap = ix_cap ∧
      (startAttempt profile pcap_ini cap icount ix_cap iy_cap rn sys).1.iy_cap = iy_cap ∧
      (startAttempt profile pcap_ini cap icount ix_cap iy_cap rn sys).1.dx
        = Real.sqrt
            (((startAttempt profile pcap_ini cap icount ix_cap iy_cap rn sys).2.cs.rh.x
                - (ix_cap * pcap_ini.cap_unita.x + iy_cap * pcap_ini.cap_unitb.x))
              * ((startAttempt profile pcap_ini cap icount ix_cap iy_cap rn sys).2.cs.rh.x
                - (ix_cap * pcap_ini.cap_unita.x + iy_cap * pcap_ini.cap_unitb.x))
            + ((startAttempt profile pcap_ini cap icount ix_cap iy_cap rn sys).2.cs.rh.y
                - (ix_cap * pcap_ini.cap_unita.y + iy_cap * pcap_ini.cap_unitb.y))
              * ((startAttempt profile pcap_ini cap icount ix_cap iy_cap rn sys).2.cs.rh.y
                - (ix_cap * pcap_ini.cap_unita.y + iy_cap * pcap_ini.cap_unitb.y))) ∧
      (startAttempt profile pcap_ini cap icount ix_cap iy_cap rn sys).2.cs.istart
        = sys.cs.istart + 1 ∧
      (startAttempt profile pcap_ini cap icount ix_cap iy_cap rn sys).2.cs.ienter
        = sys.cs.ienter := by
    refine ⟨rfl, rfl, rfl, rfl, ?_, ?_⟩
    · unfold startAttempt forUpTo
      simp only
      refine congrArg (fun t : Int => t + 1) ?_
      refine (forLoop_preserves calcstruct.istart _ ?_ _ _ _).trans rfl
      intro i c
      rfl
    · unfold startAttempt forUpTo
      simp only
      refine (forLoop_preserves calcstruct.ienter _ ?_ _ _ _).trans rfl
      intro i c
      rfl
  -- The entrance guarantee of `start` for a profile whose entrance radius is below the value
  -- `2e9` that `dx` is given before the loop: whenever `start` returns, the photon is on the
  -- entrance plane, within the entrance radius of the centre of an accepted channel `(ix_cap,
  -- iy_cap)`, `ienter` has grown by one and `istart` by at least one.
  have start_entrance (fuel : ℕ) (absmu : mumc) (profile : cap_profile)
      (pcap_ini : struct_ini_polycap) (cap : inp_file) (icount : Int) (sys sys' : Sys)
      (hp : (profile.arr 0).profil < 2e9)
      (hret : start fuel absmu profile pcap_ini cap icount sys = some sys') :
      sys'.cs.rh.z = cap.d_source ∧
      (∃ ix_cap iy_cap : Int, startAccepted pcap_ini.n_chan_max ix_cap iy_cap ∧
        Real.sqrt
            ((sys'.cs.rh.x - (ix_cap * pcap_ini.cap_unita.x + iy_cap * pcap_ini.cap_unitb.x))
              * (sys'.cs.rh.x - (ix_cap * pcap_ini.cap_unita.x + iy_cap * pcap_ini.cap_unitb.x))
            + (sys'.cs.rh.y - (ix_cap * pcap_ini.cap_unita.y + iy_cap * pcap_ini.cap_unitb.y))
              * (sys'.cs.rh.y - (ix_cap * pcap_ini.cap_unita.y + iy_cap * pcap_ini.cap_unitb.y)))
          ≤ (profile.arr 0).profil) ∧
      sys'.cs.ienter = sys.cs.ienter + 1 ∧ sys.cs.istart + 1 ≤ sys'.cs.istart := by
    have key : ∀ (inner n : ℕ) (s r : StartLocals × Sys),
        startLoop profile pcap_ini cap icount inner n s = some r →
        ¬ r.1.dx > (profile.arr 0).profil ∧
        (r = s ∨
          (r.2.cs.rh.z = cap.d_source ∧
            startAccepted pcap_ini.n_chan_max r.1.ix_cap r.1.iy_cap ∧
            r.1.dx = Real.sqrt
              ((r.2.cs.rh.x
                  - (r.1.ix_cap * pcap_ini.cap_unita.x + r.1.iy_cap * pcap_ini.cap_unitb.x))
                * (r.2.cs.rh.x
                  - (r.1.ix_cap * pcap_ini.cap_unita.x + r.1.iy_cap * pcap_ini.cap_unitb.x))
              + (r.2.cs.rh.y
                  - (r.1.ix_cap * pcap_ini.cap_unita.y + r.1.iy_cap * pcap_ini.cap_unitb.y))
                * (r.2.cs.rh.y
                  - (r.1.ix_cap * pcap_ini.cap_unita.y + r.1.iy_cap * pcap_ini.cap_unitb.y))) ∧
            s.2.cs.istart + 1 ≤ r.2.cs.istart ∧ r.2.cs.ienter = s.2.cs.ienter)) := by
      intro inner n
      induction n with
      | zero =>
        intro s r h
        unfold startLoop at h
        split_ifs at h with hd
        have hs := Option.some.inj h
        rw [← hs]
        exact ⟨hd, Or.inl rfl⟩
      | succ n ih =>
        intro s r h
        unfold startLoop at h
        split_ifs at h with hd
        · cases hsel : startSelect pcap_ini.n_chan_max inner s.2.cs.rn with
          | none => rw [hsel] at h; simp at h
          | some sel =>
            rw [hsel] at h
            simp only at h
            have hacc := startSelect_accepted pcap_ini.n_chan_max inner _ sel hsel
            obtain ⟨a1, a2, a3, a4, a5, a6⟩ :=
              startAttempt_entered profile pcap_ini cap icount sel.1 sel.2.1 sel.2.2 s.2
            obtain ⟨b1, b2⟩ := ih _ r h
            refine ⟨b1, Or.inr ?_⟩
            rcases b2 with b2 | ⟨c1, c2, c3, c4, c5⟩
            · rw [b2, a2, a3]
              exact ⟨a1, hacc, a4, by rw [a5], a6⟩
            · exact ⟨c1, c2, c3, by rw [a5] at c4; omega, by rw [c5, a6]⟩
        · have hs := Option.some.inj h
          rw [← hs]
          exact ⟨hd, Or.inl rfl⟩
    obtain ⟨s0, he, hdx, -, hst, hen, -⟩ :=
      startEntered_init fuel absmu profile pcap_ini cap icount sys
    unfold start at hret
    rw [he] at hret
    cases hloop : startLoop profile pcap_ini cap icount fuel fuel s0 with
    | none => rw [hloop] at hret; simp at hret
    | some r =>
      rw [hloop] at hret
      have hsys : startFinish absmu r = sys' := Option.some.inj hret
      obtain ⟨f1, f2, f3⟩ := startFinish_frame absmu r
      obtain ⟨k1, k2⟩ := key fuel fuel s0 r hloop
      rcases k2 with k2 | ⟨c1, c2, c3, c4, c5⟩
      · exfalso
        rw [k2, hdx] at k1
        exact k1 hp
      · rw [← hsys, f1, f2, f3]
        refine ⟨c1, ⟨r.1.ix_cap, r.1.iy_cap, c2, ?_⟩, by rw [c5, hen], by rw [← hst]; exact c4⟩
        rw [← c3]
        exact not_lt.mp k1
  have startIndex_one_eq (r : ℝ) (k : Int) :
      startIndex 1 r = k ↔ ((k : ℝ) + 1 / 2) / 2 ≤ |r| ∧ |r| < ((k : ℝ) + 3 / 2) / 2 := by
    unfold startIndex
    rw [Int.floor_eq_iff]
    constructor
    · rintro ⟨h1, h2⟩
      norm_num at h1 h2
      constructor <;> linarith
    · rintro ⟨h1, h2⟩
      norm_num
      constructor <;> linarith
  have startRegion_centre :
      startRegion 1 0 0 = Set.Ico (1 / 4 : ℝ) (3 / 4) ×ˢ Set.Ico (1 / 4 : ℝ) (3 / 4) := by
    ext p
    simp only [startRegion, Set.mem_setOf_eq, Set.mem_prod, Set.mem_Ico, startIndex_one_eq]
    constructor
    · rintro ⟨⟨a1, a2⟩, ⟨b1, b2⟩, ⟨c1, c2⟩, ⟨d1, d2⟩⟩
      rw [abs_of_nonneg a1] at c1 c2
      rw [abs_of_nonneg b1] at d1 d2
      norm_num at c1 c2 d1 d2
      exact ⟨⟨by linarith, by linarith⟩, ⟨by linarith, by linarith⟩⟩
    · rintro ⟨⟨a1, a2⟩, ⟨b1, b2⟩⟩
      have hp1 : (0 : ℝ) ≤ p.1 := by linarith
      have hp2 : (0 : ℝ) ≤ p.2 := by linarith
      rw [abs_of_nonneg hp1, abs_of_nonneg hp2]
      norm_num
      exact ⟨⟨hp1, by linarith⟩, ⟨hp2, by linarith⟩, ⟨by linarith, by linarith⟩,
        ⟨by linarith, by linarith⟩⟩
  have startRegion_corner :
      startRegion 1 1 (-1) = Set.Ico (3 / 4 : ℝ) 1 ×ˢ Set.Ico (0 : ℝ) (1 / 4) := by
    ext p
    simp only [startRegion, Set.mem_setOf_eq, Set.mem_prod, Set.mem_Ico, startIndex_one_eq]
    constructor
    · rintro ⟨⟨a1, a2⟩, ⟨b1, b2⟩, ⟨c1, c2⟩, ⟨d1, d2⟩⟩
      rw [abs_of_nonneg a1] at c1 c2
      rw [abs_of_nonneg b1] at d1 d2
      norm_num at c1 c2 d1 d2
      exact ⟨⟨by linarith, by linarith⟩, ⟨by linarith, by linarith⟩⟩
    · rintro ⟨⟨a1, a2⟩, ⟨b1, b2⟩⟩
      have hp1 : (0 : ℝ) ≤ p.1 := by linarith
      rw [abs_of_nonneg hp1, abs_of_nonneg b1]
      norm_num
      exact ⟨⟨hp1, by linarith⟩, ⟨b1, by linarith⟩, ⟨by linarith, by linarith⟩,
        ⟨by linarith, by linarith⟩⟩
  exact ⟨startLoop_skip, startFinish_frame, startEntered_init, start_entrance, startRegion_centre,
    startRegion_corner⟩

set_option maxHeartbeats 400000 in
/-- Auxiliary facts about the normal and the grazing cosine: the Cauchy-Schwarz
bound for `scalar`, the unit length of the normal, and the bounds on the cosine
after a hit of `segment` and after the scan of `capil`. -/
theorem cosine_lemmas :
    (∀ (a b : Vec3), scalar a b ^ 2 ≤ scalar a a * scalar b b) ∧
    (∀ (rad0 rad1 : ℝ) (m : SegArgs) (_ : (segment rad0 rad1 m).1 = 0)
      (_ : scalar m.v m.v = 1)
      (_ : 0 < Real.sqrt (scalar (segU m (segCk rad0 rad1 m)) (segU m (segCk rad0 rad1 m)))),
      scalar (segment rad0 rad1 m).2.rn (segment rad0 rad1 m).2.rn = 1 ∧
      (segment rad0 rad1 m).2.calf = scalar (segment rad0 rad1 m).2.rn m.v ∧
      0 ≤ (segment rad0 rad1 m).2.calf ∧ (segment rad0 rad1 m).2.calf ≤ 1 ∧
      ¬ |(segment rad0 rad1 m).2.calf| > 1.0 ∧
      0 ≤ capilAlf (segment rad0 rad1 m).2.calf ∧
      capilAlf (segment rad0 rad1 m).2.calf ≤ Real.pi / 2) ∧
    (∀ (absmu : mumc) (profile : cap_profile) (cap : inp_file)
      (s : leakstruct × calcstruct) (_ : (capilScanned profile cap s.2).1.iesc = 0)
      (_ : scalar s.2.v s.2.v = 1)
      (_ : ∀ loc : CapilLocals, 0 < capilHitAu profile cap s.2 loc),
      0 ≤ (capilScanned profile cap s.2).2.calf ∧ (capilScanned profile cap s.2).2.calf ≤ 1 ∧
      ¬ |(capilScanned profile cap s.2).2.calf| > 1.0 ∧
      (capil absmu profile cap s).2.iesc ≠ -1 ∧
      0 ≤ capilAlf (capilScanned profile cap s.2).2.calf ∧
      capilAlf (capilScanned profile cap s.2).2.calf ≤ Real.pi / 2) := by
  have cauchy_schwarz3 (a b : Vec3) : scalar a b ^ 2 ≤ scalar a a * scalar b b := by
    unfold scalar
    nlinarith [sq_nonneg (a.x * b.y - a.y * b.x), sq_nonneg (a.x * b.z - a.z * b.x),
      sq_nonneg (a.y * b.z - a.z * b.y)]
  have norm_of_unit (v : Vec3) (h : scalar v v = 1) : norm v = v := by
    unfold scalar at h
    unfold norm
    simp only
    rw [h, Real.sqrt_one]
    ext <;> simp
  have segRnRaw_unit (rad0 rad1 : ℝ) (m : SegArgs) (ck : ℝ) (hv : segVds m ≠ 0)
      (hau : 0 < Real.sqrt (scalar (segU m ck) (segU m ck))) :
      scalar (segRnRaw rad0 rad1 m ck) (segRnRaw rad0 rad1 m ck) = 1 := by
    have segU_perp := segment_lemmas.2.2.2.2.2.2.2.2.2.1
    have hperp := segU_perp m ck hv
    have hds : segDs m ≠ ⟨0, 0, 0⟩ := by
      intro h
      apply hv
      unfold segVds scalar
      rw [h]
      simp
    have hdd : 0 < scalar (segDs m) (segDs m) := by
      unfold scalar
      have : (segDs m).x ≠ 0 ∨ (segDs m).y ≠ 0 ∨ (segDs m).z ≠ 0 := by
        by_contra hc
        push_neg at hc
        exact hds (Vec3.ext hc.1 hc.2.1 hc.2.2)
      rcases this with h | h | h
      · nlinarith [mul_self_pos.mpr h, mul_self_nonneg (segDs m).y, mul_self_nonneg (segDs m).z]
      · nlinarith [mul_self_pos.mpr h, mul_self_nonneg (segDs m).x, mul_self_nonneg (segDs m).z]
      · nlinarith [mul_self_pos.mpr h, mul_self_nonneg (segDs m).x, mul_self_nonneg (segDs m).y]
    have hads : 0 < Real.sqrt (scalar (segDs m) (segDs m)) := Real.sqrt_pos.mpr hdd
    have huu : 0 ≤ scalar (segU m ck) (segU m ck) := by
      unfold scalar
      nlinarith [mul_self_nonneg (segU m ck).x, mul_self_nonneg (segU m ck).y,
        mul_self_nonneg (segU m ck).z]
    have ha2 := Real.mul_self_sqrt huu
    have hd2 := Real.mul_self_sqrt hdd.le
    have hcs := Real.cos_sq_add_sin_sq
      (Real.arctan ((rad0 - rad1) / Real.sqrt (scalar (segDs m) (segDs m))))
    unfold segRnRaw
    simp only
    generalize Real.sqrt (scalar (segU m ck) (segU m ck)) = a at hau ha2 ⊢
    generalize Real.sqrt (scalar (segDs m) (segDs m)) = d at hads hd2 hcs ⊢
    generalize Real.cos (Real.arctan ((rad0 - rad1) / d)) = c at hcs ⊢
    generalize Real.sin (Real.arctan ((rad0 - rad1) / d)) = s at hcs ⊢
    unfold scalar at ha2 hd2 hperp ⊢
    have ha : a ≠ 0 := hau.ne'
    have hd : d ≠ 0 := hads.ne'
    field_simp
    linear_combination (c ^ 2 * d ^ 2) * (-ha2) + (s ^ 2 * a ^ 2) * (-hd2)
      + (2 * c * s * a * d) * hperp + (a ^ 2 * d ^ 2) * hcs
  have segment_cosine (rad0 rad1 : ℝ) (m : SegArgs) (hhit : (segment rad0 rad1 m).1 = 0)
      (hv : scalar m.v m.v = 1)
      (hau : 0 < Real.sqrt (scalar (segU m (segCk rad0 rad1 m)) (segU m (segCk rad0 rad1 m)))) :
      scalar (segment rad0 rad1 m).2.rn (segment rad0 rad1 m).2.rn = 1 ∧
      (segment rad0 rad1 m).2.calf = scalar (segment rad0 rad1 m).2.rn m.v ∧
      0 ≤ (segment rad0 rad1 m).2.calf ∧ (segment rad0 rad1 m).2.calf ≤ 1 ∧
      ¬ |(segment rad0 rad1 m).2.calf| > 1.0 ∧
      0 ≤ capilAlf (segment rad0 rad1 m).2.calf ∧
      capilAlf (segment rad0 rad1 m).2.calf ≤ Real.pi / 2 := by
    have segment_zero_iff := segment_lemmas.2.1
    have segment_mem_of_zero := segment_lemmas.2.2.1
    have segVds_ne_zero_of_zero := segment_lemmas.2.2.2.2.2.1
    have hvds := segVds_ne_zero_of_zero rad0 rad1 m hhit
    have hraw := segRnRaw_unit rad0 rad1 m (segCk rad0 rad1 m) hvds hau
    have hrn : segRn rad0 rad1 m (segCk rad0 rad1 m) = segRnRaw rad0 rad1 m (segCk rad0 rad1 m) :=
      norm_of_unit _ hraw
    have hcalf0 : ¬ segCalf rad0 rad1 m (segCk rad0 rad1 m) < 0 :=
      ((segment_zero_iff rad0 rad1 m).1 hhit).2.2.2.2
    rw [segment_mem_of_zero rad0 rad1 m hhit]
    have e1 : (segHit rad0 rad1 m (segCk rad0 rad1 m)).rn = segRn rad0 rad1 m (segCk rad0 rad1 m) :=
      rfl
    have e2 : (segHit rad0 rad1 m (segCk rad0 rad1 m)).calf
        = scalar (segRn rad0 rad1 m (segCk rad0 rad1 m)) m.v := rfl
    have hunit : scalar (segRn rad0 rad1 m (segCk rad0 rad1 m))
        (segRn rad0 rad1 m (segCk rad0 rad1 m)) = 1 := by rw [hrn]; exact hraw
    have h0 : 0 ≤ scalar (segRn rad0 rad1 m (segCk rad0 rad1 m)) m.v := not_lt.mp hcalf0
    have h1 : scalar (segRn rad0 rad1 m (segCk rad0 rad1 m)) m.v ≤ 1 := by
      have hcs := cauchy_schwarz3 (segRn rad0 rad1 m (segCk rad0 rad1 m)) m.v
      rw [hunit, hv] at hcs
      nlinarith
    rw [e1, e2]
    refine ⟨hunit, rfl, h0, h1, ?_, ?_, ?_⟩
    · rw [abs_of_nonneg h0]
      norm_num
      exact h1
    · unfold capilAlf
      linarith [Real.arccos_le_pi_div_two.mpr h0]
    · unfold capilAlf
      linarith [Real.arccos_nonneg (scalar (segRn rad0 rad1 m (segCk rad0 rad1 m)) m.v)]
  have capil_cosine (absmu : mumc) (profile : cap_profile) (cap : inp_file)
      (s : leakstruct × calcstruct) (hhit : (capilScanned profile cap s.2).1.iesc = 0)
      (hv : scalar s.2.v s.2.v = 1)
      (hau : ∀ loc : CapilLocals, 0 < capilHitAu profile cap s.2 loc) :
      0 ≤ (capilScanned profile cap s.2).2.calf ∧ (capilScanned profile cap s.2).2.calf ≤ 1 ∧
      ¬ |(capilScanned profile cap s.2).2.calf| > 1.0 ∧
      (capil absmu profile cap s).2.iesc ≠ -1 ∧
      0 ≤ capilAlf (capilScanned profile cap s.2).2.calf ∧
      capilAlf (capilScanned profile cap s.2).2.calf ≤ Real.pi / 2 := by
    have capilBounce_iesc := capil_lemmas.2.1
    have capilScanned_eq := capil_lemmas.2.2.2.2.2.2.2.2.2.1
    have capilScan_hit := capil_lemmas.2.2.2.2.2.2.2.2.2.2.2
    have reflect_code := reflect_lemmas.2.2
    have key : 0 ≤ (capilScanned profile cap s.2).2.calf ∧
        (capilScanned profile cap s.2).2.calf ≤ 1 ∧
        ¬ |(capilScanned profile cap s.2).2.calf| > 1.0 ∧
        0 ≤ capilAlf (capilScanned profile cap s.2).2.calf ∧
        capilAlf (capilScanned profile cap s.2).2.calf ≤ Real.pi / 2 := by
      have hsc := capilScanned_eq profile cap s.2
      rcases capilScan_hit profile cap _ _ _ (hsc ▸ hhit) with heq | ⟨k, loc, h1, h2, h3⟩
      · have hc : (capilScanned profile cap s.2).2.calf = 0 := by
          rw [hsc, heq]
        rw [hc]
        refine ⟨le_rfl, zero_le_one, by norm_num, ?_, ?_⟩
        · unfold capilAlf
          rw [Real.arccos_zero]
          linarith
        · unfold capilAlf
          rw [Real.arccos_zero]
          linarith [Real.pi_pos]
      · rw [← hsc] at h1 h3
        have hk : (capilScanned profile cap s.2).1.ix + 1 = k := by omega
        have hau' := hau loc
        unfold capilHitAu at hau'
        simp only at hau'
        rw [hk] at hau'
        have hargs : capilSegArgs profile cap
            ({ s.2 with iesc := 0, ix := capilIx0 s.2 } : calcstruct) loc k
            = capilSegArgs profile cap s.2 loc k := rfl
        rw [hargs] at h2 h3
        obtain ⟨-, -, c0, c1, c2, c3, c4⟩ := segment_cosine (profile.arr (k - 1)).profil
          (profile.arr k).profil (capilSegArgs profile cap s.2 loc k) h2 hv hau'
        rw [h3]
        exact ⟨c0, c1, c2, c3, c4⟩
    obtain ⟨k0, k1, k2, k3, k4⟩ := key
    refine ⟨k0, k1, k2, ?_, k3, k4⟩
    unfold capil
    simp only
    rw [if_neg (not_not.mpr hhit), if_neg k2, capilBounce_iesc]
    rcases (reflect_code _ cap absmu profile _).2 with h | h <;> rw [h] <;> norm_num
  exact ⟨cauchy_schwarz3, segment_cosine, capil_cosine⟩

/-! ## Properties of `segment` -/

/-- C1: on every input on which `segment` returns 0 there is a segment
parameter `ck` with `EPSILON < ck <= 1` such that the returned position is the
input position plus `cc` times the direction `v`, where `cc = a + ck*b` and
`cc >= 1e-10`; `v`, `s0` and `s1` are returned unchanged. -/
theorem segment_hit_sound (rad0 rad1 : ℝ) (m : SegArgs) (h : (segment rad0 rad1 m).1 = 0) :
    ∃ ck : ℝ, EPSILON < ck ∧ ck ≤ 1 ∧ (1e-10 : ℝ) ≤ segA m + ck * segB m ∧
      (segment rad0 rad1 m).2.rh1 = ⟨m.rh1.x + (segA m + ck * segB m) * m.v.x,
        m.rh1.y + (segA m + ck * segB m) * m.v.y, m.rh1.z + (segA m + ck * segB m) * m.v.z⟩ ∧
      (segment rad0 rad1 m).2.v = m.v ∧ (segment rad0 rad1 m).2.s0 = m.s0 ∧
      (segment rad0 rad1 m).2.s1 = m.s1 := by
  have segment_zero_iff := segment_lemmas.2.1
  have segment_mem_of_zero := segment_lemmas.2.2.1
  have segment_frame := segment_lemmas.2.2.2.1
  have segCk_range_of_zero := segment_lemmas.2.2.2.2.2.2.1
  refine ⟨segCk rad0 rad1 m, (segCk_range_of_zero rad0 rad1 m h).1,
    (segCk_range_of_zero rad0 rad1 m h).2, ?_, ?_, segment_frame rad0 rad1 m⟩
  · have h4 := ((segment_zero_iff rad0 rad1 m).1 h).2.2.2.1
    simpa [segCc] using h4
  · rw [segment_mem_of_zero rad0 rad1 m h]
    simp [segHit, segPoint, segCc]

/-- The ray `exCyl` is a hit, and `segment_hit_sound` applies to it. -/
theorem segment_hit_sound_witness :
    (segment 1 1 exCyl).1 = 0 ∧
    ∃ ck : ℝ, EPSILON < ck ∧ ck ≤ 1 ∧ (1e-10 : ℝ) ≤ segA exCyl + ck * segB exCyl ∧
      (segment 1 1 exCyl).2.rh1 = ⟨exCyl.rh1.x + (segA exCyl + ck * segB exCyl) * exCyl.v.x,
        exCyl.rh1.y + (segA exCyl + ck * segB exCyl) * exCyl.v.y,
        exCyl.rh1.z + (segA exCyl + ck * segB exCyl) * exCyl.v.z⟩ ∧
      (segment 1 1 exCyl).2.v = exCyl.v ∧ (segment 1 1 exCyl).2.s0 = exCyl.s0 ∧
      (segment 1 1 exCyl).2.s1 = exCyl.s1 :=
  ⟨exCyl_eval.2.2.2.2.2.2, segment_hit_sound 1 1 exCyl exCyl_eval.2.2.2.2.2.2⟩

/-! ### The accepted parameter solves the quadratic -/

/-- C2: on every input on which `segment` returns 0 and whose leading
coefficient `a0` is exactly 0 or of magnitude greater than `EPSILON`, the
accepted parameter `ck` solves the quadratic, the returned point `p` and the
axis point `s = s0 + ck*(s1 - s0)` satisfy `(p - s)` perpendicular to
`s1 - s0`, and `|p - s|^2 = (rad0 + ck*(rad1 - rad0))^2`: the hit lies on the
tube wall. -/
theorem segment_hit_on_wall (rad0 rad1 : ℝ) (m : SegArgs)
    (h : (segment rad0 rad1 m).1 = 0)
    (ha : segA0 rad0 rad1 m = 0 ∨ EPSILON < |segA0 rad0 rad1 m|) :
    ∃ ck : ℝ, ck = segCk rad0 rad1 m ∧ EPSILON < ck ∧ ck ≤ 1 ∧
      segA0 rad0 rad1 m * ck ^ 2 + segB0 rad0 rad1 m * ck + segC0 rad0 m = 0 ∧
      (segment rad0 rad1 m).2.rh1 = ⟨m.rh1.x + (segA m + ck * segB m) * m.v.x,
        m.rh1.y + (segA m + ck * segB m) * m.v.y, m.rh1.z + (segA m + ck * segB m) * m.v.z⟩ ∧
      scalar
        ⟨(segment rad0 rad1 m).2.rh1.x - (m.s0.x + ck * (m.s1.x - m.s0.x)),
          (segment rad0 rad1 m).2.rh1.y - (m.s0.y + ck * (m.s1.y - m.s0.y)),
          (segment rad0 rad1 m).2.rh1.z - (m.s0.z + ck * (m.s1.z - m.s0.z))⟩
        ⟨m.s1.x - m.s0.x, m.s1.y - m.s0.y, m.s1.z - m.s0.z⟩ = 0 ∧
      scalar
        ⟨(segment rad0 rad1 m).2.rh1.x - (m.s0.x + ck * (m.s1.x - m.s0.x)),
          (segment rad0 rad1 m).2.rh1.y - (m.s0.y + ck * (m.s1.y - m.s0.y)),
          (segment rad0 rad1 m).2.rh1.z - (m.s0.z + ck * (m.s1.z - m.s0.z))⟩
        ⟨(segment rad0 rad1 m).2.rh1.x - (m.s0.x + ck * (m.s1.x - m.s0.x)),
          (segment rad0 rad1 m).2.rh1.y - (m.s0.y + ck * (m.s1.y - m.s0.y)),
          (segment rad0 rad1 m).2.rh1.z - (m.s0.z + ck * (m.s1.z - m.s0.z))⟩
        = (rad0 + ck * (rad1 - rad0)) ^ 2 := by
  have segment_zero_iff := segment_lemmas.2.1
  have segment_mem_of_zero := segment_lemmas.2.2.1
  have segVds_ne_zero_of_zero := segment_lemmas.2.2.2.2.2.1
  have segCk_range_of_zero := segment_lemmas.2.2.2.2.2.2.1
  have segCk_root_of_cases := segment_lemmas.2.2.2.2.2.2.2.2.1
  have segU_perp := segment_lemmas.2.2.2.2.2.2.2.2.2.1
  have segU_sq := segment_lemmas.2.2.2.2.2.2.2.2.2.2.1
  have hz := (segment_zero_iff rad0 rad1 m).1 h
  have hroot := segCk_root_of_cases rad0 rad1 m ha hz.2.1 hz.2.2.1
  have hperp := segU_perp m (segCk rad0 rad1 m) (segVds_ne_zero_of_zero rad0 rad1 m h)
  have hsq := segU_sq rad0 rad1 m (segCk rad0 rad1 m)
  rw [hroot] at hsq
  refine ⟨segCk rad0 rad1 m, rfl, (segCk_range_of_zero rad0 rad1 m h).1,
    (segCk_range_of_zero rad0 rad1 m h).2, hroot, ?_, ?_, ?_⟩
  · rw [segment_mem_of_zero rad0 rad1 m h]
    simp [segHit, segPoint, segCc]
  · rw [segment_mem_of_zero rad0 rad1 m h]
    simpa [segHit, segU, segS, segDs] using hperp
  · rw [segment_mem_of_zero rad0 rad1 m h]
    have := sub_eq_zero.mp hsq
    simpa [segHit, segU, segS, segDs] using this

/-- The hit of the ray `exCyl`, at `ck = 2/3`, lies at distance 1 from the axis. -/
theorem segment_hit_on_wall_witness :
    (segment 1 1 exCyl).1 = 0 ∧ EPSILON < |segA0 1 1 exCyl| ∧
    scalar
      ⟨(segment 1 1 exCyl).2.rh1.x - (exCyl.s0.x + 2 / 3 * (exCyl.s1.x - exCyl.s0.x)),
        (segment 1 1 exCyl).2.rh1.y - (exCyl.s0.y + 2 / 3 * (exCyl.s1.y - exCyl.s0.y)),
        (segment 1 1 exCyl).2.rh1.z - (exCyl.s0.z + 2 / 3 * (exCyl.s1.z - exCyl.s0.z))⟩
      ⟨(segment 1 1 exCyl).2.rh1.x - (exCyl.s0.x + 2 / 3 * (exCyl.s1.x - exCyl.s0.x)),
        (segment 1 1 exCyl).2.rh1.y - (exCyl.s0.y + 2 / 3 * (exCyl.s1.y - exCyl.s0.y)),
        (segment 1 1 exCyl).2.rh1.z - (exCyl.s0.z + 2 / 3 * (exCyl.s1.z - exCyl.s0.z))⟩
      = (1 + 2 / 3 * (1 - 1)) ^ 2 := by
  have hq : EPSILON < |segA0 1 1 exCyl| := not_le.mp exCyl_eval.2.1
  obtain ⟨ck, hck, -, -, -, -, -, h⟩ := segment_hit_on_wall 1 1 exCyl exCyl_eval.2.2.2.2.2.2 (Or.inr hq)
  rw [exCyl_eval.2.2.1] at hck
  subst hck
  exact ⟨exCyl_eval.2.2.2.2.2.2, hq, h⟩

/-! ### Which root is reported -/

/-- C3, the code on `exWall`, a photon on the wall of a cylinder of radius 1
(at `(-1, 0, 1)`, as `capil` leaves it after a reflection) that flies across
the tube with unit direction `(3/5, 0, 4/5)`.  The quadratic has `a0 = 9` and
the roots `ck1 = 11/12` and `ck2 = 1/4`.  The root `11/12` is admissible: its
forward distance is `10/3`, the point is `(1, 0, 11/3)` and the grazing cosine
is `3/5`.  The code selects `ck = ck2 = 1/4`, the starting point itself, whose
forward distance is `0 < 1e-10`, and returns -2: the admissible root is never
tried and no hit is reported. -/
theorem segment_blocked_root :
    EPSILON ≤ |segVds exWall| ∧ segA0 1 1 exWall = 9 ∧
    segCk1 1 1 exWall = 11 / 12 ∧ segCk2 1 1 exWall = 1 / 4 ∧
    segCk 1 1 exWall = segCk2 1 1 exWall ∧ segCc exWall (segCk 1 1 exWall) = 0 ∧
    admissible 1 1 exWall (11 / 12) ∧ segCc exWall (11 / 12) = 10 / 3 ∧
    segPoint exWall (11 / 12) = ⟨1, 0, 11 / 3⟩ ∧ segCalf 1 1 exWall (11 / 12) = 3 / 5 ∧
    (segment 1 1 exWall).1 = -2 := by
  obtain ⟨hvds, ha0, hb0, hc0, hck1, hck2, hck, hnear, hfar, hpt, hcalf, hcode⟩ := exWall_eval
  refine ⟨?_, ha0, hck1, hck2, by rw [hck, hck2], by rw [hck, hnear], ?_, hfar, hpt, hcalf,
    hcode⟩
  · rw [hvds]; norm_num [EPSILON, abs_of_pos]
  · unfold admissible
    rw [ha0, hb0, hc0, hfar, hcalf]
    norm_num [EPSILON]

/-- Two inputs with `|v.ds| >= EPSILON` whose leading coefficient is at most
`EPSILON` in magnitude, where the linear branch of `segment` decides.  On
`exTiny` (`0 < a0 <= EPSILON`) the quadratic has no real root at all and
`segment` reports a hit.  On `exOnWall` (`a0 = b0 = c0 = 0`) the parameter
`ck = 1` is admissible and `segment` reports a miss. -/
theorem segment_degenerate_coefficients :
    (EPSILON ≤ |segVds exTiny| ∧ (¬ ∃ ck : ℝ, admissible 1e-16 1e-16 exTiny ck) ∧
      (segment 1e-16 1e-16 exTiny).1 = 0) ∧
    (EPSILON ≤ |segVds exOnWall| ∧ admissible 1 1 exOnWall 1 ∧
      (segment 1 1 exOnWall).1 = -2) := by
  have quad_root_cases : ∀ {a b c r : ℝ} (_ : a ≠ 0) (_ : a * r ^ 2 + b * r + c = 0),
      0 ≤ b * b - 4 * a * c ∧
        (r = (-b + Real.sqrt (b * b - 4 * a * c)) / (2 * a) ∨
          r = (-b - Real.sqrt (b * b - 4 * a * c)) / (2 * a)) :=
    segment_lemmas.2.2.2.2.2.2.2.2.2.2.2.1
  refine ⟨⟨?_, ?_, exTiny_eval.2.2.2⟩, ⟨?_, ?_, exOnWall_eval.2.2.2.2.2.2⟩⟩
  · rw [exTiny_eval.1]; norm_num [EPSILON]
  · rintro ⟨ck, hroot, -⟩
    have ha0 : segA0 1e-16 1e-16 exTiny ≠ 0 := by rw [exTiny_eval.2.1]; norm_num
    have hd := (quad_root_cases ha0 hroot).1
    have hneg := exTiny_eval.2.2.1
    unfold segDisc at hneg
    linarith
  · rw [exOnWall_eval.1]; norm_num [EPSILON, abs_of_pos]
  · unfold admissible
    rw [exOnWall_eval.2.1, exOnWall_eval.2.2.1, exOnWall_eval.2.2.2.1, exOnWall_eval.2.2.2.2.1, exOnWall_eval.2.2.2.2.2.1]
    norm_num [EPSILON]

/-- Where the root selection of `segment` does what is expected of it: for
every input with `|v.ds| >= EPSILON` whose leading coefficient is usable by the
code (`|a0| > EPSILON`, or `a0 = 0` with `b0 != 0`), (1) a hit reported by
`segment` is at the admissible root `ck` selected by the code, the reported
point being `rh1 + (a + ck*b)*v`; (2) when some root lies in `(EPSILON, 1]` and
every root in `(EPSILON, 1]` is admissible, `segment` reports a hit; (3) when
`a0*(v.ds) >= 0` the reported root has the smallest forward distance among the
admissible roots.  The inputs left out by (2) are those on which one root in
`(EPSILON, 1]` is not admissible while the other is, as on `exWall`. -/
theorem segment_next_hit (rad0 rad1 : ℝ) (m : SegArgs) (hv : EPSILON ≤ |segVds m|)
    (ha : EPSILON < |segA0 rad0 rad1 m| ∨
      (segA0 rad0 rad1 m = 0 ∧ segB0 rad0 rad1 m ≠ 0)) :
    ((segment rad0 rad1 m).1 = 0 →
        admissible rad0 rad1 m (segCk rad0 rad1 m) ∧
        (segment rad0 rad1 m).2.rh1 = segPoint m (segCk rad0 rad1 m)) ∧
    ((∃ ck : ℝ, segA0 rad0 rad1 m * ck ^ 2 + segB0 rad0 rad1 m * ck + segC0 rad0 m = 0 ∧
          EPSILON < ck ∧ ck ≤ 1) →
        (∀ ck : ℝ, segA0 rad0 rad1 m * ck ^ 2 + segB0 rad0 rad1 m * ck + segC0 rad0 m = 0 →
          EPSILON < ck → ck ≤ 1 → admissible rad0 rad1 m ck) →
        (segment rad0 rad1 m).1 = 0) ∧
    ((segment rad0 rad1 m).1 = 0 → 0 ≤ segA0 rad0 rad1 m * segVds m →
        ∀ ck : ℝ, admissible rad0 rad1 m ck →
          segCc m (segCk rad0 rad1 m) ≤ segCc m ck) := by
  have segCk_eq_or := segment_lemmas.1
  have segment_zero_iff := segment_lemmas.2.1
  have segment_mem_of_zero := segment_lemmas.2.2.1
  have segVds_ne_zero_of_zero := segment_lemmas.2.2.2.2.2.1
  have segCk_range_of_zero := segment_lemmas.2.2.2.2.2.2.1
  have segCk_cases := segment_lemmas.2.2.2.2.2.2.2.1
  have segCk_root_of_cases := segment_lemmas.2.2.2.2.2.2.2.2.1
  have quad_root_cases : ∀ {a b c r : ℝ} (_ : a ≠ 0) (_ : a * r ^ 2 + b * r + c = 0),
      0 ≤ b * b - 4 * a * c ∧
        (r = (-b + Real.sqrt (b * b - 4 * a * c)) / (2 * a) ∨
          r = (-b - Real.sqrt (b * b - 4 * a * c)) / (2 * a)) :=
    segment_lemmas.2.2.2.2.2.2.2.2.2.2.2.1
  have scalar_self_nonneg := segment_lemmas.2.2.2.2.2.2.2.2.2.2.2.2.1
  have hE : (0 : ℝ) < EPSILON := by norm_num [EPSILON]
  have ha' : segA0 rad0 rad1 m = 0 ∨ EPSILON < |segA0 rad0 rad1 m| := by
    rcases ha with h | h
    · exact Or.inr h
    · exact Or.inl h.1
  have hsound : (segment rad0 rad1 m).1 = 0 → admissible rad0 rad1 m (segCk rad0 rad1 m) := by
    intro h
    have hz := (segment_zero_iff rad0 rad1 m).1 h
    exact ⟨segCk_root_of_cases rad0 rad1 m ha' hz.2.1 hz.2.2.1,
      (segCk_range_of_zero rad0 rad1 m h).1, (segCk_range_of_zero rad0 rad1 m h).2,
      not_lt.mp hz.2.2.2.1, not_lt.mp hz.2.2.2.2⟩
  -- every root in range is one of the two candidates of the code, and the code selects one
  have hsel : ∀ r : ℝ, segA0 rad0 rad1 m * r ^ 2 + segB0 rad0 rad1 m * r + segC0 rad0 m = 0 →
      EPSILON < r → r ≤ 1 →
      ¬ (¬ (|segA0 rad0 rad1 m| ≤ EPSILON) ∧ segDisc rad0 rad1 m < 0) ∧
      (r = segCk1 rad0 rad1 m ∨ r = segCk2 rad0 rad1 m) := by
    intro r hr h1 h2
    rcases ha with hq | ⟨h0, hb⟩
    · have hq' : ¬ |segA0 rad0 rad1 m| ≤ EPSILON := not_le.mpr hq
      have ha0 : segA0 rad0 rad1 m ≠ 0 := by
        intro h0
        rw [h0, abs_zero] at hq
        linarith
      obtain ⟨hd, hc⟩ := quad_root_cases ha0 hr
      refine ⟨fun hh => ?_, ?_⟩
      · have := hh.2
        unfold segDisc at this
        linarith
      · rw [segCk1, segCk2, if_neg hq', if_neg hq']
        exact hc
    · have hlin : |segA0 rad0 rad1 m| ≤ EPSILON := by rw [h0]; simpa using hE.le
      refine ⟨fun hh => hh.1 hlin, Or.inl ?_⟩
      rw [segCk1, if_pos hlin]
      rw [h0] at hr
      field_simp
      linarith
  refine ⟨fun h => ⟨hsound h, ?_⟩, ?_, ?_⟩
  · rw [segment_mem_of_zero rad0 rad1 m h]
    simp [segHit]
  · rintro ⟨r, hr, hr1, hr2⟩ hall
    obtain ⟨hd, hc⟩ := hsel r hr hr1 hr2
    have hk : segCk rad0 rad1 m ≠ -1000 := by
      intro hk
      unfold segCk at hk
      simp only at hk
      rcases hc with hc | hc
      · rw [← hc] at hk
        split_ifs at hk with h2 h1
        · linarith [h2.1]
        · linarith
        · exact h1 ⟨hr1, hr2⟩
      · rw [← hc] at hk
        split_ifs at hk with h2 h1
        · linarith
        · exact h2 ⟨hr1, hr2⟩
        · exact h2 ⟨hr1, hr2⟩
    have hroot := segCk_root_of_cases rad0 rad1 m ha' hd hk
    have hrange : EPSILON < segCk rad0 rad1 m ∧ segCk rad0 rad1 m ≤ 1 := by
      rcases segCk_eq_or rad0 rad1 m with h' | h'
      · exact absurd h' hk
      · exact h'
    have hadm := hall _ hroot hrange.1 hrange.2
    rw [segment_zero_iff]
    exact ⟨not_lt.mpr hv, hd, hk, not_lt.mpr hadm.2.2.2.1, not_lt.mpr hadm.2.2.2.2⟩
  · intro h hsign ck hck
    have hz := (segment_zero_iff rad0 rad1 m).1 h
    obtain ⟨hd, hc⟩ := hsel ck hck.1 hck.2.1 hck.2.2.1
    have hvne : segVds m ≠ 0 := segVds_ne_zero_of_zero rad0 rad1 m h
    unfold segCc
    rcases segCk_cases rad0 rad1 m hz.2.2.1 with ⟨he, -, -⟩ | ⟨he, -, -, hno⟩
    · rcases hc with hc | hc
      · -- selected the second root, the other admissible root is the first
        rcases ha with hq | ⟨h0, hb⟩
        · have hq' : ¬ |segA0 rad0 rad1 m| ≤ EPSILON := not_le.mpr hq
          have hdiff : ck - segCk rad0 rad1 m
              = Real.sqrt (segDisc rad0 rad1 m) / segA0 rad0 rad1 m := by
            have ha0 : segA0 rad0 rad1 m ≠ 0 := by
              intro h0
              rw [h0, abs_zero] at hq
              linarith
            rw [he, hc, segCk1, segCk2, if_neg hq', if_neg hq']
            field_simp
            ring
          have hprod : 0 ≤ (ck - segCk rad0 rad1 m) * segB m := by
            rw [hdiff, segB, div_mul_div_comm]
            exact div_nonneg (mul_nonneg (Real.sqrt_nonneg _) (scalar_self_nonneg _)) hsign
          nlinarith [hprod]
        · have hlin : |segA0 rad0 rad1 m| ≤ EPSILON := by rw [h0]; simpa using hE.le
          have h2 : segCk2 rad0 rad1 m = -1000 := by rw [segCk2, if_pos hlin]
          have := (segCk_range_of_zero rad0 rad1 m h).1
          rw [he, h2] at this
          linarith
      · rw [he, hc]
    · rcases hc with hc | hc
      · rw [he, hc]
      · exact absurd ⟨hc ▸ hck.2.1, hc ▸ hck.2.2.1⟩ hno

/-- The hit reported for the ray `exCyl` is at an admissible root. -/
theorem segment_next_hit_witness :
    EPSILON ≤ |segVds exCyl| ∧ EPSILON < |segA0 1 1 exCyl| ∧ (segment 1 1 exCyl).1 = 0 ∧
      admissible 1 1 exCyl (segCk 1 1 exCyl) ∧
      (segment 1 1 exCyl).2.rh1 = segPoint exCyl (segCk 1 1 exCyl) := by
  have hv : EPSILON ≤ |segVds exCyl| := by
    rw [exCyl_eval.1]; norm_num [EPSILON, abs_of_pos]
  have hq : EPSILON < |segA0 1 1 exCyl| := not_le.mp exCyl_eval.2.1
  exact ⟨hv, hq, exCyl_eval.2.2.2.2.2.2, (segment_next_hit 1 1 exCyl hv (Or.inl hq)).1 exCyl_eval.2.2.2.2.2.2⟩

/-! ### A ray parallel to the axis of a cylinder -/

/-- C4: for a cylinder (`rad0 = rad1 = rad`, `s0 != s1`) and a ray whose
direction is a non-zero multiple `lam` of `s1 - s0` and whose start point lies
at a perpendicular distance smaller than `rad` from the axis, `segment` returns
-2 and leaves its memory, the position included, unchanged.  The coefficients
are `a0 = 0`, `b0 = 0` and `c0 < 0`: the quotient `-c0/b0` of the linear branch
has divisor zero.  The distance hypothesis already makes `rad` non-zero, so
`rad > 0` is not asked for separately. -/
theorem segment_parallel_cylinder (rad lam : ℝ) (m : SegArgs)
    (hs : m.s0 ≠ m.s1) (hl : lam ≠ 0)
    (hpar : m.v = ⟨lam * (m.s1.x - m.s0.x), lam * (m.s1.y - m.s0.y), lam * (m.s1.z - m.s0.z)⟩)
    (hdist : scalar (segDrs m) (segDrs m)
      - scalar (segDrs m) (segDs m) ^ 2 / scalar (segDs m) (segDs m) < rad ^ 2) :
    (segment rad rad m).1 = -2 ∧ (segment rad rad m).2 = m ∧
      (segment rad rad m).2.rh1 = m.rh1 ∧
      segA0 rad rad m = 0 ∧ segB0 rad rad m = 0 ∧ segC0 rad m < 0 :=
  segment_lemmas.2.2.2.2.2.2.2.2.2.2.2.2.2.1 rad lam m hs hl hpar hdist

/-- The ray `exParallel`, parallel to the axis at distance `1/2`, is a miss. -/
theorem segment_parallel_cylinder_witness :
    (segment 1 1 exParallel).1 = -2 ∧ (segment 1 1 exParallel).2 = exParallel ∧
      (segment 1 1 exParallel).2.rh1 = exParallel.rh1 ∧
      segA0 1 1 exParallel = 0 ∧ segB0 1 1 exParallel = 0 ∧ segC0 1 exParallel < 0 :=
  segment_parallel_cylinder 1 (1 / 2) exParallel
    (by intro h; have := congrArg Vec3.z h; norm_num [exParallel] at this)
    (by norm_num)
    (by ext <;> norm_num [exParallel])
    (by norm_num [scalar, segDrs, segDs, exParallel])

/-! ### The test on the grazing cosine -/

/-- C5, counterexample: on the tangent ray `exTangent` the grazing cosine is
exactly 0 and `segment` returns 0 (a hit), not -2; and on `exTiny`, where the
linear branch is taken, the discriminant `b0^2 - 4*a0*c0` is negative and
`segment` returns 0 as well. -/
theorem segment_accepts_zero_calf :
    ((segment 1 1 exTangent).1 = 0 ∧ (segment 1 1 exTangent).2.calf = 0) ∧
      (segDisc 1e-16 1e-16 exTiny < 0 ∧ (segment 1e-16 1e-16 exTiny).1 = 0) := by
  have segment_mem_of_zero := segment_lemmas.2.2.1
  refine ⟨⟨exTangent_eval.2.2, ?_⟩, exTiny_eval.2.2.1, exTiny_eval.2.2.2⟩
  rw [segment_mem_of_zero 1 1 exTangent exTangent_eval.2.2, exTangent_eval.1]
  simpa [segHit] using exTangent_eval.2.1

/-- C5, amended: for every input, if the grazing cosine computed at the
candidate is negative, or the quadratic branch is taken (`|a0| > EPSILON`) and
the discriminant is negative, `segment` returns -2; it never returns 0 with a
negative `calf` (a `calf` of exactly 0 is a hit); the only return codes are 0
and -2. -/
theorem segment_rejects_negative_calf (rad0 rad1 : ℝ) (m : SegArgs) :
    (segCalf rad0 rad1 m (segCk rad0 rad1 m) < 0 → (segment rad0 rad1 m).1 = -2) ∧
    (EPSILON < |segA0 rad0 rad1 m| → segDisc rad0 rad1 m < 0 → (segment rad0 rad1 m).1 = -2) ∧
    ((segment rad0 rad1 m).1 = 0 → 0 ≤ (segment rad0 rad1 m).2.calf) ∧
    ((segment rad0 rad1 m).1 = 0 ∨ (segment rad0 rad1 m).1 = -2) := by
  have segment_zero_iff := segment_lemmas.2.1
  have segment_mem_of_zero := segment_lemmas.2.2.1
  have hcodes : (segment rad0 rad1 m).1 = 0 ∨ (segment rad0 rad1 m).1 = -2 := by
    unfold segment
    split_ifs <;> simp
  refine ⟨fun hc => ?_, fun hq hd => ?_, fun h => ?_, hcodes⟩
  · rcases hcodes with h | h
    · exact absurd hc ((segment_zero_iff rad0 rad1 m).1 h).2.2.2.2
    · exact h
  · rcases hcodes with h | h
    · exact absurd ⟨not_le.mpr hq, hd⟩ ((segment_zero_iff rad0 rad1 m).1 h).2.1
    · exact h
  · rw [segment_mem_of_zero rad0 rad1 m h]
    exact not_lt.mp ((segment_zero_iff rad0 rad1 m).1 h).2.2.2.2

/-! ## Properties of `reflect` -/

/-! ### Weight removed and weight leaked -/

/-- C7, counterexample: a photon of weight 1 reflected at `alf = 1` by a
perfectly reflecting wall of roughness 1 loses the weight
`1 - exp(-(1.01358)^2) > 0` in bin 0 while nothing is added to `leak[0]`. -/
theorem reflect_leak_differs :
    exCalc.w 0 - (reflect 1 (exCap 1) (exAbsmu 1e20) exProfile (exLeaks, exCalc)).2.2.w 0
      ≠ (reflect 1 (exCap 1) (exAbsmu 1e20) exProfile (exLeaks, exCalc)).2.1.leak 0
        - exLeaks.leak 0 := by
  have exCap_e := example_evals.1
  have exMirror_rtot := example_evals.2.1
  have reflect_bin := reflect_lemmas.1
  have reflFactor_eq := fresnel_lemmas.2.1
  have reflWleak_eq := fresnel_lemmas.2.2.1
  obtain ⟨hw, hl⟩ := reflect_bin 1 (exCap 1) (exAbsmu 1e20) exProfile (exLeaks, exCalc) 0
    le_rfl (by simp [exAbsmu])
  have hR : (reflRtot 1 (exCap 1) (exAbsmu 1e20) 0).re = 1 :=
    exMirror_rtot 1 1 0 (by norm_num)
  rw [hw, hl, reflWleak_eq, reflFactor_eq, hR]
  have hrough : reflRough 1 (exCap 1) 0 < 1 := by
    unfold reflRough
    simp only [exCap_e]
    have hlt : Real.exp (-1 * (1.01358e0 * 1 * 1 * (exCap 1).sig_rough)
        * (1.01358e0 * 1 * 1 * (exCap 1).sig_rough)) < Real.exp 0 :=
      Real.exp_lt_exp.mpr (by norm_num [exCap])
    rwa [Real.exp_zero] at hlt
  have hw1 : exCalc.w 0 = 1 := rfl
  have hl0 : exLeaks.leak 0 = 0 := rfl
  simp only [hw1, hl0]
  intro h
  have : (1 : ℝ) - 1 * (1 * reflRough 1 (exCap 1) 0) = 0 := by
    rw [h]; ring
  linarith

/-- C7, amended: for every call of `reflect` and every energy bin `i` in
`0..n_energy`, the amount added to `leak[i]` is
`(1 - R_i) * w_before[i] * exp(-desc*amu_i)` and the weight removed from the
photon is `w_before[i] * (1 - R_i*r_rough_i)`, where `R_i` is the reflectivity;
the two are equal when `sig_rough = 0` and `amu_i = 0`. -/
theorem reflect_weight_and_leak (alf : ℝ) (cap : inp_file) (absmu : mumc)
    (profile : cap_profile) (s : leakstruct × calcstruct) (i : Int)
    (h0 : 0 ≤ i) (h1 : i ≤ absmu.n_energy) :
    (reflect alf cap absmu profile s).2.1.leak i - s.1.leak i
        = (1 - (reflRtot alf cap absmu i).re) * s.2.w i
          * Real.exp (-1 * reflDesc cap profile s.2 * (absmu.arr i).amu) ∧
    s.2.w i - (reflect alf cap absmu profile s).2.2.w i
        = s.2.w i * (1 - (reflRtot alf cap absmu i).re * reflRough alf cap i) ∧
    (cap.sig_rough = 0 → (absmu.arr i).amu = 0 →
      s.2.w i - (reflect alf cap absmu profile s).2.2.w i
        = (reflect alf cap absmu profile s).2.1.leak i - s.1.leak i) := by
  have reflect_bin := reflect_lemmas.1
  have reflFactor_eq := fresnel_lemmas.2.1
  have reflWleak_eq := fresnel_lemmas.2.2.1
  obtain ⟨hw, hl⟩ := reflect_bin alf cap absmu profile s i h0 h1
  rw [hw, hl, reflWleak_eq, reflFactor_eq]
  refine ⟨by ring, by ring, fun hs ha => ?_⟩
  have hrough : reflRough alf cap i = 1 := by
    unfold reflRough
    simp [hs]
  rw [hrough, ha]
  simp
  ring

/-- The amount added to `leak[0]` for the photon `exCalc` on a rough mirror. -/
theorem reflect_weight_and_leak_witness :
    (reflect 1 (exCap 1) (exAbsmu 1e20) exProfile (exLeaks, exCalc)).2.1.leak 0
        - exLeaks.leak 0
      = (1 - (reflRtot 1 (exCap 1) (exAbsmu 1e20) 0).re) * exCalc.w 0
          * Real.exp (-1 * reflDesc (exCap 1) exProfile exCalc * ((exAbsmu 1e20).arr 0).amu) :=
  (reflect_weight_and_leak 1 (exCap 1) (exAbsmu 1e20) exProfile (exLeaks, exCalc) 0
    le_rfl (by simp [exAbsmu])).1

/-- C8: with `sig_rough = 0` every energy bin `i` in `0..n_energy` satisfies
`w_after[i] = w_before[i] * R_i`, where `R_i` is the unroughened Fresnel
reflectivity of the specification for the code's `alfa_i` and `beta_i`, and the
roughness factor `r_rough` equals 1. -/
theorem reflect_zero_roughness (alf : ℝ) (cap : inp_file) (absmu : mumc)
    (profile : cap_profile) (s : leakstruct × calcstruct) (i : Int)
    (hs : cap.sig_rough = 0) (h0 : 0 ≤ i) (h1 : i ≤ absmu.n_energy) :
    (reflect alf cap absmu profile s).2.2.w i
        = s.2.w i * fresnelSpec alf (reflAlfa cap absmu i) (reflBeta cap absmu i) ∧
      reflRough alf cap i = 1 := by
  have reflect_bin := reflect_lemmas.1
  have reflRtot_spec := fresnel_lemmas.1
  have reflFactor_eq := fresnel_lemmas.2.1
  have hrough : reflRough alf cap i = 1 := by
    unfold reflRough
    simp [hs]
  refine ⟨?_, hrough⟩
  rw [(reflect_bin alf cap absmu profile s i h0 h1).1, reflFactor_eq, hrough, mul_one,
    reflRtot_spec]

/-- The weight of the photon `exCalc` after a reflection on a smooth mirror. -/
theorem reflect_zero_roughness_witness :
    (reflect 1 (exCap 0) (exAbsmu 1e20) exProfile (exLeaks, exCalc)).2.2.w 0
        = exCalc.w 0 * fresnelSpec 1 (reflAlfa (exCap 0) (exAbsmu 1e20) 0)
            (reflBeta (exCap 0) (exAbsmu 1e20) 0) ∧
      reflRough 1 (exCap 0) 0 = 1 :=
  reflect_zero_roughness 1 (exCap 0) (exAbsmu 1e20) exProfile (exLeaks, exCalc) 0 rfl
    le_rfl (by simp [exAbsmu])

/-- C9: for every energy bin `i` in `0..n_energy` the weight is multiplied by
the factor `rtot*r_rough`, and for all grazing angles `0 <= alf1 <= alf2` the
factor at `alf2` is at most the factor at `alf1`.  Neither `amu >= 0` nor
`alf2 <= pi/2` is needed. -/
theorem reflect_factor_antitone (cap : inp_file) (absmu : mumc) (profile : cap_profile)
    (s : leakstruct × calcstruct) (i : Int) (alf1 alf2 : ℝ)
    (hi0 : 0 ≤ i) (hi1 : i ≤ absmu.n_energy) (h0 : 0 ≤ alf1) (h12 : alf1 ≤ alf2) :
    (reflect alf1 cap absmu profile s).2.2.w i = s.2.w i * reflFactor alf1 cap absmu i ∧
    (reflect alf2 cap absmu profile s).2.2.w i = s.2.w i * reflFactor alf2 cap absmu i ∧
    reflFactor alf1 cap absmu i = (reflRtot alf1 cap absmu i).re * reflRough alf1 cap i ∧
    reflFactor alf2 cap absmu i = (reflRtot alf2 cap absmu i).re * reflRough alf2 cap i ∧
    reflFactor alf2 cap absmu i ≤ reflFactor alf1 cap absmu i := by
  have reflect_bin := reflect_lemmas.1
  have reflFactor_eq := fresnel_lemmas.2.1
  have reflRtot_nonneg := fresnel_lemmas.2.2.2.2.1
  have reflRtot_antitone := fresnel_lemmas.2.2.2.2.2.1
  have reflRough_antitone := fresnel_lemmas.2.2.2.2.2.2.1
  refine ⟨(reflect_bin alf1 cap absmu profile s i hi0 hi1).1,
    (reflect_bin alf2 cap absmu profile s i hi0 hi1).1, reflFactor_eq _ _ _ _,
    reflFactor_eq _ _ _ _, ?_⟩
  rw [reflFactor_eq, reflFactor_eq]
  apply mul_le_mul (reflRtot_antitone cap absmu i alf1 alf2 h0 h12)
    (reflRough_antitone cap i alf1 alf2 h0 h12)
  · unfold reflRough
    exact (Real.exp_pos _).le
  · exact reflRtot_nonneg _ _ _ _

/-- The factor at `alf = 1` is at most the factor at `alf = 1/2`. -/
theorem reflect_factor_antitone_witness :
    reflFactor 1 (exCap 1) (exAbsmu 1e20) 0 ≤ reflFactor (1 / 2) (exCap 1) (exAbsmu 1e20) 0 :=
  (reflect_factor_antitone (exCap 1) (exAbsmu 1e20) exProfile (exLeaks, exCalc) 0 (1 / 2) 1
    le_rfl (by simp [exAbsmu]) (by norm_num) (by norm_num)).2.2.2.2

/-! ## Properties of `capil` -/

/-- C6: for every call of `capil` in which a segment is hit with unit normal
`n` and grazing cosine `c` in `[0,1]`, the incoming direction `v` is a unit
vector and `reflect` does not return -2: `c = n.v`, the new direction is
`v - 2*(v.n)*n`, it is a unit vector, and `n.v_new = -(n.v)`. -/
theorem capil_specular_reflection (absmu : mumc) (profile : cap_profile) (cap : inp_file)
    (s : leakstruct × calcstruct)
    (hhit : (capilScanned profile cap s.2).1.iesc = 0)
    (hn : scalar (capilScanned profile cap s.2).2.rn (capilScanned profile cap s.2).2.rn = 1)
    (hc0 : 0 ≤ (capilScanned profile cap s.2).2.calf)
    (hc1 : (capilScanned profile cap s.2).2.calf ≤ 1)
    (hv : scalar s.2.v s.2.v = 1)
    (hr : (capil absmu profile cap s).2.iesc ≠ -2) :
    (capilScanned profile cap s.2).2.calf = scalar (capilScanned profile cap s.2).2.rn s.2.v ∧
    (capil absmu profile cap s).2.v
      = ⟨s.2.v.x - 2 * scalar s.2.v (capilScanned profile cap s.2).2.rn
            * (capilScanned profile cap s.2).2.rn.x,
          s.2.v.y - 2 * scalar s.2.v (capilScanned profile cap s.2).2.rn
            * (capilScanned profile cap s.2).2.rn.y,
          s.2.v.z - 2 * scalar s.2.v (capilScanned profile cap s.2).2.rn
            * (capilScanned profile cap s.2).2.rn.z⟩ ∧
    scalar (capil absmu profile cap s).2.v (capil absmu profile cap s).2.v = 1 ∧
    scalar (capilScanned profile cap s.2).2.rn (capil absmu profile cap s).2.v
      = -scalar (capilScanned profile cap s.2).2.rn s.2.v := by
  have capilScanned_calf := capil_lemmas.1
  have reflectDir_specular := capil_lemmas.2.2.2.1
  have capil_v_of_bounce := capil_lemmas.2.2.2.2.1
  have hcalf := capilScanned_calf profile cap s.2 hhit (by rw [hn]; norm_num)
  have hrange : ¬ |(capilScanned profile cap s.2).2.calf| > 1.0 := by
    rw [abs_of_nonneg hc0]
    norm_num
    exact hc1
  have hdir := capil_v_of_bounce absmu profile cap s hhit hrange hr
  rw [reflectDir_specular _ _ _ hcalf (by linarith) hc1 hn hv] at hdir
  refine ⟨hcalf, hdir, ?_, ?_⟩
  · rw [hdir]
    unfold scalar at hn hv ⊢
    simp only
    linear_combination hv + (4 * (0 + s.2.v.x * (capilScanned profile cap s.2).2.rn.x
      + s.2.v.y * (capilScanned profile cap s.2).2.rn.y
      + s.2.v.z * (capilScanned profile cap s.2).2.rn.z) ^ 2) * hn
  · rw [hdir]
    unfold scalar at hn ⊢
    simp only
    linear_combination (-2 * (0 + s.2.v.x * (capilScanned profile cap s.2).2.rn.x
      + s.2.v.y * (capilScanned profile cap s.2).2.rn.y
      + s.2.v.z * (capilScanned profile cap s.2).2.rn.z)) * hn

/-! ### One transport step on the concrete photon -/

/-- The photon `exCalc` is reflected by a smooth mirror: its new direction. -/
theorem capil_specular_reflection_witness :
    (capil (exAbsmu 1e20) exProfile (exCap 0) (exLeaks, exCalc)).2.v
      = ⟨3 / 5 - 2 * scalar ⟨3 / 5, 0, 4 / 5⟩ ⟨1, 0, 0⟩ * 1,
          0 - 2 * scalar ⟨3 / 5, 0, 4 / 5⟩ ⟨1, 0, 0⟩ * 0,
          4 / 5 - 2 * scalar ⟨3 / 5, 0, 4 / 5⟩ ⟨1, 0, 0⟩ * 0⟩ := by
  have exScanned := example_evals.2.2.1
  have exCalc_unit := example_evals.2.2.2.1
  have exMirror_reflect_code := example_evals.2.2.2.2.1
  have capil_absorbed_iff := capil_lemmas.2.2.1
  have hsc := exScanned 0
  have hhit : (capilScanned exProfile (exCap 0) (exLeaks, exCalc).2).1.iesc = 0 := by
    rw [hsc]; rfl
  have hn : scalar (capilScanned exProfile (exCap 0) (exLeaks, exCalc).2).2.rn
      (capilScanned exProfile (exCap 0) (exLeaks, exCalc).2).2.rn = 1 := by
    rw [hsc]; norm_num [scalar]
  have hc0 : 0 ≤ (capilScanned exProfile (exCap 0) (exLeaks, exCalc).2).2.calf := by
    rw [hsc]; norm_num
  have hc1 : (capilScanned exProfile (exCap 0) (exLeaks, exCalc).2).2.calf ≤ 1 := by
    rw [hsc]; norm_num
  have hr : (capil (exAbsmu 1e20) exProfile (exCap 0) (exLeaks, exCalc)).2.iesc ≠ -2 := by
    intro h
    have h' := ((capil_absorbed_iff _ _ _ _).1 h).2.2
    rw [hsc] at h'
    exact exMirror_reflect_code 0 rfl h'
  have h := (capil_specular_reflection (exAbsmu 1e20) exProfile (exCap 0) (exLeaks, exCalc)
    hhit hn hc0 hc1 exCalc_unit hr).2.1
  rw [hsc] at h
  exact h

/-! ## Properties of the driver loop -/

/-- C10, counterexample: the photon `exCalc` meets a transparent wall,
`reflect` returns -2 because `w[0]` has fallen to 0, and the next program point
of the driver is the call of `start` for the same index 0: the photon is
replaced, the loop does not go on to the next index. -/
theorem absorbed_photon_restarts :
    (reflect (capilAlf (3 / 5)) (exCap 0) (exAbsmu 0) exProfile
      (exLeaks, capilMoved (exCap 0) exCalc
        { rh1 := ⟨1, 0, 4 / 3⟩, rn := ⟨1, 0, 0⟩, calf := 3 / 5 })).1 = -2 ∧
    (capil (exAbsmu 0) exProfile (exCap 0) (exLeaks, exCalc)).2.iesc = -2 ∧
    (driverCapil (exAbsmu 0) exProfile (exCap 0) exDriver).pc = Pc.atStart ∧
    (driverCapil (exAbsmu 0) exProfile (exCap 0) exDriver).icount = 0 := by
  have exScanned := example_evals.2.2.1
  have exVoid_reflect_code := example_evals.2.2.2.2.2.1
  have capil_absorbed_iff := capil_lemmas.2.2.1
  have hcapil : (capil (exAbsmu 0) exProfile (exCap 0) (exLeaks, exCalc)).2.iesc = -2 := by
    rw [capil_absorbed_iff, exScanned]
    refine ⟨rfl, ?_, exVoid_reflect_code 0⟩
    norm_num [abs_of_pos]
  refine ⟨exVoid_reflect_code 0, hcapil, ?_, ?_⟩
  · unfold driverCapil
    simp only
    have h : (capil (exAbsmu 0) exProfile (exCap 0)
        (exDriver.sys.leaks, exDriver.sys.cs)).2.iesc = -2 := hcapil
    rw [h]
    simp
  · unfold driverCapil
    simp only
    split_ifs <;> rfl

/-- C10, amended: `reflect` returns -2 exactly when the lowest-energy weight
`w[0]` after the update is below `1e-4`, and 0 otherwise.  When the call of
`reflect` inside `capil` returns -2, `capil` leaves `iesc = -2` and the driver
loop calls `start` again for the same index `icount`: neither `count` is called
nor `sum_refl` changed nor the index advanced; the absorbed history is replaced
by a new one. -/
theorem absorbed_photon_is_replaced (start : Int → Sys → Option Sys) (count : Int → Sys → Sys)
    (absmu : mumc) (profile : cap_profile) (cap : inp_file) (last : Int) (d : Driver)
    (hpc : d.pc = Pc.atCapil)
    (hhit : (capilScanned profile cap d.sys.cs).1.iesc = 0)
    (hcalf : ¬ |(capilScanned profile cap d.sys.cs).2.calf| > 1.0)
    (habs : (reflect (capilAlf (capilScanned profile cap d.sys.cs).2.calf) cap absmu profile
      (d.sys.leaks, capilMoved cap (capilScanned profile cap d.sys.cs).1
        (capilScanned profile cap d.sys.cs).2)).1 = -2) :
    (∀ (alf : ℝ) (s : leakstruct × calcstruct),
      ((reflect alf cap absmu profile s).1 = -2 ↔
          (reflect alf cap absmu profile s).2.2.w 0 < 1e-4) ∧
        ((reflect alf cap absmu profile s).1 = -2 ∨ (reflect alf cap absmu profile s).1 = 0)) ∧
    (capil absmu profile cap (d.sys.leaks, d.sys.cs)).2.iesc = -2 ∧
    ∃ d' : Driver, driverStep start count absmu profile cap last d = some d' ∧
      d'.pc = Pc.atStart ∧ d'.icount = d.icount ∧ d'.sum_refl = d.sum_refl ∧
      d'.sys.cs.iesc = -2 ∧
      driverStep start count absmu profile cap last d'
        = (start d.icount d'.sys).map (fun sys => { d' with pc := Pc.atCapil, sys := sys }) := by
  have capil_absorbed_iff := capil_lemmas.2.2.1
  have reflect_code := reflect_lemmas.2.2
  have hcapil : (capil absmu profile cap (d.sys.leaks, d.sys.cs)).2.iesc = -2 :=
    (capil_absorbed_iff absmu profile cap (d.sys.leaks, d.sys.cs)).2 ⟨hhit, hcalf, habs⟩
  refine ⟨fun alf s => reflect_code alf cap absmu profile s, hcapil,
    driverCapil absmu profile cap d, ?_, ?_⟩
  · unfold driverStep
    rw [hpc]
  · have hd : driverCapil absmu profile cap d
        = ⟨Pc.atStart, d.icount, d.sum_refl,
            ⟨(capil absmu profile cap (d.sys.leaks, d.sys.cs)).1, d.sys.imstr,
              (capil absmu profile cap (d.sys.leaks, d.sys.cs)).2⟩⟩ := by
      unfold driverCapil
      simp only [hcapil]
      simp
    rw [hd]
    refine ⟨rfl, rfl, rfl, hcapil, ?_⟩
    unfold driverStep
    simp only
    cases start d.icount _ <;> rfl

/-- The worker `exDriver`, whose photon meets a transparent wall, calls `start` again. -/
theorem absorbed_photon_is_replaced_witness :
    ∃ d' : Driver,
      driverStep (fun _ sys => some sys) (fun _ sys => sys) (exAbsmu 0) exProfile (exCap 0) 0
          exDriver = some d' ∧
      d'.pc = Pc.atStart ∧ d'.icount = exDriver.icount ∧ d'.sum_refl = exDriver.sum_refl ∧
      d'.sys.cs.iesc = -2 ∧
      driverStep (fun _ sys => some sys) (fun _ sys => sys) (exAbsmu 0) exProfile (exCap 0) 0 d'
        = ((fun _ sys => some sys) exDriver.icount d'.sys).map
            (fun sys => { d' with pc := Pc.atCapil, sys := sys }) := by
  have exScanned := example_evals.2.2.1
  have exVoid_reflect_code := example_evals.2.2.2.2.2.1
  have hsc : capilScanned exProfile (exCap 0) exDriver.sys.cs
      = (exCalc, { rh1 := ⟨1, 0, 4 / 3⟩, rn := ⟨1, 0, 0⟩, calf := 3 / 5 }) := exScanned 0
  exact (absorbed_photon_is_replaced (fun _ sys => some sys) (fun _ sys => sys) (exAbsmu 0)
    exProfile (exCap 0) 0 exDriver rfl (by rw [hsc]; rfl)
    (by rw [hsc]; norm_num [abs_of_pos])
    (by rw [hsc]; exact exVoid_reflect_code 0)).2.2

/-! ## Properties of `count` -/

/-- C13: for every photon whose exit point is inside the housing, `count` adds
`w[i]` to `cnt[i]` for every energy bin `i` in `0..n_energy`; with
`ind = floor(coordinate/binsize) + NSPOT/2` for the position projected to the
screen, exactly the bin `spot[ind_x][ind_y]` grows by `w[0]` when both indexes
are in `0..NSPOT-1`, and no bin of `spot` changes otherwise; `lspot` and `leak`
are not changed by `count`, whether the photon is inside or not. -/
theorem count_detects (absmu : mumc) (cap : inp_file) (icount : Int) (profile : cap_profile)
    (sys : Sys) (hin : ¬ countOutside cap profile sys.cs) :
    (∀ i : Int, 0 ≤ i → i ≤ absmu.n_energy →
      (count absmu cap icount profile sys).cs.cnt i = sys.cs.cnt i + sys.cs.w i) ∧
    countIndX cap profile sys.cs
      = Int.floor ((sys.cs.rh.x + (cap.d_screen - sys.cs.rh.z) / sys.cs.v.z * sys.cs.v.x)
          / profile.binsize) + 500 ∧
    countIndY cap profile sys.cs
      = Int.floor ((sys.cs.rh.y + (cap.d_screen - sys.cs.rh.z) / sys.cs.v.z * sys.cs.v.y)
          / profile.binsize) + 500 ∧
    ((0 ≤ countIndX cap profile sys.cs ∧ countIndX cap profile sys.cs < NSPOT ∧
        0 ≤ countIndY cap profile sys.cs ∧ countIndY cap profile sys.cs < NSPOT) →
      (count absmu cap icount profile sys).leaks.spot (countIndX cap profile sys.cs)
          (countIndY cap profile sys.cs)
        = sys.leaks.spot (countIndX cap profile sys.cs) (countIndY cap profile sys.cs)
          + sys.cs.w 0 ∧
      ∀ a b : Int, (a ≠ countIndX cap profile sys.cs ∨ b ≠ countIndY cap profile sys.cs) →
        (count absmu cap icount profile sys).leaks.spot a b = sys.leaks.spot a b) ∧
    (¬ (0 ≤ countIndX cap profile sys.cs ∧ countIndX cap profile sys.cs < NSPOT ∧
        0 ≤ countIndY cap profile sys.cs ∧ countIndY cap profile sys.cs < NSPOT) →
      (count absmu cap icount profile sys).leaks.spot = sys.leaks.spot) ∧
    (∀ (ic : Int) (t : Sys), (count absmu cap ic profile t).leaks.lspot = t.leaks.lspot ∧
      (count absmu cap ic profile t).leaks.leak = t.leaks.leak) := by
  have count_inside := count_lemmas.1
  have count_outside := count_lemmas.2.2
  obtain ⟨hcnt, -, hspot, -, -⟩ := count_inside absmu cap icount profile sys hin
  refine ⟨fun i h0 h1 => ?_, rfl, rfl, fun hr => ?_, fun hr => ?_, fun ic t => ?_⟩
  · rw [hcnt]
    simp only
    rw [if_pos ⟨h0, h1⟩]
  · rw [hspot]
    unfold countSpot
    rw [if_pos ⟨hr.2.1, hr.1⟩, if_pos ⟨hr.2.2.2, hr.2.2.1⟩]
    refine ⟨by simp, fun a b hab => ?_⟩
    by_cases ha : a = countIndX cap profile sys.cs
    · subst ha
      rcases hab with h | h
      · exact absurd rfl h
      · simp [Function.update_noteq h]
    · rw [Function.update_noteq ha]
  · rw [hspot]
    unfold countSpot
    by_cases hx : countIndX cap profile sys.cs < NSPOT ∧ countIndX cap profile sys.cs ≥ 0
    · rw [if_pos hx]
      have hy : ¬ (countIndY cap profile sys.cs < NSPOT ∧ countIndY cap profile sys.cs ≥ 0) :=
        fun hy => hr ⟨hx.2, hx.1, hy.2, hy.1⟩
      rw [if_neg hy]
    · rw [if_neg hx]
  · by_cases ho : countOutside cap profile t.cs
    · rw [count_outside absmu cap ic profile t ho]
      exact ⟨rfl, rfl⟩
    · obtain ⟨-, -, -, h1, h2⟩ := count_inside absmu cap ic profile t ho
      exact ⟨h1, h2⟩

/-- C12: with `(x, y)` the position extrapolated to the exit plane and
`h = sqrt(rtot2^2 - (rtot2/2)^2)`, the test of `count` holds exactly when one
of `|y|`, `|cos(pi/6)*x + sin(pi/6)*y|`, `|cos(pi/6)*x - sin(pi/6)*y|` exceeds
`h`; when it holds `count` sets `iesc = -3` and changes nothing else (`cnt`,
`spot`, `traj_length` and the image samples are as before), and the driver loop
calls `start` again for the same index; when it does not hold `count` leaves
`iesc` as it was, so after `count` `iesc = -3` exactly when the test held,
provided `iesc` was not -3 before. -/
theorem count_housing_escape (absmu : mumc) (cap : inp_file) (icount : Int)
    (profile : cap_profile) (sys : Sys) :
    (countOutside cap profile sys.cs ↔
      (|sys.cs.rh.y + ((cap.d_source + profile.cl) - sys.cs.rh.z) / sys.cs.v.z * sys.cs.v.y|
          > Real.sqrt (profile.rtot2 ^ 2 - (profile.rtot2 / 2) ^ 2) ∨
       |Real.cos (Real.pi / 6)
            * (sys.cs.rh.x + ((cap.d_source + profile.cl) - sys.cs.rh.z) / sys.cs.v.z * sys.cs.v.x)
          + Real.sin (Real.pi / 6)
            * (sys.cs.rh.y + ((cap.d_source + profile.cl) - sys.cs.rh.z) / sys.cs.v.z * sys.cs.v.y)|
          > Real.sqrt (profile.rtot2 ^ 2 - (profile.rtot2 / 2) ^ 2) ∨
       |Real.cos (Real.pi / 6)
            * (sys.cs.rh.x + ((cap.d_source + profile.cl) - sys.cs.rh.z) / sys.cs.v.z * sys.cs.v.x)
          - Real.sin (Real.pi / 6)
            * (sys.cs.rh.y + ((cap.d_source + profile.cl) - sys.cs.rh.z) / sys.cs.v.z * sys.cs.v.y)|
          > Real.sqrt (profile.rtot2 ^ 2 - (profile.rtot2 / 2) ^ 2))) ∧
    (countOutside cap profile sys.cs →
      (count absmu cap icount profile sys).cs.iesc = -3 ∧
      (count absmu cap icount profile sys).cs.cnt = sys.cs.cnt ∧
      (count absmu cap icount profile sys).leaks.spot = sys.leaks.spot ∧
      (count absmu cap icount profile sys).cs.traj_length = sys.cs.traj_length ∧
      (count absmu cap icount profile sys).imstr = sys.imstr ∧
      ∀ (start : Int → Sys → Option Sys) (last sum : Int),
        driverStep start (fun ic t => count absmu cap ic profile t) absmu profile cap last
            ⟨Pc.atCount, icount, sum, sys⟩
          = some ⟨Pc.atStart, icount, sum, count absmu cap icount profile sys⟩) ∧
    (¬ countOutside cap profile sys.cs →
      (count absmu cap icount profile sys).cs.iesc = sys.cs.iesc) ∧
    (sys.cs.iesc ≠ -3 →
      ((count absmu cap icount profile sys).cs.iesc = -3 ↔ countOutside cap profile sys.cs)) := by
  have count_inside := count_lemmas.1
  have count_outside := count_lemmas.2.2
  refine ⟨?_, fun hout => ?_, fun hin => (count_inside absmu cap icount profile sys hin).2.1,
    fun hne => ?_⟩
  · unfold countOutside countDp1 countDp2 countDp3 countHexEdge countXpend countYpend
    have h1 : Real.cos (-1 * Real.pi / 6) = Real.cos (Real.pi / 6) := by
      rw [show -1 * Real.pi / 6 = -(Real.pi / 6) by ring, Real.cos_neg]
    have h2 : Real.sin (-1 * Real.pi / 6) = -Real.sin (Real.pi / 6) := by
      rw [show -1 * Real.pi / 6 = -(Real.pi / 6) by ring, Real.sin_neg]
    rw [h1, h2]
    simp only [zero_mul, one_mul, zero_add, neg_mul, ← sub_eq_add_neg, pow_two]
  · rw [count_outside absmu cap icount profile sys hout]
    refine ⟨rfl, rfl, rfl, rfl, rfl, fun start last sum => ?_⟩
    unfold driverStep
    simp only
    rw [count_outside absmu cap icount profile sys hout]
    simp
  · constructor
    · intro h
      by_contra hin
      rw [(count_inside absmu cap icount profile sys hin).2.1] at h
      exact hne h
    · intro hout
      rw [count_outside absmu cap icount profile sys hout]

/-- The photon `exAxis` leaves the exit inside the housing: its weight 1 is
added to `cnt[0]`. -/
theorem count_detects_witness :
    ¬ countOutside (exCap 0) exProfile (exSys exAxis).cs ∧
    (count (exAbsmu 0) (exCap 0) 0 exProfile (exSys exAxis)).cs.cnt 0
      = (exSys exAxis).cs.cnt 0 + (exSys exAxis).cs.w 0 := by
  have exAxis_inside := example_evals.2.2.2.2.2.2.1
  exact ⟨exAxis_inside,
    (count_detects (exAbsmu 0) (exCap 0) 0 exProfile (exSys exAxis) exAxis_inside).1 0 le_rfl
      (by simp [exAbsmu])⟩

/-- The photon `exFar` is outside the housing: `count` sets `iesc = -3` and the
worker calls `start` again for the same index. -/
theorem count_housing_escape_witness :
    (count (exAbsmu 0) (exCap 0) 0 exProfile (exSys exFar)).cs.iesc = -3 ∧
    (count (exAbsmu 0) (exCap 0) 0 exProfile (exSys exFar)).cs.cnt = (exSys exFar).cs.cnt ∧
    polycapStep 1 (exAbsmu 0) exProfile exIni (exCap 0) ⟨Pc.atCount, 0, 0, exSys exFar⟩
      = some ⟨Pc.atStart, 0, 0, count (exAbsmu 0) (exCap 0) 0 exProfile (exSys exFar)⟩ := by
  have exFar_outside := example_evals.2.2.2.2.2.2.2.1
  obtain ⟨h1, h2, -, -, -, h3⟩ :=
    (count_housing_escape (exAbsmu 0) (exCap 0) 0 exProfile (exSys exFar)).2.1 exFar_outside
  exact ⟨h1, h2, h3 _ _ _⟩

/-! ## A photon that misses every remaining segment -/

/-- C11, counterexample: the photon `exAxis` flies parallel to the axis of the
only segment; `capil` finds no hit and leaves `iesc = 1`.  The next program
point of the driver is the call of `count`, `count` finds the photon inside
the housing, adds its weight 1 to `cnt[0]`, and the loop goes on to the update
of `sum_refl`: the history ends as detected, `start` is not called again. -/
theorem missed_photon_is_counted :
    (capil (exAbsmu 0) exProfile (exCap 0) (exLeaks, exAxis)).2.iesc = 1 ∧
    polycapStep 1 (exAbsmu 0) exProfile exIni (exCap 0) ⟨Pc.atCapil, 0, 0, exSys exAxis⟩
      = some ⟨Pc.atCount, 0, 0, exSys { exAxis with iesc := 1 }⟩ ∧
    (count (exAbsmu 0) (exCap 0) 0 exProfile (exSys { exAxis with iesc := 1 })).cs.cnt 0
      = (exSys exAxis).cs.cnt 0 + 1 ∧
    polycapStep 1 (exAbsmu 0) exProfile exIni (exCap 0)
        ⟨Pc.atCount, 0, 0, exSys { exAxis with iesc := 1 }⟩
      = some ⟨Pc.atSum, 0, 0,
          count (exAbsmu 0) (exCap 0) 0 exProfile (exSys { exAxis with iesc := 1 })⟩ := by
  have exAxis_inside := example_evals.2.2.2.2.2.2.1
  have exAxisScanned := example_evals.2.2.2.2.2.2.2.2.1
  have count_inside := count_lemmas.1
  have count_inside_cnt := count_lemmas.2.1
  have capil_miss := capil_lemmas.2.2.2.2.2.1
  have hmiss : (capilScanned exProfile (exCap 0) (exLeaks, exAxis).2).1.iesc ≠ 0 := by
    rw [exAxisScanned]; norm_num
  have hcapil : capil (exAbsmu 0) exProfile (exCap 0) (exLeaks, exAxis)
      = (exLeaks, { exAxis with iesc := 1 }) := by
    rw [capil_miss _ _ _ _ hmiss, exAxisScanned]
  have hin : ¬ countOutside (exCap 0) exProfile (exSys { exAxis with iesc := 1 }).cs :=
    exAxis_inside
  refine ⟨by rw [hcapil], ?_, ?_, ?_⟩
  · unfold polycapStep driverStep driverCapil
    simp only
    have h : capil (exAbsmu 0) exProfile (exCap 0) ((exSys exAxis).leaks, (exSys exAxis).cs)
        = (exLeaks, { exAxis with iesc := 1 }) := hcapil
    rw [h]
    simp [exSys]
  · rw [count_inside_cnt (exAbsmu 0) (exCap 0) 0 exProfile _ hin 0 le_rfl (by simp [exAbsmu])]
    rfl
  · unfold polycapStep driverStep
    simp only
    rw [(count_inside (exAbsmu 0) (exCap 0) 0 exProfile _ hin).2.1]
    simp [exSys]

/-- C11, amended: whenever `capil` exhausts all remaining segments without a
hit it leaves `iesc = 1`, and the driver loop then calls `count` for this
photon, for the same index and with `sum_refl` unchanged.  `start` is called
again only when `count` finds the exit point outside the housing; otherwise
`count` adds the weights `w[i]` to `cnt[i]` for every bin `i` in `0..n_energy`
and the loop goes on to the update of `sum_refl`. -/
theorem missed_photon_goes_to_count (start : Int → Sys → Option Sys) (absmu : mumc)
    (profile : cap_profile) (cap : inp_file) (last : Int) (d : Driver)
    (hpc : d.pc = Pc.atCapil)
    (hmiss : (capilScanned profile cap d.sys.cs).1.iesc ≠ 0) :
    (capil absmu profile cap (d.sys.leaks, d.sys.cs)).2.iesc = 1 ∧
    driverStep start (fun ic t => count absmu cap ic profile t) absmu profile cap last d
      = some ⟨Pc.atCount, d.icount, d.sum_refl,
          ⟨d.sys.leaks, d.sys.imstr, { (capilScanned profile cap d.sys.cs).1 with iesc := 1 }⟩⟩ ∧
    driverStep start (fun ic t => count absmu cap ic profile t) absmu profile cap last
        ⟨Pc.atCount, d.icount, d.sum_refl,
          ⟨d.sys.leaks, d.sys.imstr, { (capilScanned profile cap d.sys.cs).1 with iesc := 1 }⟩⟩
      = some ⟨if countOutside cap profile (capilScanned profile cap d.sys.cs).1
            then Pc.atStart else Pc.atSum,
          d.icount, d.sum_refl,
          count absmu cap d.icount profile
            ⟨d.sys.leaks, d.sys.imstr,
              { (capilScanned profile cap d.sys.cs).1 with iesc := 1 }⟩⟩ ∧
    (¬ countOutside cap profile (capilScanned profile cap d.sys.cs).1 →
      ∀ i : Int, 0 ≤ i → i ≤ absmu.n_energy →
        (count absmu cap d.icount profile
            ⟨d.sys.leaks, d.sys.imstr,
              { (capilScanned profile cap d.sys.cs).1 with iesc := 1 }⟩).cs.cnt i
          = (capilScanned profile cap d.sys.cs).1.cnt i
            + (capilScanned profile cap d.sys.cs).1.w i) := by
  have count_inside := count_lemmas.1
  have count_inside_cnt := count_lemmas.2.1
  have count_outside := count_lemmas.2.2
  have capil_miss := capil_lemmas.2.2.2.2.2.1
  have hcapil := capil_miss absmu profile cap (d.sys.leaks, d.sys.cs) hmiss
  have hgeo : countOutside cap profile
        (⟨d.sys.leaks, d.sys.imstr,
          { (capilScanned profile cap d.sys.cs).1 with iesc := 1 }⟩ : Sys).cs
      ↔ countOutside cap profile (capilScanned profile cap d.sys.cs).1 := Iff.rfl
  refine ⟨by rw [hcapil], ?_, ?_, fun hin i h0 h1 => ?_⟩
  · unfold driverStep driverCapil
    rw [hpc]
    simp only
    rw [hcapil]
    simp
  · unfold driverStep
    simp only
    by_cases hout : countOutside cap profile (capilScanned profile cap d.sys.cs).1
    · rw [if_pos hout, count_outside absmu cap d.icount profile
        ⟨d.sys.leaks, d.sys.imstr, { (capilScanned profile cap d.sys.cs).1 with iesc := 1 }⟩
        (hgeo.2 hout)]
      simp
    · rw [if_neg hout, (count_inside absmu cap d.icount profile
        ⟨d.sys.leaks, d.sys.imstr, { (capilScanned profile cap d.sys.cs).1 with iesc := 1 }⟩
        (fun h => hout (hgeo.1 h))).2.1]
      simp
  · exact count_inside_cnt absmu cap d.icount profile
      ⟨d.sys.leaks, d.sys.imstr, { (capilScanned profile cap d.sys.cs).1 with iesc := 1 }⟩
      (fun h => hin (hgeo.1 h)) i h0 h1

/-- The worker whose photon is `exAxis` goes from `capil` to `count`. -/
theorem missed_photon_goes_to_count_witness :
    driverStep (start 1 (exAbsmu 0) exProfile exIni (exCap 0))
        (fun ic t => count (exAbsmu 0) (exCap 0) ic exProfile t) (exAbsmu 0) exProfile (exCap 0) 0
        ⟨Pc.atCapil, 0, 0, exSys exAxis⟩
      = some ⟨Pc.atCount, 0, 0,
          ⟨exLeaks, (exSys exAxis).imstr,
            { (capilScanned exProfile (exCap 0) exAxis).1 with iesc := 1 }⟩⟩ :=
  (missed_photon_goes_to_count (start 1 (exAbsmu 0) exProfile exIni (exCap 0)) (exAbsmu 0)
    exProfile (exCap 0) 0 ⟨Pc.atCapil, 0, 0, exSys exAxis⟩ rfl
    (by show (capilScanned exProfile (exCap 0) exAxis).1.iesc ≠ 0
        rw [example_evals.2.2.2.2.2.2.2.2.1]; norm_num)).2.1

/-! ## The photon budget -/

/-- C17, the code at `ndet = 1`: when the history of index 0 is complete the
loop goes on to index 1, and only after the history of index 1 does it end, at
`icount = 2`: two histories are run and their reflections summed, while the
average divides the sum by `ndet = 1`.  In general the loop leaves index `k`
for index `k + 1` as long as `k + 1 <= ndet`, so it runs the `ndet + 1` indexes
`0..ndet`. -/
theorem photon_budget_off_by_one (fuel : ℕ) (absmu : mumc) (profile : cap_profile)
    (pcap_ini : struct_ini_polycap) (sys0 sys1 : Sys) :
    polycapStep fuel absmu profile pcap_ini (exCapDet 1) ⟨Pc.atSum, 0, 0, sys0⟩
      = some ⟨Pc.atStart, 1, 0 + sys0.cs.i_refl, sys0⟩ ∧
    polycapStep fuel absmu profile pcap_ini (exCapDet 1)
        ⟨Pc.atSum, 1, 0 + sys0.cs.i_refl, sys1⟩
      = some ⟨Pc.atFinished, 2, 0 + sys0.cs.i_refl + sys1.cs.i_refl, sys1⟩ ∧
    ave_refl (0 + sys0.cs.i_refl + sys1.cs.i_refl) (exCapDet 1).ndet
      = ((sys0.cs.i_refl + sys1.cs.i_refl : Int) : ℝ) ∧
    (∀ (cap : inp_file) (k sum : Int) (sys : Sys),
      polycapStep fuel absmu profile pcap_ini cap ⟨Pc.atSum, k, sum, sys⟩
        = some ⟨if k + 1 ≤ cap.ndet then Pc.atStart else Pc.atFinished, k + 1,
            sum + sys.cs.i_refl, sys⟩) := by
  have driverStep_atSum := setup_lemmas.1
  refine ⟨?_, ?_, ?_, fun cap k sum sys => ?_⟩
  · unfold polycapStep
    rw [driverStep_atSum]
    rfl
  · unfold polycapStep
    rw [driverStep_atSum]
    rfl
  · unfold ave_refl
    simp [exCapDet, exCap]
  · unfold polycapStep
    rw [driverStep_atSum]

/-! ## Properties of `ini_polycap` -/

/-- C16, the code at `n_chan = 4`: `ini_polycap` does not print the message and
returns a geometry, with shell count `sqrt(45)/6 - 0.5 > 0`.  The branch that
rejects is taken exactly when `n_chan <= 1`. -/
theorem ini_polycap_accepts_four (profile : cap_profile) :
    (∃ g : struct_ini_polycap, ini_polycap (exCapChan 4) profile = some g ∧
      g.n_chan_max = Real.sqrt 45 / 6 - 0.5 ∧ 0 < g.n_chan_max) ∧
    (∀ cap : inp_file, ini_polycap cap profile = none ↔ cap.n_chan ≤ 1) := by
  have ini_polycap_none_iff := setup_lemmas.2.1
  refine ⟨?_, fun cap => ini_polycap_none_iff cap profile⟩
  have hn : (exCapChan 4).n_chan = 4 := rfl
  have hpos : 0 < Real.sqrt 45 / 6 - 0.5 := by
    have : (3 : ℝ) < Real.sqrt 45 := by
      rw [Real.lt_sqrt (by norm_num)]; norm_num
    norm_num
    linarith
  have harg : (12 * (4 : ℝ) - 3) = 45 := by norm_num
  unfold ini_polycap
  simp only [hn, harg]
  rw [if_neg (not_le.mpr hpos)]
  exact ⟨_, rfl, rfl, hpos⟩

/-! ## Properties of `def_cap_profile` -/

/-- C18, the code: for each of the three shapes the profile has `nmax = 999`
and `cl = length`, the last sample written is the one of index 998, with
`z[998] = length/999*998`, and the sample of index `nmax = 999` is what
`malloc` returned: no loop of `def_cap_profile` assigns it. -/
theorem def_cap_profile_last_sample (polynomialfit : List ℝ → List ℝ → Vec3)
    (junk : cap_profile) (shape : Fin 3) (length : ℝ) (rad_ext rad_int focal_dist : Vec2) :
    (def_cap_profile polynomialfit junk shape.val length rad_ext rad_int focal_dist).nmax = 999 ∧
    (def_cap_profile polynomialfit junk shape.val length rad_ext rad_int focal_dist).cl
      = length ∧
    (def_cap_profile polynomialfit junk shape.val length rad_ext rad_int focal_dist).arr 999
      = junk.arr 999 ∧
    ((def_cap_profile polynomialfit junk shape.val length rad_ext rad_int focal_dist).arr
      998).zarr = length / 999 * 998 := by
  have profFill_outside := setup_lemmas.2.2.2.1
  have profFill_zarr := setup_lemmas.2.2.2.2.1
  have hout : ¬ ((0 : Int) ≤ 999 ∧ (999 : Int) ≤ 999 - 1) := by omega
  have hin : (0 : Int) ≤ 998 ∧ (998 : Int) ≤ 999 - 1 := by omega
  have hz : ∀ (d : Int → ℝ → ℝ),
      (profFill 999 length rad_int d junk.arr 998).zarr = length / 999 * 998 := by
    intro d
    have := profFill_zarr 999 length rad_int d junk.arr 998 hin
    push_cast at this
    exact this
  fin_cases shape
  · unfold def_cap_profile
    simp only [Fin.val_zero, true_or, if_true, Fin.zero_eta]
    exact ⟨by first | rfl | trivial, by first | rfl | trivial,
      profFill_outside 999 length rad_int _ junk.arr 999 hout, hz _⟩
  · unfold def_cap_profile
    simp only [Fin.mk_one, Fin.val_one, one_ne_zero, OfNat.one_ne_ofNat, or_false, false_or,
      if_true, if_false]
    exact ⟨by first | rfl | trivial, by first | rfl | trivial,
      profFill_outside 999 length rad_int _ junk.arr 999 hout, hz _⟩
  · unfold def_cap_profile
    by_cases hlt : rad_ext.y < rad_ext.x
    · simp -zeta only [Fin.reduceFinMk, Fin.val_two, OfNat.ofNat_ne_zero, OfNat.ofNat_ne_one,
        or_true, false_or, if_true, if_false, hlt]
      refine ⟨trivial, trivial, ?_, ?_⟩
      · exact profFill_outside 999 length rad_int _ junk.arr 999 hout
      · exact hz _
    · simp -zeta only [Fin.reduceFinMk, Fin.val_two, OfNat.ofNat_ne_zero, OfNat.ofNat_ne_one,
        or_true, false_or, if_true, if_false, hlt]
      refine ⟨trivial, trivial, ?_, ?_⟩
      · refine (forLoop_outside _ _ 0 _ 999
          (fun h => hout ((forUpTo_range 0 (999 - 1) 999).1 h))).trans ?_
        exact forLoop_outside
          (fun i (a : Int → cap_prof_arrays) => profRow 999 length rad_int i (a i)) _ 0
          junk.arr 999 (fun h => hout ((forUpTo_range 0 (999 - 1) 999).1 h))
      · refine (forLoop_field cap_prof_arrays.zarr _ ?_ _ 0 _ 998).trans ?_
        · intro i a
          rfl
        have h := forLoop_update
          (fun i (row : cap_prof_arrays) => profRow 999 length rad_int i row)
          ((999 : Int) - 1 + 1 - 0).toNat 0 junk.arr 998
        rw [if_pos ((forUpTo_range 0 (999 - 1) 998).2 hin)] at h
        refine (congrArg cap_prof_arrays.zarr h).trans ?_
        show length / ((999 : Int) : ℝ) * ((998 : Int) : ℝ) = _
        push_cast
        rfl

/-! ## The bounds of the leak spectrum -/

/-- C20, the code on a one-segment profile (`nmax = 1`) with three energy bins
(`n_energy = 2`): `reset_leak` allocates 2 entries and sets the entries 0 and
1 to zero, the entry of index 2 is whatever lies behind the array; `reflect`
reads entry 2 and writes it back increased by the leaked weight, here 1. -/
theorem leak_index_out_of_bounds (junk : leakstruct) :
    leakAllocated exProfile = 2 ∧ exAbsmuWide.n_energy = 2 ∧
    (reset_leak junk exProfile exAbsmuWide).1.leak 0 = 0 ∧
    (reset_leak junk exProfile exAbsmuWide).1.leak 1 = 0 ∧
    (reset_leak junk exProfile exAbsmuWide).1.leak 2 = junk.leak 2 ∧
    (reflect 1 (exCap 0) exAbsmuWide exProfile
        ((reset_leak junk exProfile exAbsmuWide).1, exCalc)).2.1.leak 2
      = junk.leak 2 + 1 := by
  have exAbsmuWide_rtot := example_evals.2.2.2.2.2.2.2.2.2.1
  have reset_leak_outside := setup_lemmas.2.2.2.2.2.1
  have reset_leak_inside := setup_lemmas.2.2.2.2.2.2.1
  have reflect_bin := reflect_lemmas.1
  have reflWleak_eq := fresnel_lemmas.2.2.1
  have hn : exProfile.nmax = 1 := rfl
  have h2 : (reset_leak junk exProfile exAbsmuWide).1.leak 2 = junk.leak 2 :=
    reset_leak_outside junk exProfile exAbsmuWide 2 (by rw [hn]; omega)
  refine ⟨rfl, rfl, ?_, ?_, h2, ?_⟩
  · exact reset_leak_inside junk exProfile exAbsmuWide 0 (by rw [hn]; omega)
  · exact reset_leak_inside junk exProfile exAbsmuWide 1 (by rw [hn]; omega)
  · have hb := (reflect_bin 1 (exCap 0) exAbsmuWide exProfile
      ((reset_leak junk exProfile exAbsmuWide).1, exCalc) 2 (by omega)
      (by show (2 : Int) ≤ 2; omega)).2
    rw [hb, reflWleak_eq, exAbsmuWide_rtot]
    show (reset_leak junk exProfile exAbsmuWide).1.leak 2 + _ = _
    rw [h2]
    have hw : exCalc.w 2 = 1 := rfl
    have ha : (exAbsmuWide.arr 2).amu = 0 := rfl
    rw [hw, ha]
    simp

/-! ## Properties of `start` -/

/-- C14, the code on a profile whose entrance radius is `2e9`, the value `dx`
is set to before the `while` loop: whatever the fuel and the random stream,
`start` returns without one iteration of the loop.  The photon stays at
`z = 0` although the entrance plane is at `d_source = 1`, `istart` keeps its
value 1 and `ienter` becomes 2, so `ienter > istart`. -/
theorem start_skips_generation (fuel : ℕ) (rn : ℕ → ℝ) :
    ∃ sys : Sys,
      start fuel (exAbsmu 0) exProfileWide exIni (exCapSource 1) 0
        (exSys { exCalc with rn := rn }) = some sys ∧
      (exCapSource 1).d_source = 1 ∧ sys.cs.rh = ⟨0, 0, 0⟩ ∧
      sys.cs.istart = 1 ∧ sys.cs.ienter = 2 := by
  have startLoop_skip := start_lemmas.1
  have startFinish_frame := start_lemmas.2.1
  have startEntered_init := start_lemmas.2.2.1
  obtain ⟨s0, he, hdx, hrh, hst, hen, -⟩ := startEntered_init fuel (exAbsmu 0) exProfileWide
    exIni (exCapSource 1) 0 (exSys { exCalc with rn := rn })
  have hp : (exProfileWide.arr 0).profil = 2e9 := by simp [exProfileWide]
  have hskip : ¬ s0.1.dx > (exProfileWide.arr 0).profil := by
    rw [hdx, hp]; exact lt_irrefl _
  obtain ⟨f1, f2, f3⟩ := startFinish_frame (exAbsmu 0) s0
  refine ⟨startFinish (exAbsmu 0) s0, ?_, rfl, ?_, ?_, ?_⟩
  · unfold start
    rw [he, startLoop_skip _ _ _ _ _ _ _ hskip]
    rfl
  · rw [f1, hrh]; rfl
  · rw [f2, hst]; rfl
  · rw [f3, hen]; rfl

/-! ## The segment index of `capil` -/

/-- C19, counterexample: a photon that has just been generated (`i_refl = 0`)
while `ix` still holds the index 1 of the segment in which the previous history
ended, in a profile with two segments: `capil` leaves `ix = 0`, below its value
before the call. -/
theorem capil_resets_stale_index :
    exStale.i_refl = 0 ∧ exStale.ix = 1 ∧ exStale.ix ≤ exProfileTwo.nmax - 1 ∧
    (capil (exAbsmu 0) exProfileTwo (exCap 0) (exLeaks, exStale)).2.ix = 0 ∧
    (capil (exAbsmu 0) exProfileTwo (exCap 0) (exLeaks, exStale)).2.ix < exStale.ix := by
  have capilScanned_eq := capil_lemmas.2.2.2.2.2.2.2.2.2.1
  have capil_ix := capil_lemmas.2.2.2.2.2.2.2.2.2.2.1
  have hargs : capilSegArgs exProfileTwo (exCap 0) { exStale with iesc := 0, ix := 0 }
      { rh1 := ⟨0, 0, 0⟩, rn := ⟨0, 0, 0⟩, calf := 0 } 1 = exCyl := by
    simp [capilSegArgs, exCyl, exProfileTwo, exCap, exStale, exCalc]
  have hp0 : (exProfileTwo.arr (1 - 1)).profil = 1 := by simp [exProfileTwo]
  have hp1 : (exProfileTwo.arr 1).profil = 1 := by simp [exProfileTwo]
  have hix0 : capilIx0 exStale = 0 := by simp [capilIx0, exStale, exCalc]
  have hcnt : (exProfileTwo.nmax + 1 - ((0 : Int) + 1)).toNat = 1 + 1 := by
    simp [exProfileTwo]
  have hix : (capil (exAbsmu 0) exProfileTwo (exCap 0) (exLeaks, exStale)).2.ix = 0 := by
    rw [capil_ix, capilScanned_eq]
    show (capilScan exProfileTwo (exCap 0)
      (exProfileTwo.nmax + 1 - (capilIx0 exStale + 1)).toNat (capilIx0 exStale + 1)
      ({ exStale with iesc := 0, ix := capilIx0 exStale },
        { rh1 := ⟨0, 0, 0⟩, rn := ⟨0, 0, 0⟩, calf := 0 })).1.ix = 0
    rw [hix0, hcnt]
    unfold capilScan
    simp only [zero_add, hargs, hp0, hp1, exCyl_eval.2.2.2.2.2.2, if_true]
    norm_num
  refine ⟨rfl, rfl, ?_, hix, ?_⟩
  · show (1 : Int) ≤ 2 - 1
    norm_num
  · rw [hix]
    show (0 : Int) < 1
    norm_num

/-- C19, amended: let `ix0` be 0 when `i_refl = 0` and the stored `ix`
otherwise, and let `0 <= ix0 <= nmax - 1`.  After `capil` the index `ix` is at
least `ix0` and lies in `0..nmax-1`.  Either no segment `j` with
`ix0 + 1 <= j <= nmax` reports a hit, `ix = ix0` and the return code is 1; or
the segment `ix + 1` reports a hit, no segment `j` with `ix0 + 1 <= j < ix + 1`
does, and the return code is not 1. -/
theorem capil_segment_index (absmu : mumc) (profile : cap_profile) (cap : inp_file)
    (s : leakstruct × calcstruct) (h0 : 0 ≤ capilIx0 s.2)
    (h1 : capilIx0 s.2 ≤ profile.nmax - 1) :
    capilIx0 s.2 ≤ (capil absmu profile cap s).2.ix ∧
    0 ≤ (capil absmu profile cap s).2.ix ∧
    (capil absmu profile cap s).2.ix ≤ profile.nmax - 1 ∧
    (((∀ j, capilIx0 s.2 + 1 ≤ j → j ≤ profile.nmax → ¬ capilHits profile cap s.2 j) ∧
        (capil absmu profile cap s).2.ix = capilIx0 s.2 ∧
        (capil absmu profile cap s).2.iesc = 1) ∨
      (capilHits profile cap s.2 ((capil absmu profile cap s).2.ix + 1) ∧
        (∀ j, capilIx0 s.2 + 1 ≤ j → j < (capil absmu profile cap s).2.ix + 1 →
          ¬ capilHits profile cap s.2 j) ∧
        (capil absmu profile cap s).2.iesc ≠ 1)) := by
  have capil_miss_iff := capil_lemmas.2.2.2.2.2.2.1
  have capilHits_congr := capil_lemmas.2.2.2.2.2.2.2.1
  have capilScan_ix := capil_lemmas.2.2.2.2.2.2.2.2.1
  have capilScanned_eq := capil_lemmas.2.2.2.2.2.2.2.2.2.1
  have capil_ix := capil_lemmas.2.2.2.2.2.2.2.2.2.2.1
  have hn : ((profile.nmax + 1 - (capilIx0 s.2 + 1)).toNat : Int)
      = profile.nmax + 1 - (capilIx0 s.2 + 1) := Int.toNat_of_nonneg (by omega)
  have hpos : 0 < (profile.nmax + 1 - (capilIx0 s.2 + 1)).toNat := by
    have : (0 : Int) < ((profile.nmax + 1 - (capilIx0 s.2 + 1)).toNat : Int) := by
      rw [hn]; omega
    exact_mod_cast this
  have hcongr : ∀ j, capilHits profile cap
      ({ s.2 with iesc := 0, ix := capilIx0 s.2 } : calcstruct) j
      ↔ capilHits profile cap s.2 j := fun j =>
    capilHits_congr profile cap s.2 _ j rfl rfl rfl rfl
  have hmiss := capil_miss_iff absmu profile cap s
  rw [capil_ix]
  rw [capilScanned_eq] at hmiss ⊢
  rcases capilScan_ix profile cap (profile.nmax + 1 - (capilIx0 s.2 + 1)).toNat
      (capilIx0 s.2 + 1)
      ({ s.2 with iesc := 0, ix := capilIx0 s.2 },
        { rh1 := ⟨0, 0, 0⟩, rn := ⟨0, 0, 0⟩, calf := 0 })
    with ⟨a1, a2, a3⟩ | ⟨k, b1, b2, b3, b4, b5, b6⟩
  · have hix : (capilScan profile cap (profile.nmax + 1 - (capilIx0 s.2 + 1)).toNat
        (capilIx0 s.2 + 1)
        ({ s.2 with iesc := 0, ix := capilIx0 s.2 },
          { rh1 := ⟨0, 0, 0⟩, rn := ⟨0, 0, 0⟩, calf := 0 })).1.ix = capilIx0 s.2 := a2
    rw [hix]
    refine ⟨le_refl _, h0, h1, Or.inl ⟨fun j hj1 hj2 => ?_, rfl, hmiss.2 (a3 (Or.inr hpos))⟩⟩
    exact fun h => a1 j hj1 (by rw [hn]; omega) ((hcongr j).2 h)
  · rw [hn] at b2
    rw [b5]
    have hk : k - 1 + 1 = k := by omega
    refine ⟨by omega, by omega, by omega, Or.inr ⟨?_, fun j hj1 hj2 => ?_, ?_⟩⟩
    · rw [hk]
      exact (hcongr k).1 b3
    · exact fun h => b4 j hj1 (by omega) ((hcongr j).2 h)
    · exact fun h => (hmiss.1 h) b6

theorem capil_segment_index_witness :
    (0 ≤ capilIx0 (exLeaks, exCalc).2 ∧ capilIx0 (exLeaks, exCalc).2 ≤ exProfile.nmax - 1) ∧
    capilIx0 (exLeaks, exCalc).2
      ≤ (capil (exAbsmu 0) exProfile (exCap 0) (exLeaks, exCalc)).2.ix ∧
    0 ≤ (capil (exAbsmu 0) exProfile (exCap 0) (exLeaks, exCalc)).2.ix ∧
    (capil (exAbsmu 0) exProfile (exCap 0) (exLeaks, exCalc)).2.ix ≤ exProfile.nmax - 1 := by
  have hix0 : capilIx0 (exLeaks, exCalc).2 = 0 := by simp [capilIx0, exCalc]
  have hn : exProfile.nmax = 1 := rfl
  have ha : 0 ≤ capilIx0 (exLeaks, exCalc).2 := by rw [hix0]
  have hb : capilIx0 (exLeaks, exCalc).2 ≤ exProfile.nmax - 1 := by rw [hix0, hn]; norm_num
  obtain ⟨c1, c2, c3, -⟩ :=
    capil_segment_index (exAbsmu 0) exProfile (exCap 0) (exLeaks, exCalc) ha hb
  exact ⟨⟨ha, hb⟩, c1, c2, c3⟩

/-! ## The channel selection of `start` -/

/-- C15, the code for one shell (`n_chan_max = 1`, the bundle of 7 channels):
the index pairs `(0, 0)` and `(1, -1)` are both accepted, the draws that give
`(0, 0)` fill a set of area `1/4` and the draws that give `(1, -1)` a set of
area `1/16`: the central channel is selected four times as often as the corner
channel. -/
theorem start_selection_not_uniform :
    startAccepted 1 0 0 ∧ startAccepted 1 1 (-1) ∧
    MeasureTheory.volume (startRegion 1 0 0) = ENNReal.ofReal (1 / 4) ∧
    MeasureTheory.volume (startRegion 1 1 (-1)) = ENNReal.ofReal (1 / 16) ∧
    MeasureTheory.volume (startRegion 1 1 (-1)) < MeasureTheory.volume (startRegion 1 0 0) := by
  have startRegion_centre := start_lemmas.2.2.2.2.1
  have startRegion_corner := start_lemmas.2.2.2.2.2
  have hc : MeasureTheory.volume (startRegion 1 0 0) = ENNReal.ofReal (1 / 4) := by
    rw [startRegion_centre, MeasureTheory.Measure.volume_eq_prod,
      MeasureTheory.Measure.prod_prod, Real.volume_Ico,
      ← ENNReal.ofReal_mul (by norm_num)]
    norm_num
  have hk : MeasureTheory.volume (startRegion 1 1 (-1)) = ENNReal.ofReal (1 / 16) := by
    rw [startRegion_corner, MeasureTheory.Measure.volume_eq_prod,
      MeasureTheory.Measure.prod_prod, Real.volume_Ico, Real.volume_Ico,
      ← ENNReal.ofReal_mul (by norm_num)]
    norm_num
  refine ⟨?_, ?_, hc, hk, ?_⟩
  · unfold startAccepted
    norm_num
  · unfold startAccepted
    norm_num
  · rw [hc, hk, ENNReal.ofReal_lt_ofReal_iff (by norm_num)]
    norm_num

/-! ## The divisors of `segment` -/

/-- C21, counterexample: for the ray `exParallel`, parallel to the axis of a
cylinder, `segment` passes the test on `v.ds` (`v.ds = 2`), finds `a0 = 0`,
takes the linear branch and divides by `b0 = 0`. -/
theorem segment_divides_by_zero :
    ("b0", (0 : ℝ)) ∈ segDivisors 1 1 exParallel ∧ ¬ EPSILON ≤ |(0 : ℝ)| := by
  have exParallel_coeff := example_evals.2.2.2.2.2.2.2.2.2.2.1
  obtain ⟨h1, h2, h3⟩ := exParallel_coeff
  have hE : (0 : ℝ) < EPSILON := by norm_num [EPSILON]
  constructor
  · unfold segDivisors
    rw [h1, h2, h3]
    have g1 : ¬ |(2 : ℝ)| < EPSILON := by norm_num [EPSILON]
    have g2 : |(0 : ℝ)| ≤ EPSILON := by rw [abs_zero]; exact hE.le
    rw [if_neg g1, if_pos g2]
    simp only
    split_ifs <;> simp
  · rw [abs_zero]
    exact not_le.mpr hE

/-- C21, amended: every division by `v.ds` that `segment` executes has a
divisor of magnitude at least `EPSILON`, every division by `2*a0` one of
magnitude above `2*EPSILON`, and every division by `ads` one of magnitude at
least `EPSILON` when `v` is at most of unit length.  The divisors `b0` and `au`
are not tested. -/
theorem segment_divisions_guarded (rad0 rad1 : ℝ) (m : SegArgs) (p : String × ℝ)
    (hp : p ∈ segDivisors rad0 rad1 m) :
    (p.1 = "vds" → EPSILON ≤ |p.2|) ∧ (p.1 = "2*a0" → 2 * EPSILON < |p.2|) ∧
    (p.1 = "ads" → scalar m.v m.v ≤ 1 → EPSILON ≤ |p.2|) ∧
    (p.1 = "vds" ∨ p.1 = "b0" ∨ p.1 = "2*a0" ∨ p.1 = "au" ∨ p.1 = "ads") := by
  have cauchy_schwarz3 := cosine_lemmas.1
  have hE : (0 : ℝ) < EPSILON := by norm_num [EPSILON]
  by_cases hv : |segVds m| < EPSILON
  · unfold segDivisors at hp
    rw [if_pos hv] at hp
    simp at hp
  have hvds : EPSILON ≤ |segVds m| := not_lt.mp hv
  have hads : scalar m.v m.v ≤ 1 → EPSILON ≤ |Real.sqrt (scalar (segDs m) (segDs m))| := by
    intro h1
    rw [abs_of_nonneg (Real.sqrt_nonneg _)]
    refine hvds.trans (Real.abs_le_sqrt ?_)
    have hcs := cauchy_schwarz3 m.v (segDs m)
    have hds : 0 ≤ scalar (segDs m) (segDs m) := by
      unfold scalar
      nlinarith [mul_self_nonneg (segDs m).x, mul_self_nonneg (segDs m).y,
        mul_self_nonneg (segDs m).z]
    have : scalar m.v m.v * scalar (segDs m) (segDs m) ≤ scalar (segDs m) (segDs m) :=
      mul_le_of_le_one_left hds h1
    unfold segVds
    linarith
  have hnorm : ∀ q ∈ segNormalDivisors rad0 rad1 m,
      (q.1 = "ads" ∧ q.2 = Real.sqrt (scalar (segDs m) (segDs m))) ∨ q.1 = "au" := by
    intro q hq
    unfold segNormalDivisors at hq
    simp only [List.mem_cons, List.mem_singleton, List.not_mem_nil, or_false] at hq
    rcases hq with h | h | h | h | h | h | h <;> rw [h] <;> simp
  have hvd : p = ("vds", segVds m) →
      (p.1 = "vds" → EPSILON ≤ |p.2|) ∧ (p.1 = "2*a0" → 2 * EPSILON < |p.2|) ∧
      (p.1 = "ads" → scalar m.v m.v ≤ 1 → EPSILON ≤ |p.2|) ∧
      (p.1 = "vds" ∨ p.1 = "b0" ∨ p.1 = "2*a0" ∨ p.1 = "au" ∨ p.1 = "ads") := by
    intro h
    rw [h]
    refine ⟨fun _ => hvds, fun h => ?_, fun h => ?_, Or.inl rfl⟩
    · simp at h
    · simp at h
  have hnd : p ∈ segNormalDivisors rad0 rad1 m →
      (p.1 = "vds" → EPSILON ≤ |p.2|) ∧ (p.1 = "2*a0" → 2 * EPSILON < |p.2|) ∧
      (p.1 = "ads" → scalar m.v m.v ≤ 1 → EPSILON ≤ |p.2|) ∧
      (p.1 = "vds" ∨ p.1 = "b0" ∨ p.1 = "2*a0" ∨ p.1 = "au" ∨ p.1 = "ads") := by
    intro h
    rcases hnorm p h with ⟨h1, h2⟩ | h1
    · refine ⟨fun h => ?_, fun h => ?_, fun _ hu => ?_, Or.inr (Or.inr (Or.inr (Or.inr h1)))⟩
      · rw [h1] at h; simp at h
      · rw [h1] at h; simp at h
      · rw [h2]; exact hads hu
    · refine ⟨fun h => ?_, fun h => ?_, fun h => ?_, Or.inr (Or.inr (Or.inr (Or.inl h1)))⟩
      · rw [h1] at h; simp at h
      · rw [h1] at h; simp at h
      · rw [h1] at h; simp at h
  have hb : p = ("b0", segB0 rad0 rad1 m) →
      (p.1 = "vds" → EPSILON ≤ |p.2|) ∧ (p.1 = "2*a0" → 2 * EPSILON < |p.2|) ∧
      (p.1 = "ads" → scalar m.v m.v ≤ 1 → EPSILON ≤ |p.2|) ∧
      (p.1 = "vds" ∨ p.1 = "b0" ∨ p.1 = "2*a0" ∨ p.1 = "au" ∨ p.1 = "ads") := by
    intro h
    rw [h]
    refine ⟨fun h => ?_, fun h => ?_, fun h => ?_, Or.inr (Or.inl rfl)⟩
    · simp at h
    · simp at h
    · simp at h
  unfold segDivisors at hp
  rw [if_neg hv] at hp
  simp only at hp
  by_cases ha : |segA0 rad0 rad1 m| ≤ EPSILON
  · rw [if_pos ha] at hp
    split_ifs at hp
    all_goals
      simp only [List.mem_append, List.mem_cons, List.mem_singleton, List.not_mem_nil,
        or_false] at hp
    · rcases hp with (h | h) | h
      · exact hvd h
      · exact hvd h
      · exact hb h
    · rcases hp with (h | h) | h
      · exact hvd h
      · exact hvd h
      · exact hb h
    · rcases hp with ((h | h) | h) | h
      · exact hvd h
      · exact hvd h
      · exact hb h
      · exact hnd h
  · have ha2 : 2 * EPSILON < |2 * segA0 rad0 rad1 m| := by
      rw [abs_mul, abs_of_pos (by norm_num : (0 : ℝ) < 2)]
      linarith [not_le.mp ha]
    have h2a : p = ("2*a0", 2 * segA0 rad0 rad1 m) →
        (p.1 = "vds" → EPSILON ≤ |p.2|) ∧ (p.1 = "2*a0" → 2 * EPSILON < |p.2|) ∧
        (p.1 = "ads" → scalar m.v m.v ≤ 1 → EPSILON ≤ |p.2|) ∧
        (p.1 = "vds" ∨ p.1 = "b0" ∨ p.1 = "2*a0" ∨ p.1 = "au" ∨ p.1 = "ads") := by
      intro h
      rw [h]
      refine ⟨fun h => ?_, fun _ => ha2, fun h => ?_, Or.inr (Or.inr (Or.inl rfl))⟩
      · simp at h
      · simp at h
    rw [if_neg ha] at hp
    split_ifs at hp
    all_goals
      simp only [List.mem_append, List.mem_cons, List.mem_singleton, List.not_mem_nil,
        or_false] at hp
    · rcases hp with h | h
      · exact hvd h
      · exact hvd h
    · rcases hp with (h | h) | h | h
      · exact hvd h
      · exact hvd h
      · exact h2a h
      · exact h2a h
    · rcases hp with (h | h) | h | h
      · exact hvd h
      · exact hvd h
      · exact h2a h
      · exact h2a h
    · rcases hp with ((h | h) | h | h) | h
      · exact hvd h
      · exact hvd h
      · exact h2a h
      · exact h2a h
      · exact hnd h

/-- The ray `exCyl` passes the test on `v.ds` and divides by `v.ds = 8/5`. -/
theorem segment_divisions_guarded_witness :
    ("vds", segVds exCyl) ∈ segDivisors 1 1 exCyl ∧ EPSILON ≤ |segVds exCyl| := by
  have hv := exCyl_eval.1
  have hmem : ("vds", segVds exCyl) ∈ segDivisors 1 1 exCyl := by
    unfold segDivisors
    have g1 : ¬ |segVds exCyl| < EPSILON := by
      rw [hv, abs_of_pos (by norm_num : (0 : ℝ) < 8 / 5)]; norm_num [EPSILON]
    rw [if_neg g1]
    simp only
    split_ifs <;> simp
  exact ⟨hmem, (segment_divisions_guarded 1 1 exCyl _ hmem).1 rfl⟩

/-! ## The grazing cosine -/

/-- C22: for every hit reported by `segment` with a unit direction `v` and a
hit point off the axis (`au > 0`), the returned normal has unit length,
`calf = rn.v` and `0 <= calf <= 1`, so the test `|calf| > 1` fails and the angle
`pi/2 - acos(calf)` lies in `[0, pi/2]`.  Hence whenever the scan of `capil`
ends with a hit for a unit direction and `au > 0` at the segment hit, `capil`
does not take its branch for `|calf| > 1`: it does not return `iesc = -1`, and
the angle it passes to `reflect` lies in `[0, pi/2]`. -/
theorem grazing_cosine_valid (rad0 rad1 : ℝ) (m : SegArgs)
    (hhit : (segment rad0 rad1 m).1 = 0) (hv : scalar m.v m.v = 1)
    (hau : 0 < Real.sqrt (scalar (segU m (segCk rad0 rad1 m)) (segU m (segCk rad0 rad1 m)))) :
    (scalar (segment rad0 rad1 m).2.rn (segment rad0 rad1 m).2.rn = 1 ∧
      (segment rad0 rad1 m).2.calf = scalar (segment rad0 rad1 m).2.rn m.v ∧
      0 ≤ (segment rad0 rad1 m).2.calf ∧ (segment rad0 rad1 m).2.calf ≤ 1 ∧
      ¬ |(segment rad0 rad1 m).2.calf| > 1.0 ∧
      0 ≤ capilAlf (segment rad0 rad1 m).2.calf ∧
      capilAlf (segment rad0 rad1 m).2.calf ≤ Real.pi / 2) ∧
    (∀ (absmu : mumc) (profile : cap_profile) (cap : inp_file) (s : leakstruct × calcstruct),
      (capilScanned profile cap s.2).1.iesc = 0 → scalar s.2.v s.2.v = 1 →
      (∀ loc : CapilLocals, 0 < capilHitAu profile cap s.2 loc) →
      0 ≤ (capilScanned profile cap s.2).2.calf ∧ (capilScanned profile cap s.2).2.calf ≤ 1 ∧
      ¬ |(capilScanned profile cap s.2).2.calf| > 1.0 ∧
      (capil absmu profile cap s).2.iesc ≠ -1 ∧
      0 ≤ capilAlf (capilScanned profile cap s.2).2.calf ∧
      capilAlf (capilScanned profile cap s.2).2.calf ≤ Real.pi / 2) :=
  ⟨cosine_lemmas.2.1 rad0 rad1 m hhit hv hau,
    fun absmu profile cap s h1 h2 h3 => cosine_lemmas.2.2 absmu profile cap s h1 h2 h3⟩

/-- The ray `exCyl` is a hit with a unit direction and `au = 1`; the photon
`exCalc` in the one-segment profile hits that segment. -/
theorem grazing_cosine_valid_witness :
    ((segment 1 1 exCyl).1 = 0 ∧ scalar exCyl.v exCyl.v = 1 ∧
      0 < Real.sqrt (scalar (segU exCyl (segCk 1 1 exCyl)) (segU exCyl (segCk 1 1 exCyl)))) ∧
    scalar (segment 1 1 exCyl).2.rn (segment 1 1 exCyl).2.rn = 1 ∧
    0 ≤ (segment 1 1 exCyl).2.calf ∧ (segment 1 1 exCyl).2.calf ≤ 1 ∧
    (capil (exAbsmu 0) exProfile (exCap 0) (exLeaks, exCalc)).2.iesc ≠ -1 := by
  have exScanned := example_evals.2.2.1
  have exCyl_au := example_evals.2.2.2.2.2.2.2.2.2.2.2.1
  have exCalc_au := example_evals.2.2.2.2.2.2.2.2.2.2.2.2
  have h1 : (segment 1 1 exCyl).1 = 0 := exCyl_eval.2.2.2.2.2.2
  have h2 : scalar exCyl.v exCyl.v = 1 := by norm_num [scalar, exCyl]
  have h3 : 0 < Real.sqrt (scalar (segU exCyl (segCk 1 1 exCyl))
      (segU exCyl (segCk 1 1 exCyl))) := by rw [exCyl_au]; exact one_pos
  obtain ⟨⟨a1, -, a3, a4, -⟩, b⟩ := grazing_cosine_valid 1 1 exCyl h1 h2 h3
  refine ⟨⟨h1, h2, h3⟩, a1, a3, a4, ?_⟩
  refine (b (exAbsmu 0) exProfile (exCap 0) (exLeaks, exCalc) ?_ ?_ ?_).2.2.2.1
  · rw [exScanned]; rfl
  · norm_num [scalar, exCalc]
  · intro loc
    rw [exCalc_au]
    exact one_pos

/-! ## The weight balance of `reflect` -/

/-- C23: for every call of `reflect` with `alf > 0` and `cl >= 0` and every
energy bin `i` in `0..n_energy` with `w_before[i] >= 0` and `amu_i >= 0`, the
reflectivity lies in `[0,1]`, the new weight satisfies
`0 <= w_after[i] <= w_before[i]`, and the amount added to `leak[i]` is
non-negative and at most `w_before[i] - w_after[i]`. -/
theorem reflect_never_creates_weight (alf : ℝ) (cap : inp_file) (absmu : mumc)
    (profile : cap_profile) (s : leakstruct × calcstruct) (i : Int)
    (half : 0 < alf) (hcl : 0 ≤ profile.cl) (hi0 : 0 ≤ i) (hi1 : i ≤ absmu.n_energy)
    (hw : 0 ≤ s.2.w i) (hamu : 0 ≤ (absmu.arr i).amu) :
    0 ≤ (reflRtot alf cap absmu i).re ∧ (reflRtot alf cap absmu i).re ≤ 1 ∧
    0 ≤ (reflect alf cap absmu profile s).2.2.w i ∧
    (reflect alf cap absmu profile s).2.2.w i ≤ s.2.w i ∧
    0 ≤ (reflect alf cap absmu profile s).2.1.leak i - s.1.leak i ∧
    (reflect alf cap absmu profile s).2.1.leak i - s.1.leak i
      ≤ s.2.w i - (reflect alf cap absmu profile s).2.2.w i := by
  have reflRtot_le_one := setup_lemmas.2.2.2.2.2.2.2.1
  have reflDesc_nonneg := setup_lemmas.2.2.2.2.2.2.2.2
  have reflFactor_eq := fresnel_lemmas.2.1
  have reflWleak_eq := fresnel_lemmas.2.2.1
  have reflRtot_nonneg := fresnel_lemmas.2.2.2.2.1
  have reflect_bin := reflect_lemmas.1
  obtain ⟨hwi, hli⟩ := reflect_bin alf cap absmu profile s i hi0 hi1
  have hR0 := reflRtot_nonneg alf cap absmu i
  have hR1 := reflRtot_le_one alf cap absmu i half.le
  have hrough0 : 0 < reflRough alf cap i := by
    unfold reflRough
    exact Real.exp_pos _
  have hrough1 : reflRough alf cap i ≤ 1 := by
    unfold reflRough
    simp only
    rw [Real.exp_le_one_iff]
    nlinarith [mul_self_nonneg (1.01358e0 * reflE cap i * alf * cap.sig_rough)]
  have hdesc := reflDesc_nonneg cap profile s.2 hcl
  have hexp0 : 0 < Real.exp (-1 * reflDesc cap profile s.2 * (absmu.arr i).amu) :=
    Real.exp_pos _
  have hexp1 : Real.exp (-1 * reflDesc cap profile s.2 * (absmu.arr i).amu) ≤ 1 := by
    rw [Real.exp_le_one_iff]
    nlinarith [mul_nonneg hdesc hamu]
  have hF0 : 0 ≤ reflFactor alf cap absmu i := by
    rw [reflFactor_eq]; exact mul_nonneg hR0 hrough0.le
  have hF1 : reflFactor alf cap absmu i ≤ (reflRtot alf cap absmu i).re := by
    rw [reflFactor_eq]
    exact mul_le_of_le_one_right hR0 hrough1
  rw [hwi, hli, reflWleak_eq]
  have hl0 : 0 ≤ (1 - (reflRtot alf cap absmu i).re) * s.2.w i
      * Real.exp (-1 * reflDesc cap profile s.2 * (absmu.arr i).amu) :=
    mul_nonneg (mul_nonneg (by linarith) hw) hexp0.le
  have hl1 : (1 - (reflRtot alf cap absmu i).re) * s.2.w i
      * Real.exp (-1 * reflDesc cap profile s.2 * (absmu.arr i).amu)
      ≤ (1 - (reflRtot alf cap absmu i).re) * s.2.w i :=
    mul_le_of_le_one_right (mul_nonneg (by linarith) hw) hexp1
  refine ⟨hR0, hR1, mul_nonneg hw hF0, ?_, by linarith, ?_⟩
  · exact mul_le_of_le_one_right hw (hF1.trans hR1)
  · have : s.2.w i * reflFactor alf cap absmu i ≤ s.2.w i * (reflRtot alf cap absmu i).re :=
      mul_le_mul_of_nonneg_left hF1 hw
    nlinarith

/-- The photon `exCalc` of weight 1 reflected at `alf = 1` by a transparent
wall of roughness 1. -/
theorem reflect_never_creates_weight_witness :
    ((0 : ℝ) < 1 ∧ 0 ≤ exProfile.cl ∧ (0 : Int) ≤ 0 ∧ (0 : Int) ≤ (exAbsmu 0).n_energy ∧
      0 ≤ (exLeaks, exCalc).2.w 0 ∧ 0 ≤ ((exAbsmu 0).arr 0).amu) ∧
    0 ≤ (reflect 1 (exCap 1) (exAbsmu 0) exProfile (exLeaks, exCalc)).2.2.w 0 ∧
    (reflect 1 (exCap 1) (exAbsmu 0) exProfile (exLeaks, exCalc)).2.2.w 0
      ≤ (exLeaks, exCalc).2.w 0 := by
  have h1 : (0 : ℝ) ≤ exProfile.cl := by norm_num [exProfile]
  have h2 : (0 : Int) ≤ (exAbsmu 0).n_energy := by simp [exAbsmu]
  have h3 : 0 ≤ (exLeaks, exCalc).2.w 0 := by norm_num [exCalc]
  have h4 : 0 ≤ ((exAbsmu 0).arr 0).amu := by simp [exAbsmu]
  obtain ⟨-, -, c1, c2, -⟩ := reflect_never_creates_weight 1 (exCap 1) (exAbsmu 0) exProfile
    (exLeaks, exCalc) 0 one_pos h1 le_rfl h2 h3 h4
  exact ⟨⟨one_pos, h1, le_rfl, h2, h3, h4⟩, c1, c2⟩

end

end Polycap
